import Mathlib

/-!
# SMPTE timecode (`smpte-timecode.js`)

A shallow embedding of the `Timecode` object of `src/smpte-timecode.js` and the
properties of its frame-count / timecode conversion, its validation and its arithmetic.

Modelling conventions

* A frame rate is a JavaScript number; it is modelled as an exact rational `ℚ`
  (`29.97` is `2997/100`, `DROP_FRAME_EPSILON` is `1/10000`), so floating-point rounding of
  the rate itself is idealised away.  Everything computed from it is integer arithmetic.
* Integer arithmetic is exact in `JSNum`; in the program it is the arithmetic of doubles,
  which is exact below `2 ^ 53`.  Where a statement reaches beyond that, it is made about
  the definitions of `Binary64`, which round as doubles do; `Binary64.frameCountToTimeCode_eq`
  and `Binary64.add64_eq_add` show that the two agree below `2 ^ 53`.
* The numbers stored in the object (`frameCount`, `hours`, `minutes`, `seconds`, `frames`)
  are integers or `NaN`; they are values of `JSNum`.  `NaN` arises from `x % 0` and from
  `Math.floor(x / 0) % k`, exactly as in JavaScript.
* Methods that mutate `this` are functions from the old object to the new one; methods that
  can throw return `Except Error _`.
-/

namespace SmpteTimecode

/-! ## JavaScript numbers -/

/-- The number values that the program stores in a `Timecode`: an integer, or `nan`.
`nan` also stands for a field that is still `undefined` (which reads as `NaN` in every
numeric context) and for the infinite intermediate result of a division by zero: in the
expressions of this program an infinity is only ever multiplied by `0` or reduced with `%`,
and both give `NaN`. -/
inductive JSNum where
  | int (n : Int)
  | nan
deriving DecidableEq

namespace JSNum

/-- JavaScript `a + b`, exact on integers. -/
def add : JSNum → JSNum → JSNum
  | int a, int b => int (a + b)
  | _, _ => nan

/-- JavaScript `a - b`, exact on integers. -/
def sub : JSNum → JSNum → JSNum
  | int a, int b => int (a - b)
  | _, _ => nan

/-- JavaScript `a * b`, exact on integers. -/
def mul : JSNum → JSNum → JSNum
  | int a, int b => int (a * b)
  | _, _ => nan

/-- JavaScript `a % b`: the remainder has the sign of the dividend, and `a % 0` is `NaN`. -/
def mod : JSNum → JSNum → JSNum
  | int a, int b => if b = 0 then nan else int (a.tmod b)
  | _, _ => nan

/-- JavaScript `Math.floor(a / b)`; the division is the real one.  For `b = 0` the
JavaScript value is `NaN` or an infinity, represented by `nan`. -/
def floorDiv : JSNum → JSNum → JSNum
  | int a, int b => if b = 0 then nan else int ⌊(a : ℚ) / (b : ℚ)⌋
  | _, _ => nan

/-- JavaScript `a < b` (false when an operand is `NaN`). -/
def lt : JSNum → JSNum → Bool
  | int a, int b => decide (a < b)
  | _, _ => false

/-- JavaScript `a > b` (false when an operand is `NaN`). -/
def gt : JSNum → JSNum → Bool
  | int a, int b => decide (a > b)
  | _, _ => false

/-- JavaScript `a >= r` for a stored number `a` and a rational `r`. -/
def geRat : JSNum → ℚ → Bool
  | int a, r => decide ((a : ℚ) ≥ r)
  | nan, _ => false

/-- JavaScript `a > r` for a rational `a / rate / 3600`-style quantity: the stored number
`a` is divided by the rationals `x` and `y` and compared with `r`. -/
def divDivGtRat : JSNum → ℚ → ℚ → ℚ → Bool
  | int a, x, y, r => decide ((a : ℚ) / x / y > r)
  | nan, _, _, _ => false

/-- JavaScript `a === b` on numbers (`NaN` is not equal to anything). -/
def strictEq : JSNum → JSNum → Bool
  | int a, int b => decide (a = b)
  | _, _ => false

/-- Truthiness of a number: `0` and `NaN` are falsy. -/
def truthy : JSNum → Bool
  | int a => decide (a ≠ 0)
  | nan => false

/-- JavaScript `Number.prototype.toString()` on the stored numbers. -/
def toStr : JSNum → String
  | int a => toString a
  | nan => "NaN"

instance : Add JSNum := ⟨add⟩
instance : Sub JSNum := ⟨sub⟩
instance : Mul JSNum := ⟨mul⟩
instance : Mod JSNum := ⟨mod⟩

end JSNum

namespace Math

/-- JavaScript `Math.round` on a (finite) number: the nearest integer, ties towards `+∞`. -/
def round (x : ℚ) : Int := ⌊x + 1 / 2⌋

end Math

/-! ## Double precision

The stored numbers are IEEE 754 doubles.  On integers the operations of `JSNum` are exact;
the doubles agree with them as long as no result reaches `2 ^ 53` in absolute value.
`JSNum.Binary64` has the operations with the rounding of doubles, for the statements that
go beyond that range. -/

namespace JSNum
namespace Binary64

/-- The integer nearest to `y`, a tie going to the even one. -/
def roundHalfEven (y : ℚ) : Int :=
  if y - ⌊y⌋ < 1 / 2 then ⌊y⌋
  else if 1 / 2 < y - ⌊y⌋ then ⌊y⌋ + 1
  else if ⌊y⌋ % 2 = 0 then ⌊y⌋ else ⌊y⌋ + 1

/-- The double nearest to the rational `x`: 53 significant bits, a tie going to the even
significand.  The exponent range of doubles is not modelled. -/
def round (x : ℚ) : ℚ :=
  (roundHalfEven (x / 2 ^ (Int.log 2 |x| - 52)) : ℚ) * 2 ^ (Int.log 2 |x| - 52)

/-- JavaScript `a + b` on integer-valued doubles. -/
def add : JSNum → JSNum → JSNum
  | int a, int b => int ⌊round ((a : ℚ) + (b : ℚ))⌋
  | _, _ => nan

/-- JavaScript `a - b` on integer-valued doubles. -/
def sub : JSNum → JSNum → JSNum
  | int a, int b => int ⌊round ((a : ℚ) - (b : ℚ))⌋
  | _, _ => nan

/-- JavaScript `a * b` on integer-valued doubles. -/
def mul : JSNum → JSNum → JSNum
  | int a, int b => int ⌊round ((a : ℚ) * (b : ℚ))⌋
  | _, _ => nan

/-- JavaScript `Math.floor(a / b)` on integer-valued doubles. -/
def floorDiv : JSNum → JSNum → JSNum
  | int a, int b => if b = 0 then nan else int ⌊round ((a : ℚ) / (b : ℚ))⌋
  | _, _ => nan

end Binary64
end JSNum

/-! ## The `Timecode` object -/

/-- The constant `DROP_FRAME_EPSILON = 0.0001`. -/
def DROP_FRAME_EPSILON : ℚ := 1 / 10000

/-- The fields of a `Timecode` object. -/
structure Timecode where
  frameRate : ℚ
  dropFrame : Bool
  frameCount : JSNum
  hours : JSNum
  minutes : JSNum
  seconds : JSNum
  frames : JSNum
deriving DecidableEq

/-- The errors thrown by the program, one per message. -/
inductive Error where
  /-- Message `Number expected as framerate`. -/
  | numberExpectedAsFramerate
  /-- Message `Timecode string expected as HH:MM:SS:FF or HH:MM:SS;FF or HH;MM;SS;FF`. -/
  | timecodeStringExpected
  /-- Message `Drop frame is only supported for 29.97 and 59.94 fps`. -/
  | dropFrameOnlySupported
  /-- Message `Invalid timecode` followed by the input. -/
  | invalidTimecode
  /-- Message `Unsupported string format`. -/
  | unsupportedStringFormat
  /-- Message `Rollover arithmetic exceeds max permitted`. -/
  | rolloverExceedsMax
  /-- Message `Negative timecodes not supported`. -/
  | negativeTimecodes
deriving DecidableEq

namespace Timecode

/-- Method `_is30DF`: `Math.abs(30000/1001 - this.frameRate) < DROP_FRAME_EPSILON`. -/
def _is30DF (this : Timecode) : Bool :=
  decide (|30000 / 1001 - this.frameRate| < DROP_FRAME_EPSILON)

/-- Method `_is60DF`: `Math.abs(60000/1001 - this.frameRate) < DROP_FRAME_EPSILON`. -/
def _is60DF (this : Timecode) : Bool :=
  decide (|60000 / 1001 - this.frameRate| < DROP_FRAME_EPSILON)

/-- Method `_numOfFramesToDrop`: 2 at 29.97, 4 at 59.94, otherwise 0. -/
def _numOfFramesToDrop (this : Timecode) : Int :=
  if this._is30DF then 2
  else if this._is60DF then 4
  else 0

/-- Method `_frameCountToTimeCode`: recompute `hours`, `minutes`, `seconds`, `frames` from
`frameCount`, in exact integer arithmetic.  The program computes in doubles
(`Binary64._frameCountToTimeCode`), with the same result as long as the frame number with
the dropped numbers counted in is below `2 ^ 53`. -/
def _frameCountToTimeCode (this : Timecode) : Timecode :=
  let fc := this.frameCount
  let fc :=
    if this.dropFrame then
      let df := this._numOfFramesToDrop
      let d := JSNum.floorDiv this.frameCount (.int (17982 * df / 2))
      let m := this.frameCount % JSNum.int (17982 * df / 2)
      let m := if JSNum.lt m (.int df) then m + .int df else m
      fc + (.int (9 * df) * d + .int df * JSNum.floorDiv (m - .int df) (.int (1798 * df / 2)))
    else fc
  let fps := Math.round this.frameRate
  { this with
    frames := fc % .int fps
    seconds := JSNum.floorDiv fc (.int fps) % .int 60
    minutes := JSNum.floorDiv fc (.int (fps * 60)) % .int 60
    hours := JSNum.floorDiv fc (.int (fps * 3600)) % .int 24 }

/-- Abbreviation read off the body of `_frameCountToTimeCode`: the frame number with the
dropped numbers counted in, that is the value of the local `fc` after the drop-frame
adjustment, for a count `c ≥ 0` and a drop of `df` numbers per minute (on such `c` the
JavaScript `%` and `Math.floor(x / y)` are the integer `%` and `/`). -/
def inflated (df c : Int) : Int :=
  let m := c % (17982 * df / 2)
  let m := if m < df then m + df else m
  c + (9 * df * (c / (17982 * df / 2)) + df * ((m - df) / (1798 * df / 2)))

/-- Method `_timeCodeToFrameCount`: recompute `frameCount` from `hours`, `minutes`,
`seconds`, `frames`. -/
def _timeCodeToFrameCount (this : Timecode) : Timecode :=
  let frameCount :=
    (this.hours * .int 3600 + this.minutes * .int 60 + this.seconds)
        * .int (Math.round this.frameRate)
      + this.frames
  if this.dropFrame then
    let totalMinutes := this.hours * .int 60 + this.minutes
    let df := this._numOfFramesToDrop
    { this with
      frameCount :=
        frameCount - .int df * (totalMinutes - JSNum.floorDiv totalMinutes (.int 10)) }
  else
    { this with frameCount := frameCount }

/-- Method `_validate`: throws when drop-frame is set at a rate that is neither 29.97 nor
59.94, and when the fields are out of range or name a dropped frame number. -/
def _validate (this : Timecode) : Except Error Unit :=
  if this.dropFrame && !this._is30DF && !this._is60DF then
    .error .dropFrameOnlySupported
  else if JSNum.gt this.hours (.int 23) || JSNum.gt this.minutes (.int 59)
      || JSNum.gt this.seconds (.int 59)
      || JSNum.geRat this.frames this.frameRate
      || (this.dropFrame && JSNum.strictEq this.seconds (.int 0)
          && JSNum.truthy (this.minutes % .int 10)
          && JSNum.lt this.frames (.int this._numOfFramesToDrop)) then
    .error .invalidTimecode
  else
    .ok ()

/-- Strict lexicographic order on the fields (hours, minutes, seconds, frames) of two
objects, with the comparisons of JavaScript numbers. -/
def precedes (a b : Timecode) : Bool :=
  JSNum.lt a.hours b.hours
    || (JSNum.strictEq a.hours b.hours
      && (JSNum.lt a.minutes b.minutes
        || (JSNum.strictEq a.minutes b.minutes
          && (JSNum.lt a.seconds b.seconds
            || (JSNum.strictEq a.seconds b.seconds && JSNum.lt a.frames b.frames)))))

/-- The number of timecodes in a day at the object's settings: the frame count that
`_timeCodeToFrameCount` gives 23:59:59 with frame number `round(rate) - 1`, plus one.  The
drop-frame adjustment of that timecode is `df * (1439 - 143)`. -/
def timecodesPerDay (this : Timecode) : Int :=
  86400 * Math.round this.frameRate
    - (if this.dropFrame then this._numOfFramesToDrop * 1296 else 0)

/-! ### Construction -/

/-- The first argument of the constructor: a number, a string, or an object with the
fields `hours`, `minutes`, `seconds`, `frames` (integers here). -/
inductive Input where
  | number (n : ℚ)
  | string (s : String)
  | object (hours minutes seconds frames : Int)

/-- The capture groups 1 to 5 of the constructor's regular expression, the numeric ones
already passed through `parseInt`. -/
structure Parts where
  p1 : Int
  p2 : Int
  p3 : Int
  p4 : Char
  p5 : Int
deriving DecidableEq

/-- JavaScript `parseInt` on a two-digit decimal string. -/
def parseInt2 (a b : Char) : Int := 10 * ((a.toNat : Int) - 48) + ((b.toNat : Int) - 48)

/-- The match of a string against
`^([012]\d)[:;](\d\d)[:;](\d\d)(:|;|\.)(\d\d)$`; `none` when it does not match. -/
def matchTimecode (s : String) : Option Parts :=
  match s.data with
  | [h1, h2, c1, m1, m2, c2, s1, s2, c3, f1, f2] =>
    if (h1 == '0' || h1 == '1' || h1 == '2') && h2.isDigit
        && (c1 == ':' || c1 == ';')
        && m1.isDigit && m2.isDigit
        && (c2 == ':' || c2 == ';')
        && s1.isDigit && s2.isDigit
        && (c3 == ':' || c3 == ';' || c3 == '.')
        && f1.isDigit && f2.isDigit then
      some { p1 := parseInt2 h1 h2, p2 := parseInt2 m1 m2, p3 := parseInt2 s1 s2, p4 := c3,
             p5 := parseInt2 f1 f2 }
    else none
  | _ => none

/-- The constructor `Timecode(timeCode, frameRate, dropFrame)`; `dropFrame = none` is a call
without a boolean third argument. -/
def new (timeCode : Input) (frameRate : ℚ) (dropFrame : Option Bool) :
    Except Error Timecode :=
  if frameRate > 0 then
    let this : Timecode :=
      { frameRate := frameRate, dropFrame := false, frameCount := .nan, hours := .nan,
        minutes := .nan, seconds := .nan, frames := .nan }
    let this : Timecode :=
      match dropFrame with
      | some b => { this with dropFrame := b }
      | none => { this with dropFrame := this._is30DF || this._is60DF }
    match timeCode with
    | .number n =>
      let this := { this with frameCount := .int (Math.round n) }
      let this := this._frameCountToTimeCode
      match this._validate with
      | .error e => .error e
      | .ok _ => .ok this
    | .string s =>
      match matchTimecode s with
      | none => .error .timecodeStringExpected
      | some parts =>
        let this := { this with hours := .int parts.p1, minutes := .int parts.p2,
                                seconds := .int parts.p3 }
        let this : Timecode :=
          match dropFrame with
          | some _ => this
          | none => { this with dropFrame := (parts.p4 != ':') }
        let this := { this with frames := .int parts.p5 }
        let this := this._timeCodeToFrameCount
        match this._validate with
        | .error e => .error e
        | .ok _ => .ok this
    | .object hours minutes seconds frames =>
      let this := { this with hours := .int hours, minutes := .int minutes,
                              seconds := .int seconds, frames := .int frames }
      let this := this._timeCodeToFrameCount
      match this._validate with
      | .error e => .error e
      | .ok _ => .ok this
  else .error .numberExpectedAsFramerate

/-! ### Formatting -/

/-- Method `toString(format)`; `format = none` is a call without a string argument. -/
def toString (this : Timecode) (format : Option String) : Except Error String :=
  let render (frames : JSNum) (field : String) : String :=
    (if JSNum.lt this.hours (.int 10) then "0" else "") ++ this.hours.toStr ++ ":"
      ++ (if JSNum.lt this.minutes (.int 10) then "0" else "") ++ this.minutes.toStr ++ ":"
      ++ (if JSNum.lt this.seconds (.int 10) then "0" else "") ++ this.seconds.toStr
      ++ (if this.dropFrame then ";" else ":")
      ++ (if JSNum.lt frames (.int 10) then "0" else "") ++ frames.toStr
      ++ field
  match format with
  | none => .ok (render this.frames "")
  | some f =>
    if f = "field" then
      if this.frameRate ≤ 30 then .ok (render this.frames ".0")
      else .ok (render (JSNum.floorDiv this.frames (.int 2))
        ("." ++ (this.frameCount % JSNum.int 2).toStr))
    else .error .unsupportedStringFormat

/-- Method `valueOf`. -/
def valueOf (this : Timecode) : JSNum := this.frameCount

/-- A number of at most two digits written with two digits: the pieces
`n < 10 ? '0' : ''` and `n.toString()` of `toString`. -/
def twoDigits (n : Int) : String := (if n < 10 then "0" else "") ++ ToString.toString n

/-- The string `HH:MM:00;00` of the ten-minute mark `MM = 10 * k` in hour `H`. -/
def tenMinuteMark (H k : Nat) : String :=
  twoDigits H ++ ":" ++ twoDigits (10 * k) ++ ":00;00"

/-! ### Arithmetic -/

/-- The first argument of `add` and `subtract`: a value the constructor accepts, or a
`Timecode`. -/
inductive Operand where
  | value (v : Input)
  | timecode (t : Timecode)

/-- The branch `typeof t === 'number'` of `add`, on the already rounded amount
`r = Math.round(t)` (a `Timecode` operand passes its `frameCount`, which may be `NaN`), in
exact integer arithmetic.  The program computes in doubles (`Binary64.addNumber`), with the
same result as long as the new count is below `2 ^ 53`. -/
def addNumber (this : Timecode) (r : JSNum) (negative : Bool) (rollOverMaxHours : Option ℚ) :
    Except Error Timecode :=
  let newFrameCount := this.frameCount + r * (if negative then JSNum.int (-1) else JSNum.int 1)
  let day : Int := Math.round (this.frameRate * 86400)
  let rolls : Bool :=
    JSNum.lt newFrameCount (.int 0)
      && (match rollOverMaxHours with
          | some h => decide (h > 0)
          | none => false)
  let newFrameCount := if rolls then .int day + newFrameCount else newFrameCount
  if rolls && (match rollOverMaxHours with
      | some h => JSNum.divDivGtRat newFrameCount this.frameRate 3600 h
      | none => false) then
    .error .rolloverExceedsMax
  else if JSNum.lt newFrameCount (.int 0) then
    .error .negativeTimecodes
  else
    let this : Timecode := { this with frameCount := newFrameCount }
    let this : Timecode := { this with frameCount := this.frameCount % JSNum.int day }
    .ok this._frameCountToTimeCode

/-- Method `add(t, negative, rollOverMaxHours)`; the result is the receiver after the call.
A string or object operand is first made a `Timecode` at the receiver's frame rate and
drop-frame flag. -/
def add (this : Timecode) (t : Operand) (negative : Bool) (rollOverMaxHours : Option ℚ) :
    Except Error Timecode :=
  match t with
  | .value (.number n) => this.addNumber (.int (Math.round n)) negative rollOverMaxHours
  | .timecode t => this.addNumber t.frameCount negative rollOverMaxHours
  | .value v =>
    match new v this.frameRate (some this.dropFrame) with
    | .error e => .error e
    | .ok t => this.addNumber t.frameCount negative rollOverMaxHours

/-- Method `subtract(t, rollOverMaxHours)`. -/
def subtract (this : Timecode) (t : Operand) (rollOverMaxHours : Option ℚ) :
    Except Error Timecode :=
  this.add t true rollOverMaxHours

/-! ### Arithmetic with the receiver's state made explicit

`add` and `subtract` change the receiver in place.  `addInPlace` follows the statements of
`add` one by one and returns the receiver as it is when the call ends, normally or by a
`throw`. -/

/-- How a call of a mutating method ends: the receiver's state at that point, and the error
thrown, if any. -/
structure Outcome where
  receiver : Timecode
  thrown : Option Error

/-- The branch `typeof t === 'number'` of `add`, statement by statement.  The two `throw`
statements come before the first assignment to `this.frameCount`; after it follow the
reduction with `%` and the call of `_frameCountToTimeCode`. -/
def addNumberInPlace (this : Timecode) (r : JSNum) (negative : Bool)
    (rollOverMaxHours : Option ℚ) : Outcome :=
  let newFrameCount := this.frameCount + r * (if negative then JSNum.int (-1) else JSNum.int 1)
  let day : Int := Math.round (this.frameRate * 86400)
  let rolls : Bool :=
    JSNum.lt newFrameCount (.int 0)
      && (match rollOverMaxHours with
          | some h => decide (h > 0)
          | none => false)
  let newFrameCount := if rolls then .int day + newFrameCount else newFrameCount
  if rolls && (match rollOverMaxHours with
      | some h => JSNum.divDivGtRat newFrameCount this.frameRate 3600 h
      | none => false) then
    { receiver := this, thrown := some .rolloverExceedsMax }
  else if JSNum.lt newFrameCount (.int 0) then
    { receiver := this, thrown := some .negativeTimecodes }
  else
    let this : Timecode := { this with frameCount := newFrameCount }
    let this : Timecode := { this with frameCount := this.frameCount % JSNum.int day }
    let this : Timecode := this._frameCountToTimeCode
    { receiver := this, thrown := none }

/-- Method `add`, statement by statement: an operand that is neither a number nor a
`Timecode` goes through the constructor first, which may throw before the receiver is
touched. -/
def addInPlace (this : Timecode) (t : Operand) (negative : Bool)
    (rollOverMaxHours : Option ℚ) : Outcome :=
  match t with
  | .value (.number n) => this.addNumberInPlace (.int (Math.round n)) negative rollOverMaxHours
  | .timecode t => this.addNumberInPlace t.frameCount negative rollOverMaxHours
  | .value v =>
    match new v this.frameRate (some this.dropFrame) with
    | .error e => { receiver := this, thrown := some e }
    | .ok t => this.addNumberInPlace t.frameCount negative rollOverMaxHours

/-- Method `subtract`, statement by statement. -/
def subtractInPlace (this : Timecode) (t : Operand) (rollOverMaxHours : Option ℚ) : Outcome :=
  this.addInPlace t true rollOverMaxHours

/-! ### The values that exist -/

/-- The `Timecode` values a program can hold: those the constructor returns, and those a
successful `add` or `subtract` leaves in a receiver that existed before. -/
inductive Reachable : Timecode → Prop where
  | construct (timeCode : Input) (frameRate : ℚ) (dropFrame : Option Bool) (t : Timecode) :
      new timeCode frameRate dropFrame = .ok t → Reachable t
  | add (this : Timecode) (t : Operand) (negative : Bool) (rollOverMaxHours : Option ℚ)
      (u : Timecode) :
      Reachable this → this.add t negative rollOverMaxHours = .ok u → Reachable u

end Timecode

/-! ## Dates

A `Date` is represented by its time value, the number of milliseconds since the epoch (an
integer; `NaN` for an invalid `Date`).  What the program reads from the host about the local
calendar is a parameter of the methods that use it. -/

/-- The local calendar of the host, as far as the program reads it. -/
structure Host where
  /-- Value of `getTimezoneOffset()` on the `Date` with the given time value, in minutes. -/
  getTimezoneOffset : Int → Int
  /-- Time value of the local midnight that starts the day of the `Date` with the given time
  value: `new Date(d.getFullYear(), d.getMonth(), d.getDate(), 0, 0, 0)`, which is also what
  `setHours(0)`, `setMinutes(0)`, `setSeconds(0)`, `setMilliseconds(0)` leave in `d`. -/
  midnight : Int → Int
  /-- Time value of `new Date()`. -/
  now : Int

namespace Host

/-- Local (wall-clock) time of the instant `t`, in milliseconds: `getTimezoneOffset()` is
the difference between `t` and the local time, in minutes. -/
def localTime (host : Host) (t : Int) : Int := t - host.getTimezoneOffset t * 60 * 1000

end Host

namespace Date

/-- Time value of `new Date(x)` for a finite number `x`: `x` with the fraction dropped
(the limit of 8.64e15 on time values is left out). -/
def timeClip (x : ℚ) : Int := if 0 ≤ x then ⌊x⌋ else ⌈x⌉

end Date

namespace Timecode

/-- The constructor `Timecode(timeCode, frameRate, dropFrame)` on a `Date` with time value
`timeCode`. -/
def newFromDate (host : Host) (timeCode : Int) (frameRate : ℚ) (dropFrame : Option Bool) :
    Except Error Timecode :=
  if frameRate > 0 then
    let this : Timecode :=
      { frameRate := frameRate, dropFrame := false, frameCount := .nan, hours := .nan,
        minutes := .nan, seconds := .nan, frames := .nan }
    let this : Timecode :=
      match dropFrame with
      | some b => { this with dropFrame := b }
      | none => { this with dropFrame := this._is30DF || this._is60DF }
    let midnight := host.midnight timeCode
    let midnight_tz := host.getTimezoneOffset midnight * 60 * 1000
    let timecode_tz := host.getTimezoneOffset timeCode * 60 * 1000
    let this :=
      { this with
        frameCount := .int (Math.round
          ((((timeCode - midnight + (midnight_tz - timecode_tz) : Int) : ℚ) * this.frameRate)
            / 1000)) }
    let this := this._frameCountToTimeCode
    match this._validate with
    | .error e => .error e
    | .ok _ => .ok this
  else .error .numberExpectedAsFramerate

/-- Method `toDate`: the time value of the returned `Date` (`NaN` when `frameCount` is
`NaN` or the frame rate is 0, an invalid `Date`). -/
def toDate (this : Timecode) (host : Host) : JSNum :=
  match this.frameCount with
  | .nan => .nan
  | .int frameCount =>
    if this.frameRate = 0 then .nan
    else
      let ms : ℚ := (frameCount : ℚ) / this.frameRate * 1000
      let midnight := host.midnight host.now
      let d := Date.timeClip ((midnight : ℚ) + ms)
      let midnight_tz := host.getTimezoneOffset midnight * 60 * 1000
      let timecode_tz := host.getTimezoneOffset d * 60 * 1000
      .int (Date.timeClip ((midnight : ℚ) + ms + ((timecode_tz - midnight_tz : Int) : ℚ)))

/-! ### The conversion and `add` in double precision

`_frameCountToTimeCode` and `add` above compute with exact integers.  The program computes
with doubles, which is the same as long as no sum or product reaches `2 ^ 53`.  The
definitions in `Binary64` follow the same statements with every `+`, `-`, `*` and every
`Math.floor(a / b)` rounded as the doubles do; `%` and the comparisons are exact on
doubles. -/

namespace Binary64

/-- Method `_frameCountToTimeCode`, in double precision. -/
def _frameCountToTimeCode (this : Timecode) : Timecode :=
  let fc := this.frameCount
  let fc :=
    if this.dropFrame then
      let df := this._numOfFramesToDrop
      let d := JSNum.Binary64.floorDiv this.frameCount (.int (17982 * df / 2))
      let m := this.frameCount % JSNum.int (17982 * df / 2)
      let m := if JSNum.lt m (.int df) then JSNum.Binary64.add m (.int df) else m
      JSNum.Binary64.add fc
        (JSNum.Binary64.add (JSNum.Binary64.mul (.int (9 * df)) d)
          (JSNum.Binary64.mul (.int df)
            (JSNum.Binary64.floorDiv (JSNum.Binary64.sub m (.int df))
              (.int (1798 * df / 2)))))
    else fc
  let fps := Math.round this.frameRate
  { this with
    frames := fc % .int fps
    seconds := JSNum.Binary64.floorDiv fc (.int fps) % .int 60
    minutes :=
      JSNum.Binary64.floorDiv fc (JSNum.Binary64.mul (.int fps) (.int 60)) % .int 60
    hours :=
      JSNum.Binary64.floorDiv fc (JSNum.Binary64.mul (.int fps) (.int 3600)) % .int 24 }

/-- The branch `typeof t === 'number'` of `add`, in double precision, on the already
rounded amount `r = Math.round(t)`; changing the sign of `r` is exact. -/
def addNumber (this : Timecode) (r : JSNum) (negative : Bool) (rollOverMaxHours : Option ℚ) :
    Except Error Timecode :=
  let newFrameCount :=
    JSNum.Binary64.add this.frameCount
      (r * (if negative then JSNum.int (-1) else JSNum.int 1))
  let day : Int := Math.round (this.frameRate * 86400)
  let rolls : Bool :=
    JSNum.lt newFrameCount (.int 0)
      && (match rollOverMaxHours with
          | some h => decide (h > 0)
          | none => false)
  let newFrameCount :=
    if rolls then JSNum.Binary64.add (.int day) newFrameCount else newFrameCount
  if rolls && (match rollOverMaxHours with
      | some h => JSNum.divDivGtRat newFrameCount this.frameRate 3600 h
      | none => false) then
    .error .rolloverExceedsMax
  else if JSNum.lt newFrameCount (.int 0) then
    .error .negativeTimecodes
  else
    let this : Timecode := { this with frameCount := newFrameCount }
    let this : Timecode := { this with frameCount := this.frameCount % JSNum.int day }
    .ok (_frameCountToTimeCode this)

/-- Method `add(t, negative, rollOverMaxHours)` on a number `t`, in double precision. -/
def add (this : Timecode) (t : ℚ) (negative : Bool) (rollOverMaxHours : Option ℚ) :
    Except Error Timecode :=
  addNumber this (.int (Math.round t)) negative rollOverMaxHours

/-- Method `subtract(t, rollOverMaxHours)` on a number `t`, in double precision. -/
def subtract (this : Timecode) (t : ℚ) (rollOverMaxHours : Option ℚ) :
    Except Error Timecode :=
  add this t true rollOverMaxHours

end Binary64

end Timecode

/-! ## Arithmetic on stored numbers -/

theorem floor_intCast_div_pos (a b : Int) (hb : 0 < b) : ⌊(a : ℚ) / (b : ℚ)⌋ = a / b := by
  obtain ⟨n, rfl⟩ := Int.eq_ofNat_of_zero_le hb.le
  exact_mod_cast Rat.floor_intCast_div_natCast a n

namespace JSNum

@[simp] theorem int_add_int (a b : Int) : (int a + int b : JSNum) = int (a + b) := rfl
@[simp] theorem int_sub_int (a b : Int) : (int a - int b : JSNum) = int (a - b) := rfl
@[simp] theorem int_mul_int (a b : Int) : (int a * int b : JSNum) = int (a * b) := rfl
@[simp] theorem lt_int_int (a b : Int) : lt (int a) (int b) = decide (a < b) := rfl
@[simp] theorem gt_int_int (a b : Int) : gt (int a) (int b) = decide (b < a) := rfl
@[simp] theorem strictEq_int_int (a b : Int) : strictEq (int a) (int b) = decide (a = b) := rfl
@[simp] theorem truthy_int (a : Int) : truthy (int a) = decide (a ≠ 0) := rfl
@[simp] theorem geRat_int (a : Int) (r : ℚ) : geRat (int a) r = decide (r ≤ (a : ℚ)) := rfl

theorem int_mod_int (a b : Int) (ha : 0 ≤ a) (hb : 0 < b) :
    (int a % int b : JSNum) = int (a % b) := by
  show JSNum.mod (int a) (int b) = _
  simp [JSNum.mod, hb.ne', Int.tmod_eq_emod ha hb.le]

theorem floorDiv_int_int (a b : Int) (hb : 0 < b) : floorDiv (int a) (int b) = int (a / b) := by
  simp [floorDiv, hb.ne', floor_intCast_div_pos a b hb]

end JSNum

namespace Timecode

/-! ## Frame rates -/

theorem is30DF_iff (this : Timecode) :
    this._is30DF = true ↔ |30000 / 1001 - this.frameRate| < 1 / 10000 := by
  simp [_is30DF, DROP_FRAME_EPSILON]

theorem is60DF_iff (this : Timecode) :
    this._is60DF = true ↔ |60000 / 1001 - this.frameRate| < 1 / 10000 := by
  simp [_is60DF, DROP_FRAME_EPSILON]

theorem round_of_is30DF (this : Timecode) (h : this._is30DF = true) :
    Math.round this.frameRate = 30 := by
  rw [is30DF_iff, abs_lt] at h
  unfold Math.round
  rw [Int.floor_eq_iff]
  constructor <;> push_cast <;> linarith [h.1, h.2]

theorem round_of_is60DF (this : Timecode) (h : this._is60DF = true) :
    Math.round this.frameRate = 60 := by
  rw [is60DF_iff, abs_lt] at h
  unfold Math.round
  rw [Int.floor_eq_iff]
  constructor <;> push_cast <;> linarith [h.1, h.2]

theorem not_is60DF_of_is30DF (this : Timecode) (h : this._is30DF = true) :
    this._is60DF = false := by
  by_contra h6
  have h6 : this._is60DF = true := by simpa using h6
  have e3 := round_of_is30DF this h
  have e6 := round_of_is60DF this h6
  omega

theorem numOfFramesToDrop_of_is30DF (this : Timecode) (h : this._is30DF = true) :
    this._numOfFramesToDrop = 2 := by
  simp [_numOfFramesToDrop, h]

theorem numOfFramesToDrop_of_is60DF (this : Timecode) (h : this._is60DF = true) :
    this._numOfFramesToDrop = 4 := by
  have h3 : this._is30DF = false := by
    by_contra h3
    have h3 : this._is30DF = true := by simpa using h3
    simp [not_is60DF_of_is30DF this h3] at h
  simp [_numOfFramesToDrop, h, h3]

/-- The drop-eligible rates have `_numOfFramesToDrop = 2` and `Math.round = 30`, or
`_numOfFramesToDrop = 4` and `Math.round = 60`. -/
theorem eligible_cases (this : Timecode) (h : this._is30DF = true ∨ this._is60DF = true) :
    (this._numOfFramesToDrop = 2 ∧ Math.round this.frameRate = 30) ∨
    (this._numOfFramesToDrop = 4 ∧ Math.round this.frameRate = 60) := by
  rcases h with h | h
  · exact Or.inl ⟨numOfFramesToDrop_of_is30DF this h, round_of_is30DF this h⟩
  · exact Or.inr ⟨numOfFramesToDrop_of_is60DF this h, round_of_is60DF this h⟩

theorem is30DF_2997 (this : Timecode) (h : this.frameRate = 2997 / 100) : this._is30DF = true := by
  rw [is30DF_iff, h, abs_lt]; norm_num

theorem is60DF_5994 (this : Timecode) (h : this.frameRate = 2997 / 50) : this._is60DF = true := by
  rw [is60DF_iff, h, abs_lt]; norm_num


/-! ## Evaluating the conversions on integers -/

theorem frameCountToTimeCode_nodrop (this : Timecode) (c : Int) (hd : this.dropFrame = false)
    (hc : this.frameCount = .int c) (h0 : 0 ≤ c) (hfps : 0 < Math.round this.frameRate) :
    this._frameCountToTimeCode =
      { this with
        frames := .int (c % Math.round this.frameRate)
        seconds := .int (c / Math.round this.frameRate % 60)
        minutes := .int (c / (Math.round this.frameRate * 60) % 60)
        hours := .int (c / (Math.round this.frameRate * 3600) % 24) } := by
  have h1 : 0 ≤ c / Math.round this.frameRate := Int.ediv_nonneg h0 hfps.le
  have h2 : 0 ≤ c / (Math.round this.frameRate * 60) := Int.ediv_nonneg h0 (by positivity)
  have h3 : 0 ≤ c / (Math.round this.frameRate * 3600) := Int.ediv_nonneg h0 (by positivity)
  simp only [_frameCountToTimeCode, hd, hc, Bool.false_eq_true, if_false]
  rw [JSNum.int_mod_int _ _ h0 hfps, JSNum.floorDiv_int_int _ _ hfps,
    JSNum.floorDiv_int_int _ _ (by positivity), JSNum.floorDiv_int_int _ _ (by positivity),
    JSNum.int_mod_int _ _ h1 (by norm_num), JSNum.int_mod_int _ _ h2 (by norm_num),
    JSNum.int_mod_int _ _ h3 (by norm_num)]

theorem dropAdjust_eq (c df : Int) (h0 : 0 ≤ c) (hdf : df = 2 ∨ df = 4) :
    (JSNum.int c + (JSNum.int (9 * df) * JSNum.floorDiv (.int c) (.int (17982 * df / 2))
      + JSNum.int df * JSNum.floorDiv
          ((if JSNum.lt (JSNum.int c % JSNum.int (17982 * df / 2)) (.int df)
            then JSNum.int c % JSNum.int (17982 * df / 2) + .int df
            else JSNum.int c % JSNum.int (17982 * df / 2)) - .int df)
          (.int (1798 * df / 2)))) = .int (inflated df c) := by
  rcases hdf with rfl | rfl
  · norm_num [inflated]
    rw [JSNum.int_mod_int _ _ h0 (by norm_num), JSNum.floorDiv_int_int _ _ (by norm_num)]
    split_ifs <;> simp_all [JSNum.floorDiv_int_int]
  · norm_num [inflated]
    rw [JSNum.int_mod_int _ _ h0 (by norm_num), JSNum.floorDiv_int_int _ _ (by norm_num)]
    split_ifs <;> simp_all [JSNum.floorDiv_int_int]

theorem inflated_nonneg (c df : Int) (h0 : 0 ≤ c) (hdf : df = 2 ∨ df = 4) :
    0 ≤ inflated df c := by
  rcases hdf with rfl | rfl <;> simp only [inflated] <;> split_ifs <;> omega

theorem frameCountToTimeCode_drop (this : Timecode) (c df : Int) (hd : this.dropFrame = true)
    (hn : this._numOfFramesToDrop = df) (hdf : df = 2 ∨ df = 4)
    (hc : this.frameCount = .int c) (h0 : 0 ≤ c) (hfps : 0 < Math.round this.frameRate) :
    this._frameCountToTimeCode =
      { this with
        frames := .int (inflated df c % Math.round this.frameRate)
        seconds := .int (inflated df c / Math.round this.frameRate % 60)
        minutes := .int (inflated df c / (Math.round this.frameRate * 60) % 60)
        hours := .int (inflated df c / (Math.round this.frameRate * 3600) % 24) } := by
  have hi := inflated_nonneg c df h0 hdf
  have h1 : 0 ≤ inflated df c / Math.round this.frameRate := Int.ediv_nonneg hi hfps.le
  have h2 : 0 ≤ inflated df c / (Math.round this.frameRate * 60) :=
    Int.ediv_nonneg hi (by positivity)
  have h3 : 0 ≤ inflated df c / (Math.round this.frameRate * 3600) :=
    Int.ediv_nonneg hi (by positivity)
  simp only [_frameCountToTimeCode, hd, hc, hn, if_true]
  rw [dropAdjust_eq c df h0 hdf]
  rw [JSNum.int_mod_int _ _ hi hfps, JSNum.floorDiv_int_int _ _ hfps,
    JSNum.floorDiv_int_int _ _ (by positivity), JSNum.floorDiv_int_int _ _ (by positivity),
    JSNum.int_mod_int _ _ h1 (by norm_num), JSNum.int_mod_int _ _ h2 (by norm_num),
    JSNum.int_mod_int _ _ h3 (by norm_num)]


theorem timeCodeToFrameCount_nodrop (this : Timecode) (H M S F : Int)
    (hd : this.dropFrame = false) (hH : this.hours = .int H) (hM : this.minutes = .int M)
    (hS : this.seconds = .int S) (hF : this.frames = .int F) :
    this._timeCodeToFrameCount =
      { this with
        frameCount := .int ((H * 3600 + M * 60 + S) * Math.round this.frameRate + F) } := by
  simp [_timeCodeToFrameCount, hd, hH, hM, hS, hF]

theorem timeCodeToFrameCount_drop (this : Timecode) (H M S F : Int)
    (hd : this.dropFrame = true) (hH : this.hours = .int H) (hM : this.minutes = .int M)
    (hS : this.seconds = .int S) (hF : this.frames = .int F) :
    this._timeCodeToFrameCount =
      { this with
        frameCount := .int ((H * 3600 + M * 60 + S) * Math.round this.frameRate + F
          - this._numOfFramesToDrop * (H * 60 + M - (H * 60 + M) / 10)) } := by
  simp [_timeCodeToFrameCount, hd, hH, hM, hS, hF, JSNum.floorDiv_int_int]

theorem round_day_2997 : Math.round ((2997 / 100 : ℚ) * 86400) = 2589408 := by
  norm_num [Math.round]

theorem round_day_5994 : Math.round ((2997 / 50 : ℚ) * 86400) = 5178816 := by
  norm_num [Math.round]


/-- Shape of the inflated count: with `d` whole ten-minute blocks and `q` further whole
minutes, it is `c + 9 * df * d + df * q`, and lies in minute `10 * d + q`, past the dropped
numbers of that minute when `q ≠ 0`. -/
theorem inflated_shape (df c : Int) (hdf : df = 2 ∨ df = 4) :
    ∃ q : Int, 0 ≤ q ∧ q ≤ 9 ∧ inflated df c = c + 9 * df * (c / (8991 * df)) + df * q
      ∧ inflated df c / (15 * df * 60) = 10 * (c / (8991 * df)) + q
      ∧ (q = 0 ∨ df ≤ inflated df c % (15 * df * 60)) := by
  rcases hdf with rfl | rfl
  · simp only [inflated]
    norm_num
    split_ifs with h
    · exact ⟨0, by omega, by omega, by omega, by omega, by omega⟩
    · exact ⟨(c % 17982 - 2) / 1798, by omega, by omega, by omega, by omega, by omega⟩
  · simp only [inflated]
    norm_num
    split_ifs with h
    · exact ⟨0, by omega, by omega, by omega, by omega, by omega⟩
    · exact ⟨(c % 35964 - 4) / 3596, by omega, by omega, by omega, by omega, by omega⟩

theorem ediv_mul_eq_ediv_ediv (x a b : Int) (h0 : 0 ≤ x) (ha : 0 ≤ a) (hb : 0 ≤ b) :
    x / (a * b) = x / a / b := by
  lift x to ℕ using h0
  lift a to ℕ using ha
  lift b to ℕ using hb
  norm_cast
  exact (Nat.div_div_eq_div_mul x a b).symm

/-- Splitting a count `x` below 24 hours into hours, minutes, seconds and frames at `fps`
frames per second loses nothing. -/
theorem fields_of_count (fps x : Int) (hfps : 0 < fps) (h0 : 0 ≤ x) (h1 : x < 86400 * fps) :
    (x / (fps * 3600) % 24 * 3600 + x / (fps * 60) % 60 * 60 + x / fps % 60) * fps + x % fps = x
    ∧ x / (fps * 3600) % 24 * 60 + x / (fps * 60) % 60 = x / (fps * 60) := by
  have hs0 : 0 ≤ x / fps := Int.ediv_nonneg h0 hfps.le
  have hs1 : x / fps < 86400 := Int.ediv_lt_of_lt_mul hfps h1
  have e1 : x / (fps * 60) = x / fps / 60 :=
    ediv_mul_eq_ediv_ediv x fps 60 h0 hfps.le (by norm_num)
  have e2 : x / (fps * 3600) = x / fps / 3600 :=
    ediv_mul_eq_ediv_ediv x fps 3600 h0 hfps.le (by norm_num)
  rw [e1, e2]
  have e3 : x / fps / 3600 % 24 * 3600 + x / fps / 60 % 60 * 60 + x / fps % 60 = x / fps := by
    omega
  refine ⟨?_, by omega⟩
  rw [e3]
  exact Int.ediv_add_emod' x fps

/-- The round trip on integers in drop-frame mode: `df` is 2 (29.97) or 4 (59.94), the frame
rate rounds to `15 * df`, and a day has `1294704 * df` frame counts. -/
theorem roundTrip_count_drop (df c : Int) (hdf : df = 2 ∨ df = 4) (h0 : 0 ≤ c)
    (h1 : c < 1294704 * df) :
    (inflated df c / (15 * df * 3600) % 24 * 3600 + inflated df c / (15 * df * 60) % 60 * 60
        + inflated df c / (15 * df) % 60) * (15 * df) + inflated df c % (15 * df)
      - df * (inflated df c / (15 * df * 3600) % 24 * 60 + inflated df c / (15 * df * 60) % 60
        - (inflated df c / (15 * df * 3600) % 24 * 60
            + inflated df c / (15 * df * 60) % 60) / 10) = c := by
  obtain ⟨q, hq0, hq9, he, hT, -⟩ := inflated_shape df c hdf
  have hi0 := inflated_nonneg c df h0 hdf
  have hi1 : inflated df c < 86400 * (15 * df) := by
    rcases hdf with rfl | rfl <;> omega
  obtain ⟨e1, e2⟩ := fields_of_count (15 * df) (inflated df c) (by omega) hi0 hi1
  rw [e1, e2, hT, he]
  rcases hdf with rfl | rfl <;> omega


/-- In drop-frame mode, converting a frame count below one day of timecode to fields and
back gives the same object as converting it to fields only. -/
theorem roundTrip_frameCount_drop (this : Timecode) (c df : Int) (hd : this.dropFrame = true)
    (hn : this._numOfFramesToDrop = df) (hdf : df = 2 ∨ df = 4)
    (hr : Math.round this.frameRate = 15 * df) (hc : this.frameCount = .int c) (h0 : 0 ≤ c)
    (h1 : c < 1294704 * df) :
    this._frameCountToTimeCode._timeCodeToFrameCount = this._frameCountToTimeCode := by
  have hfps : 0 < Math.round this.frameRate := by omega
  have e := frameCountToTimeCode_drop this c df hd hn hdf hc h0 hfps
  have k := timeCodeToFrameCount_drop this._frameCountToTimeCode
    (inflated df c / (Math.round this.frameRate * 3600) % 24)
    (inflated df c / (Math.round this.frameRate * 60) % 60)
    (inflated df c / Math.round this.frameRate % 60)
    (inflated df c % Math.round this.frameRate)
    hd (by rw [e]) (by rw [e]) (by rw [e]) (by rw [e])
  have hn' : this._frameCountToTimeCode._numOfFramesToDrop = df := hn
  have hr' : this._frameCountToTimeCode.frameRate = this.frameRate := rfl
  rw [k, hn', hr', hr, roundTrip_count_drop df c hdf h0 h1, ← hc]
  rfl

/-- C1. Drop-frame round trip from the frame count: at the rates 29.97 and 59.94 with
`dropFrame = true`, for every integer `fc` with `0 ≤ fc < round(rate * 86400)` (that is
2589408 and 5178816), `_frameCountToTimeCode` followed by `_timeCodeToFrameCount` leaves
`frameCount` equal to `fc`. -/
theorem C1_dropFrame_frameCount_roundTrip (this : Timecode) (fc : Int)
    (hrate : this.frameRate = 2997 / 100 ∨ this.frameRate = 2997 / 50)
    (hdrop : this.dropFrame = true) (hfc : this.frameCount = .int fc)
    (h0 : 0 ≤ fc) (h1 : fc < Math.round (this.frameRate * 86400)) :
    this._frameCountToTimeCode._timeCodeToFrameCount.frameCount = .int fc
    ∧ (this.frameRate = 2997 / 100 → Math.round (this.frameRate * 86400) = 2589408)
    ∧ (this.frameRate = 2997 / 50 → Math.round (this.frameRate * 86400) = 5178816) := by
  refine ⟨?_, fun h => by rw [h]; exact round_day_2997,
    fun h => by rw [h]; exact round_day_5994⟩
  rcases hrate with h | h
  · have e := is30DF_2997 this h
    rw [h, round_day_2997] at h1
    rw [roundTrip_frameCount_drop this fc 2 hdrop (numOfFramesToDrop_of_is30DF this e)
      (Or.inl rfl) (round_of_is30DF this e) hfc h0 (by omega)]
    exact hfc
  · have e := is60DF_5994 this h
    rw [h, round_day_5994] at h1
    rw [roundTrip_frameCount_drop this fc 4 hdrop (numOfFramesToDrop_of_is60DF this e)
      (Or.inr rfl) (round_of_is60DF this e) hfc h0 (by omega)]
    exact hfc

theorem C1_dropFrame_frameCount_roundTrip_witness :
    (3597 : Int) < Math.round ((2997 / 100 : ℚ) * 86400) ∧
    (_timeCodeToFrameCount (_frameCountToTimeCode
      { frameRate := 2997 / 100, dropFrame := true, frameCount := .int 3597, hours := .nan,
        minutes := .nan, seconds := .nan, frames := .nan })).frameCount = .int 3597 :=
  ⟨by rw [round_day_2997]; decide,
   (C1_dropFrame_frameCount_roundTrip
      { frameRate := 2997 / 100, dropFrame := true, frameCount := .int 3597, hours := .nan,
        minutes := .nan, seconds := .nan, frames := .nan }
      3597 (Or.inl rfl) rfl rfl (by decide) (by rw [round_day_2997]; decide)).1⟩


/-- Joining in-range hours, minutes, seconds and frames into a count at `fps` frames per
second and splitting the count again gives the fields back. -/
theorem count_of_fields (fps H M S F : Int) (hH0 : 0 ≤ H) (hH1 : H < 24) (hM0 : 0 ≤ M)
    (hM1 : M < 60) (hS0 : 0 ≤ S) (hS1 : S < 60) (hF0 : 0 ≤ F) (hF1 : F < fps) :
    0 ≤ (H * 3600 + M * 60 + S) * fps + F
    ∧ ((H * 3600 + M * 60 + S) * fps + F) % fps = F
    ∧ ((H * 3600 + M * 60 + S) * fps + F) / fps % 60 = S
    ∧ ((H * 3600 + M * 60 + S) * fps + F) / (fps * 60) % 60 = M
    ∧ ((H * 3600 + M * 60 + S) * fps + F) / (fps * 3600) % 24 = H := by
  have hfps : 0 < fps := by omega
  have hA : 0 ≤ H * 3600 + M * 60 + S := by omega
  have hx : 0 ≤ (H * 3600 + M * 60 + S) * fps + F := by positivity
  have e0 : ((H * 3600 + M * 60 + S) * fps + F) / fps = H * 3600 + M * 60 + S := by
    rw [add_comm, Int.add_mul_ediv_right _ _ hfps.ne', Int.ediv_eq_zero_of_lt hF0 hF1]
    simp
  have e1 := ediv_mul_eq_ediv_ediv _ fps 60 hx hfps.le (by norm_num)
  have e2 := ediv_mul_eq_ediv_ediv _ fps 3600 hx hfps.le (by norm_num)
  refine ⟨hx, ?_, ?_, ?_, ?_⟩
  · rw [add_comm, Int.add_mul_emod_self]
    exact Int.emod_eq_of_lt hF0 hF1
  · rw [e0]; omega
  · rw [e1, e0]; omega
  · rw [e2, e0]; omega

/-- In drop-frame mode the count of a representable timecode inflates back to its
non-drop count. -/
theorem inflated_count_of_fields (df H M S F : Int) (hdf : df = 2 ∨ df = 4) (hH0 : 0 ≤ H)
    (hH1 : H < 24) (hM0 : 0 ≤ M) (hM1 : M < 60) (hS0 : 0 ≤ S) (hS1 : S < 60) (hF0 : 0 ≤ F)
    (hF1 : F < 15 * df) (hv : ¬ (S = 0 ∧ M % 10 ≠ 0 ∧ F < df)) :
    0 ≤ (H * 3600 + M * 60 + S) * (15 * df) + F - df * (H * 60 + M - (H * 60 + M) / 10)
    ∧ inflated df
        ((H * 3600 + M * 60 + S) * (15 * df) + F - df * (H * 60 + M - (H * 60 + M) / 10))
      = (H * 3600 + M * 60 + S) * (15 * df) + F := by
  rcases hdf with rfl | rfl
  · refine ⟨by omega, ?_⟩
    have hd : ((H * 3600 + M * 60 + S) * (15 * 2) + F
        - 2 * (H * 60 + M - (H * 60 + M) / 10)) / 17982 = (H * 60 + M) / 10 := by omega
    have hm : ((H * 3600 + M * 60 + S) * (15 * 2) + F
        - 2 * (H * 60 + M - (H * 60 + M) / 10)) % 17982
        = 1798 * ((H * 60 + M) % 10) + 30 * S + F := by omega
    simp only [inflated]
    norm_num
    norm_num at hd hm
    rw [hd, hm]
    split_ifs <;> omega
  · refine ⟨by omega, ?_⟩
    have hd : ((H * 3600 + M * 60 + S) * (15 * 4) + F
        - 4 * (H * 60 + M - (H * 60 + M) / 10)) / 35964 = (H * 60 + M) / 10 := by omega
    have hm : ((H * 3600 + M * 60 + S) * (15 * 4) + F
        - 4 * (H * 60 + M - (H * 60 + M) / 10)) % 35964
        = 3596 * ((H * 60 + M) % 10) + 60 * S + F := by omega
    simp only [inflated]
    norm_num
    norm_num at hd hm
    rw [hd, hm]
    split_ifs <;> omega

/-- Converting valid fields to a frame count and back changes nothing: the object after
`_timeCodeToFrameCount` and `_frameCountToTimeCode` is the object after
`_timeCodeToFrameCount`. -/
theorem timeCodeToFrameCount_frameCountToTimeCode (this : Timecode) (H M S F : Int)
    (hH : this.hours = .int H) (hM : this.minutes = .int M) (hS : this.seconds = .int S)
    (hF : this.frames = .int F)
    (hH0 : 0 ≤ H) (hH1 : H < 24) (hM0 : 0 ≤ M) (hM1 : M < 60) (hS0 : 0 ≤ S) (hS1 : S < 60)
    (hF0 : 0 ≤ F) (hF1 : F < Math.round this.frameRate)
    (hdrop : this.dropFrame = true →
      (this._is30DF = true ∨ this._is60DF = true)
        ∧ ¬ (S = 0 ∧ M % 10 ≠ 0 ∧ F < this._numOfFramesToDrop)) :
    this._timeCodeToFrameCount._frameCountToTimeCode = this._timeCodeToFrameCount := by
  have hfps : 0 < Math.round this.frameRate := by omega
  cases hd : this.dropFrame
  · have e := timeCodeToFrameCount_nodrop this H M S F hd hH hM hS hF
    obtain ⟨x0, xF, xS, xM, xH⟩ :=
      count_of_fields (Math.round this.frameRate) H M S F hH0 hH1 hM0 hM1 hS0 hS1 hF0 hF1
    have k := frameCountToTimeCode_nodrop this._timeCodeToFrameCount
      ((H * 3600 + M * 60 + S) * Math.round this.frameRate + F)
      (by rw [e]; exact hd) (by rw [e]) x0 (by rw [e]; exact hfps)
    have hr : this._timeCodeToFrameCount.frameRate = this.frameRate := by rw [e]
    rw [k, hr, xF, xS, xM, xH, e, ← hH, ← hM, ← hS, ← hF]
  · obtain ⟨hel, hv⟩ := hdrop hd
    have e := timeCodeToFrameCount_drop this H M S F hd hH hM hS hF
    have hr : this._timeCodeToFrameCount.frameRate = this.frameRate := by rw [e]
    have hcases : ∃ df : Int, (df = 2 ∨ df = 4) ∧ this._numOfFramesToDrop = df
        ∧ Math.round this.frameRate = 15 * df := by
      rcases eligible_cases this hel with ⟨h1, h2⟩ | ⟨h1, h2⟩
      · exact ⟨2, Or.inl rfl, h1, by rw [h2]; norm_num⟩
      · exact ⟨4, Or.inr rfl, h1, by rw [h2]; norm_num⟩
    obtain ⟨df, hdf, hn, hrd⟩ := hcases
    rw [hn] at hv
    rw [hrd] at hF1
    obtain ⟨c0, ci⟩ :=
      inflated_count_of_fields df H M S F hdf hH0 hH1 hM0 hM1 hS0 hS1 hF0 hF1 hv
    obtain ⟨-, xF, xS, xM, xH⟩ :=
      count_of_fields (15 * df) H M S F hH0 hH1 hM0 hM1 hS0 hS1 hF0 hF1
    have k := frameCountToTimeCode_drop this._timeCodeToFrameCount
      ((H * 3600 + M * 60 + S) * (15 * df) + F - df * (H * 60 + M - (H * 60 + M) / 10)) df
      (by rw [e]; exact hd) (by rw [e]; exact hn) hdf (by rw [e, hn, hrd]) c0
      (by rw [e]; exact hfps)
    rw [k, hr, hrd, ci, xF, xS, xM, xH, e, ← hH, ← hM, ← hS, ← hF]

/-- C2. Round trip from the fields: at any frame rate and either `dropFrame` setting, for
non-negative integers `H < 24`, `M < 60`, `S < 60`, `F < round(rate)` which, when
`dropFrame` is true, come with a drop-eligible rate and are not a dropped frame number
(`S = 0`, `M mod 10 ≠ 0`, `F < df`), `_timeCodeToFrameCount` followed by
`_frameCountToTimeCode` leaves `hours`, `minutes`, `seconds`, `frames` equal to
`H`, `M`, `S`, `F`. -/
theorem C2_fields_roundTrip (this : Timecode) (H M S F : Int)
    (hH : this.hours = .int H) (hM : this.minutes = .int M) (hS : this.seconds = .int S)
    (hF : this.frames = .int F)
    (hH0 : 0 ≤ H) (hH1 : H < 24) (hM0 : 0 ≤ M) (hM1 : M < 60) (hS0 : 0 ≤ S) (hS1 : S < 60)
    (hF0 : 0 ≤ F) (hF1 : F < Math.round this.frameRate)
    (hdrop : this.dropFrame = true →
      (this._is30DF = true ∨ this._is60DF = true)
        ∧ ¬ (S = 0 ∧ M % 10 ≠ 0 ∧ F < this._numOfFramesToDrop)) :
    this._timeCodeToFrameCount._frameCountToTimeCode.hours = .int H
    ∧ this._timeCodeToFrameCount._frameCountToTimeCode.minutes = .int M
    ∧ this._timeCodeToFrameCount._frameCountToTimeCode.seconds = .int S
    ∧ this._timeCodeToFrameCount._frameCountToTimeCode.frames = .int F := by
  have h := timeCodeToFrameCount_frameCountToTimeCode this H M S F hH hM hS hF hH0 hH1 hM0 hM1
    hS0 hS1 hF0 hF1 hdrop
  cases hd : this.dropFrame
  · have e := timeCodeToFrameCount_nodrop this H M S F hd hH hM hS hF
    rw [h, e]
    exact ⟨hH, hM, hS, hF⟩
  · have e := timeCodeToFrameCount_drop this H M S F hd hH hM hS hF
    rw [h, e]
    exact ⟨hH, hM, hS, hF⟩

theorem C2_fields_roundTrip_witness :
    (29 : Int) < Math.round (2997 / 100 : ℚ) ∧
    (_frameCountToTimeCode (_timeCodeToFrameCount
      { frameRate := 2997 / 100, dropFrame := true, frameCount := .nan, hours := .int 0,
        minutes := .int 1, seconds := .int 59, frames := .int 29 })).frames = .int 29 :=
  ⟨by norm_num [Math.round],
   (C2_fields_roundTrip
      { frameRate := 2997 / 100, dropFrame := true, frameCount := .nan, hours := .int 0,
        minutes := .int 1, seconds := .int 59, frames := .int 29 }
      0 1 59 29 rfl rfl rfl rfl (by decide) (by decide) (by decide) (by decide) (by decide)
      (by decide) (by decide) (by norm_num [Math.round])
      (fun _ => ⟨Or.inl (is30DF_2997 _ rfl), fun h => absurd h.1 (by decide)⟩)).2.2.2⟩


/-- When the fields are integers (minutes not negative), `_validate` accepts exactly when
drop-frame comes with a drop-eligible rate, `hours ≤ 23`, `minutes ≤ 59`, `seconds ≤ 59`,
`frames` lies below the frame rate itself, and in drop-frame mode the fields are not a
dropped frame number. -/
theorem validate_eq_ok_iff (this : Timecode) (H M S F : Int)
    (hH : this.hours = .int H) (hM : this.minutes = .int M) (hS : this.seconds = .int S)
    (hF : this.frames = .int F) (hM0 : 0 ≤ M) :
    this._validate = .ok () ↔
      (this.dropFrame = true → this._is30DF = true ∨ this._is60DF = true)
      ∧ H ≤ 23 ∧ M ≤ 59 ∧ S ≤ 59 ∧ (F : ℚ) < this.frameRate
      ∧ (this.dropFrame = true → ¬ (S = 0 ∧ M % 10 ≠ 0 ∧ F < this._numOfFramesToDrop)) := by
  unfold _validate
  rw [hH, hM, hS, hF, JSNum.int_mod_int M 10 hM0 (by norm_num)]
  simp only [JSNum.gt_int_int, JSNum.geRat_int, JSNum.strictEq_int_int, JSNum.truthy_int,
    JSNum.lt_int_int]
  cases hd : this.dropFrame <;> cases h3 : this._is30DF <;> cases h6 : this._is60DF <;>
    simp [and_assoc]


/-- The integers produced in drop-frame mode are in range and never a dropped frame
number. -/
theorem fields_of_inflated (df c : Int) (hdf : df = 2 ∨ df = 4) (h0 : 0 ≤ c) :
    (0 ≤ inflated df c / (15 * df * 3600) % 24 ∧ inflated df c / (15 * df * 3600) % 24 < 24)
    ∧ (0 ≤ inflated df c / (15 * df * 60) % 60 ∧ inflated df c / (15 * df * 60) % 60 < 60)
    ∧ (0 ≤ inflated df c / (15 * df) % 60 ∧ inflated df c / (15 * df) % 60 < 60)
    ∧ (0 ≤ inflated df c % (15 * df) ∧ inflated df c % (15 * df) < 15 * df)
    ∧ ¬ (inflated df c / (15 * df) % 60 = 0 ∧ inflated df c / (15 * df * 60) % 60 % 10 ≠ 0
          ∧ inflated df c % (15 * df) < df) := by
  obtain ⟨q, hq0, hq9, -, hT, hq⟩ := inflated_shape df c hdf
  have hi := inflated_nonneg c df h0 hdf
  generalize inflated df c = x at *
  rcases hdf with rfl | rfl <;> norm_num at hT hq ⊢ <;> omega


/-- An integer below the rounded frame rate is below the frame rate. -/
theorem lt_rate_of_lt_round (r : ℚ) (F : Int) (h : F < Math.round r) : (F : ℚ) < r := by
  unfold Math.round at h
  have h1 : (F : ℚ) + 1 ≤ (⌊r + 1 / 2⌋ : ℚ) := by exact_mod_cast h
  have h2 : (⌊r + 1 / 2⌋ : ℚ) ≤ r + 1 / 2 := Int.floor_le _
  linarith

/-- In exact integer arithmetic: with `dropFrame = true` at a drop-eligible rate, for every
integer frame count `fc ≥ 0` the fields computed by `_frameCountToTimeCode` are integers
with `0 ≤ H < 24`, `0 ≤ M < 60`, `0 ≤ S < 60`, `0 ≤ F < round(rate)`, they are never a
dropped frame number (`S = 0`, `M mod 10 ≠ 0`, `F < df`), and the object passes
`_validate`. -/
theorem frameCountToTimeCode_valid_drop (this : Timecode) (fc : Int)
    (hel : this._is30DF = true ∨ this._is60DF = true) (hdrop : this.dropFrame = true)
    (hfc : this.frameCount = .int fc) (h0 : 0 ≤ fc) :
    ∃ H M S F : Int,
      this._frameCountToTimeCode.hours = .int H
      ∧ this._frameCountToTimeCode.minutes = .int M
      ∧ this._frameCountToTimeCode.seconds = .int S
      ∧ this._frameCountToTimeCode.frames = .int F
      ∧ (0 ≤ H ∧ H < 24) ∧ (0 ≤ M ∧ M < 60) ∧ (0 ≤ S ∧ S < 60)
      ∧ (0 ≤ F ∧ F < Math.round this.frameRate)
      ∧ ¬ (S = 0 ∧ M % 10 ≠ 0 ∧ F < this._numOfFramesToDrop)
      ∧ this._frameCountToTimeCode._validate = .ok () := by
  have hcases : ∃ df : Int, (df = 2 ∨ df = 4) ∧ this._numOfFramesToDrop = df
      ∧ Math.round this.frameRate = 15 * df := by
    rcases eligible_cases this hel with ⟨h1, h2⟩ | ⟨h1, h2⟩
    · exact ⟨2, Or.inl rfl, h1, by rw [h2]; norm_num⟩
    · exact ⟨4, Or.inr rfl, h1, by rw [h2]; norm_num⟩
  obtain ⟨df, hdf, hn, hr⟩ := hcases
  have hfps : 0 < Math.round this.frameRate := by omega
  have k := frameCountToTimeCode_drop this fc df hdrop hn hdf hfc h0 hfps
  obtain ⟨bH, bM, bS, bF, bv⟩ := fields_of_inflated df fc hdf h0
  rw [hr] at k
  refine ⟨_, _, _, _, by rw [k], by rw [k], by rw [k], by rw [k], bH, bM, bS, ?_, ?_, ?_⟩
  · rw [hr]; exact bF
  · rw [hn]; exact bv
  · rw [validate_eq_ok_iff this._frameCountToTimeCode _ _ _ _ (by rw [k]) (by rw [k])
      (by rw [k]) (by rw [k]) bM.1]
    have e1 : this._frameCountToTimeCode.frameRate = this.frameRate := rfl
    have e2 : this._frameCountToTimeCode._numOfFramesToDrop = df := hn
    have e3 : this._frameCountToTimeCode._is30DF = this._is30DF := rfl
    have e4 : this._frameCountToTimeCode._is60DF = this._is60DF := rfl
    rw [e1, e2, e3, e4]
    refine ⟨fun _ => hel, by omega, by omega, by omega, ?_, fun _ => bv⟩
    exact lt_rate_of_lt_round _ _ (by rw [hr]; exact bF.2)


/-- The inflated count grows strictly with the count. -/
theorem inflated_lt_inflated (df c1 c2 : Int) (hdf : df = 2 ∨ df = 4) (h : c1 < c2) :
    inflated df c1 < inflated df c2 := by
  rcases hdf with rfl | rfl
  · simp only [inflated]
    norm_num
    split_ifs <;> omega
  · simp only [inflated]
    norm_num
    split_ifs <;> omega

/-- A smaller count below 24 hours splits into lexicographically smaller fields. -/
theorem fields_lex_of_lt (fps x y : Int) (hfps : 0 < fps) (h0 : 0 ≤ x) (hxy : x < y)
    (h1 : y < 86400 * fps) :
    x / (fps * 3600) % 24 < y / (fps * 3600) % 24
    ∨ (x / (fps * 3600) % 24 = y / (fps * 3600) % 24
      ∧ (x / (fps * 60) % 60 < y / (fps * 60) % 60
        ∨ (x / (fps * 60) % 60 = y / (fps * 60) % 60
          ∧ (x / fps % 60 < y / fps % 60
            ∨ (x / fps % 60 = y / fps % 60 ∧ x % fps < y % fps))))) := by
  have hy0 : 0 ≤ y := by omega
  have hs0 : 0 ≤ x / fps := Int.ediv_nonneg h0 hfps.le
  have hs1 : y / fps < 86400 := Int.ediv_lt_of_lt_mul hfps h1
  have hle : x / fps ≤ y / fps := Int.ediv_le_ediv hfps hxy.le
  rw [ediv_mul_eq_ediv_ediv x fps 60 h0 hfps.le (by norm_num),
    ediv_mul_eq_ediv_ediv x fps 3600 h0 hfps.le (by norm_num),
    ediv_mul_eq_ediv_ediv y fps 60 hy0 hfps.le (by norm_num),
    ediv_mul_eq_ediv_ediv y fps 3600 hy0 hfps.le (by norm_num)]
  rcases hle.lt_or_eq with hlt | heq
  · omega
  · have ex := Int.ediv_add_emod x fps
    have ey := Int.ediv_add_emod y fps
    rw [heq] at ex
    have hF : x % fps < y % fps := by linarith
    rw [heq]
    omega


theorem round_intCast (n : Int) : Math.round (n : ℚ) = n := by
  unfold Math.round
  rw [Int.floor_eq_iff]
  constructor <;> linarith

theorem round_intCast_mul (n k : Int) : Math.round ((n : ℚ) * (k : ℚ)) = n * k := by
  rw [← round_intCast (n * k)]
  push_cast
  rfl

theorem precedes_iff (a b : Timecode) (H1 M1 S1 F1 H2 M2 S2 F2 : Int)
    (aH : a.hours = .int H1) (aM : a.minutes = .int M1) (aS : a.seconds = .int S1)
    (aF : a.frames = .int F1) (bH : b.hours = .int H2) (bM : b.minutes = .int M2)
    (bS : b.seconds = .int S2) (bF : b.frames = .int F2) :
    precedes a b = true ↔
      (H1 < H2 ∨ (H1 = H2 ∧ (M1 < M2 ∨ (M1 = M2 ∧ (S1 < S2 ∨ (S1 = S2 ∧ F1 < F2)))))) := by
  simp [precedes, aH, aM, aS, aF, bH, bM, bS, bF]

/-- C4. Monotonicity: at 29.97 or 59.94 with `dropFrame = true`, and at any integer frame
rate with `dropFrame = false`, for all integers `0 ≤ fc1 < fc2 < round(rate * 86400)` the
fields computed by `_frameCountToTimeCode` from `fc1` strictly precede those computed from
`fc2` in the lexicographic order of (hours, minutes, seconds, frames). -/
theorem C4_frameCountToTimeCode_monotone (this : Timecode) (fc1 fc2 : Int)
    (hconf : (this.dropFrame = true
          ∧ (this.frameRate = 2997 / 100 ∨ this.frameRate = 2997 / 50))
        ∨ (this.dropFrame = false ∧ ∃ n : Int, this.frameRate = (n : ℚ)))
    (h0 : 0 ≤ fc1) (h12 : fc1 < fc2) (h2 : fc2 < Math.round (this.frameRate * 86400)) :
    precedes (_frameCountToTimeCode { this with frameCount := .int fc1 })
      (_frameCountToTimeCode { this with frameCount := .int fc2 }) = true := by
  rcases hconf with ⟨hd, hr⟩ | ⟨hd, n, hr⟩
  · have hcases : ∃ df : Int, (df = 2 ∨ df = 4) ∧ this._numOfFramesToDrop = df
        ∧ Math.round this.frameRate = 15 * df
        ∧ Math.round (this.frameRate * 86400) = 1294704 * df := by
      rcases hr with h | h
      · have e := is30DF_2997 this h
        exact ⟨2, Or.inl rfl, numOfFramesToDrop_of_is30DF this e,
          by rw [round_of_is30DF this e]; norm_num, by rw [h, round_day_2997]; norm_num⟩
      · have e := is60DF_5994 this h
        exact ⟨4, Or.inr rfl, numOfFramesToDrop_of_is60DF this e,
          by rw [round_of_is60DF this e]; norm_num, by rw [h, round_day_5994]; norm_num⟩
    obtain ⟨df, hdf, hn, hrd, hday⟩ := hcases
    rw [hday] at h2
    have hfps : 0 < Math.round this.frameRate := by omega
    have k1 := frameCountToTimeCode_drop { this with frameCount := .int fc1 } fc1 df hd hn hdf
      rfl h0 hfps
    have k2 := frameCountToTimeCode_drop { this with frameCount := .int fc2 } fc2 df hd hn hdf
      rfl (by omega) hfps
    have hi0 := inflated_nonneg fc1 df h0 hdf
    have hi12 := inflated_lt_inflated df fc1 fc2 hdf h12
    have hi2 : inflated df fc2 < 86400 * (15 * df) := by
      obtain ⟨q, hq0, hq9, he, -, -⟩ := inflated_shape df fc2 hdf
      rcases hdf with rfl | rfl <;> omega
    rw [precedes_iff _ _ _ _ _ _ _ _ _ _ (by rw [k1]) (by rw [k1]) (by rw [k1]) (by rw [k1])
      (by rw [k2]) (by rw [k2]) (by rw [k2]) (by rw [k2])]
    show _ ∨ _
    rw [show Math.round this.frameRate = 15 * df from hrd]
    exact fields_lex_of_lt (15 * df) _ _ (by omega) hi0 hi12 hi2
  · have hrd : Math.round this.frameRate = n := by rw [hr]; exact round_intCast n
    have hday : Math.round (this.frameRate * 86400) = n * 86400 := by
      rw [hr]; exact_mod_cast round_intCast_mul n 86400
    rw [hday] at h2
    have hfps : 0 < Math.round this.frameRate := by omega
    have k1 := frameCountToTimeCode_nodrop { this with frameCount := .int fc1 } fc1 hd rfl h0
      hfps
    have k2 := frameCountToTimeCode_nodrop { this with frameCount := .int fc2 } fc2 hd rfl
      (by omega) hfps
    rw [precedes_iff _ _ _ _ _ _ _ _ _ _ (by rw [k1]) (by rw [k1]) (by rw [k1]) (by rw [k1])
      (by rw [k2]) (by rw [k2]) (by rw [k2]) (by rw [k2])]
    exact fields_lex_of_lt _ _ _ hfps h0 h12 (by rw [hrd]; omega)

theorem C4_frameCountToTimeCode_monotone_witness :
    precedes
      (_frameCountToTimeCode
        { frameRate := 2997 / 100, dropFrame := true, frameCount := .int 1799, hours := .nan,
          minutes := .nan, seconds := .nan, frames := .nan })
      (_frameCountToTimeCode
        { frameRate := 2997 / 100, dropFrame := true, frameCount := .int 1800, hours := .nan,
          minutes := .nan, seconds := .nan, frames := .nan }) = true :=
  C4_frameCountToTimeCode_monotone
    { frameRate := 2997 / 100, dropFrame := true, frameCount := .nan, hours := .nan,
      minutes := .nan, seconds := .nan, frames := .nan }
    1799 1800 (Or.inl ⟨rfl, Or.inl rfl⟩) (by decide) (by decide)
    (by rw [round_day_2997]; decide)


/-! ## Evaluating the constructor -/

theorem new_number_eq (n rate : ℚ) (arg : Option Bool) (hr : 0 < rate) :
    new (.number n) rate arg =
      match (_frameCountToTimeCode
          { frameRate := rate,
            dropFrame := arg.getD ((_is30DF ⟨rate, false, .nan, .nan, .nan, .nan, .nan⟩)
              || (_is60DF ⟨rate, false, .nan, .nan, .nan, .nan, .nan⟩)),
            frameCount := .int (Math.round n), hours := .nan, minutes := .nan,
            seconds := .nan, frames := .nan })._validate with
      | .error e => .error e
      | .ok _ => .ok (_frameCountToTimeCode
          { frameRate := rate,
            dropFrame := arg.getD ((_is30DF ⟨rate, false, .nan, .nan, .nan, .nan, .nan⟩)
              || (_is60DF ⟨rate, false, .nan, .nan, .nan, .nan, .nan⟩)),
            frameCount := .int (Math.round n), hours := .nan, minutes := .nan,
            seconds := .nan, frames := .nan }) := by
  unfold new
  rw [if_pos hr]
  cases arg <;> rfl

theorem new_object_eq (H M S F : Int) (rate : ℚ) (arg : Option Bool) (hr : 0 < rate) :
    new (.object H M S F) rate arg =
      match (_timeCodeToFrameCount
          { frameRate := rate,
            dropFrame := arg.getD ((_is30DF ⟨rate, false, .nan, .nan, .nan, .nan, .nan⟩)
              || (_is60DF ⟨rate, false, .nan, .nan, .nan, .nan, .nan⟩)),
            frameCount := .nan, hours := .int H, minutes := .int M,
            seconds := .int S, frames := .int F })._validate with
      | .error e => .error e
      | .ok _ => .ok (_timeCodeToFrameCount
          { frameRate := rate,
            dropFrame := arg.getD ((_is30DF ⟨rate, false, .nan, .nan, .nan, .nan, .nan⟩)
              || (_is60DF ⟨rate, false, .nan, .nan, .nan, .nan, .nan⟩)),
            frameCount := .nan, hours := .int H, minutes := .int M,
            seconds := .int S, frames := .int F }) := by
  unfold new
  rw [if_pos hr]
  cases arg <;> rfl

theorem new_string_eq (s : String) (p : Parts) (rate : ℚ) (arg : Option Bool) (hr : 0 < rate)
    (hm : matchTimecode s = some p) :
    new (.string s) rate arg =
      match (_timeCodeToFrameCount
          { frameRate := rate, dropFrame := arg.getD (p.p4 != ':'),
            frameCount := .nan, hours := .int p.p1, minutes := .int p.p2,
            seconds := .int p.p3, frames := .int p.p5 })._validate with
      | .error e => .error e
      | .ok _ => .ok (_timeCodeToFrameCount
          { frameRate := rate, dropFrame := arg.getD (p.p4 != ':'),
            frameCount := .nan, hours := .int p.p1, minutes := .int p.p2,
            seconds := .int p.p3, frames := .int p.p5 }) := by
  unfold new
  rw [if_pos hr]
  simp only [hm]
  cases arg <;> rfl


theorem matchTimecode_tenMinuteMark_fin :
    ∀ H : Fin 24, ∀ k : Fin 6, matchTimecode (tenMinuteMark H k)
      = some { p1 := (H : Nat), p2 := 10 * (k : Nat), p3 := 0, p4 := ';', p5 := 0 } := by
  decide

theorem tenMinuteMark_examples :
    tenMinuteMark 0 1 = "00:10:00;00" ∧ tenMinuteMark 10 0 = "10:00:00;00"
      ∧ tenMinuteMark 23 5 = "23:50:00;00" := by
  decide

theorem toString_none_eq (this : Timecode) (H M S F : Int)
    (hH : this.hours = .int H) (hM : this.minutes = .int M) (hS : this.seconds = .int S)
    (hF : this.frames = .int F) :
    this.toString none = .ok (twoDigits H ++ ":" ++ twoDigits M ++ ":" ++ twoDigits S
      ++ (if this.dropFrame then ";" else ":") ++ twoDigits F) := by
  simp [toString, twoDigits, JSNum.toStr, hH, hM, hS, hF, String.append_assoc]

/-- C5. Drop-frame counts at ten-minute marks: at 29.97 (`df = 2`) and 59.94 (`df = 4`)
in drop-frame mode (the flag passed as `true` or left to its default), for every `H < 24`
and `k < 6` the string `HH:MM:00;00` with `MM = 10 * k` constructs a `Timecode` with
`frameCount = (6 * H + k) * 17982 * df / 2`, and the `Timecode` constructed from that
number has `toString()` equal to the same string. -/
theorem C5_tenMinuteMarks (rate : ℚ) (df : Int) (H k : Nat) (arg : Option Bool)
    (hrate : (rate = 2997 / 100 ∧ df = 2) ∨ (rate = 2997 / 50 ∧ df = 4))
    (harg : arg ≠ some false) (hH : H < 24) (hk : k < 6) :
    (∃ t, new (.string (tenMinuteMark H k)) rate arg = .ok t ∧ t.dropFrame = true
      ∧ t.frameCount = .int ((6 * H + k) * 17982 * df / 2))
    ∧ (∃ u, new (.number (((6 * H + k) * 17982 * df / 2 : Int) : ℚ)) rate arg = .ok u
      ∧ u.dropFrame = true ∧ u.toString none = .ok (tenMinuteMark H k)) := by
  have hr : 0 < rate := by rcases hrate with ⟨h, -⟩ | ⟨h, -⟩ <;> rw [h] <;> norm_num
  have hel : ∀ t : Timecode, t.frameRate = rate → (t._is30DF = true ∨ t._is60DF = true)
      ∧ t._numOfFramesToDrop = df ∧ Math.round t.frameRate = 15 * df := by
    intro t ht
    rcases hrate with ⟨h, rfl⟩ | ⟨h, rfl⟩
    · have e := is30DF_2997 t (ht.trans h)
      exact ⟨Or.inl e, numOfFramesToDrop_of_is30DF t e, round_of_is30DF t e⟩
    · have e := is60DF_5994 t (ht.trans h)
      exact ⟨Or.inr e, numOfFramesToDrop_of_is60DF t e, round_of_is60DF t e⟩
  have hdf : df = 2 ∨ df = 4 := by rcases hrate with ⟨-, h⟩ | ⟨-, h⟩ <;> simp [h]
  have hk' : (10 * (k : Int)) % 10 = 0 := by omega
  constructor
  · have hm := matchTimecode_tenMinuteMark_fin ⟨H, hH⟩ ⟨k, hk⟩
    have hd : arg.getD ((';' : Char) != ':') = true := by
      rcases arg with _ | b
      · rfl
      · cases b
        · exact absurd rfl harg
        · rfl
    rw [new_string_eq _ _ rate arg hr hm]
    simp only [hd]
    obtain ⟨he, hn, hrd⟩ := hel
      { frameRate := rate, dropFrame := true, frameCount := .nan, hours := .int (H : Nat),
        minutes := .int (10 * (k : Int)), seconds := .int 0, frames := .int 0 } rfl
    have e := timeCodeToFrameCount_drop
      { frameRate := rate, dropFrame := true, frameCount := .nan, hours := .int (H : Nat),
        minutes := .int (10 * (k : Int)), seconds := .int 0, frames := .int 0 }
      H (10 * (k : Int)) 0 0 rfl rfl rfl rfl rfl
    rw [hn, hrd] at e
    have hv : (_timeCodeToFrameCount
      { frameRate := rate, dropFrame := true, frameCount := .nan, hours := .int (H : Nat),
        minutes := .int (10 * (k : Int)), seconds := .int 0, frames := .int 0 })._validate
        = .ok () := by
      rw [validate_eq_ok_iff _ H (10 * (k : Int)) 0 0 (by rw [e]) (by rw [e]) (by rw [e])
        (by rw [e]) (by omega)]
      refine ⟨fun _ => he, by omega, by omega, by omega, ?_, fun _ h => h.2.1 hk'⟩
      simpa using hr
    rw [hv]
    refine ⟨_, rfl, rfl, ?_⟩
    rw [e]
    show JSNum.int _ = JSNum.int _
    congr 1
    rcases hdf with rfl | rfl <;> omega
  · have hd : arg.getD ((_is30DF ⟨rate, false, .nan, .nan, .nan, .nan, .nan⟩)
        || (_is60DF ⟨rate, false, .nan, .nan, .nan, .nan, .nan⟩)) = true := by
      rcases arg with _ | b
      · have h := (hel ⟨rate, false, .nan, .nan, .nan, .nan, .nan⟩ rfl).1
        simpa using h
      · cases b
        · exact absurd rfl harg
        · rfl
    rw [new_number_eq _ rate arg hr]
    simp only [hd, round_intCast]
    obtain ⟨he, hn, hrd⟩ := hel
      { frameRate := rate, dropFrame := true,
        frameCount := .int ((6 * H + k) * 17982 * df / 2), hours := .nan,
        minutes := .nan, seconds := .nan, frames := .nan } rfl
    have hn0 : (0 : Int) ≤ (6 * H + k) * 17982 * df / 2 := by
      rcases hdf with rfl | rfl <;> omega
    have e := frameCountToTimeCode_drop
      { frameRate := rate, dropFrame := true,
        frameCount := .int ((6 * H + k) * 17982 * df / 2), hours := .nan,
        minutes := .nan, seconds := .nan, frames := .nan }
      ((6 * H + k) * 17982 * df / 2) df rfl hn hdf rfl hn0 (by rw [hrd]; omega)
    rw [hrd] at e
    obtain ⟨-, ci⟩ := inflated_count_of_fields df H (10 * (k : Int)) 0 0 hdf (by omega)
      (by omega) (by omega) (by omega) (by omega) (by omega) (by omega) (by omega)
      (fun h => h.2.1 hk')
    have hcount : (H * 3600 + 10 * (k : Int) * 60 + 0) * (15 * df) + 0
        - df * (H * 60 + 10 * (k : Int) - (H * 60 + 10 * (k : Int)) / 10)
        = (6 * H + k) * 17982 * df / 2 := by
      rcases hdf with rfl | rfl <;> omega
    rw [hcount] at ci
    obtain ⟨-, xF, xS, xM, xH⟩ := count_of_fields (15 * df) H (10 * (k : Int)) 0 0 (by omega)
      (by omega) (by omega) (by omega) (by omega) (by omega) (by omega) (by omega)
    rw [ci, xF, xS, xM, xH] at e
    have hv : (_frameCountToTimeCode
      { frameRate := rate, dropFrame := true,
        frameCount := .int ((6 * H + k) * 17982 * df / 2), hours := .nan,
        minutes := .nan, seconds := .nan, frames := .nan })._validate = .ok () := by
      rw [validate_eq_ok_iff _ H (10 * (k : Int)) 0 0 (by rw [e]) (by rw [e]) (by rw [e])
        (by rw [e]) (by omega)]
      refine ⟨fun _ => he, by omega, by omega, by omega, ?_, fun _ h => h.2.1 hk'⟩
      simpa using hr
    rw [hv]
    refine ⟨_, rfl, rfl, ?_⟩
    rw [toString_none_eq _ H (10 * (k : Int)) 0 0 (by rw [e]) (by rw [e]) (by rw [e])
      (by rw [e])]
    have hdrop : (_frameCountToTimeCode
      { frameRate := rate, dropFrame := true,
        frameCount := .int ((6 * H + k) * 17982 * df / 2), hours := .nan,
        minutes := .nan, seconds := .nan, frames := .nan }).dropFrame = true := rfl
    have h00 : twoDigits 0 = "00" := by decide
    have htail : ":" ++ ("00" ++ (";" ++ "00")) = ":00;00" := by decide
    rw [hdrop, if_pos rfl, h00]
    simp only [tenMinuteMark, String.append_assoc, htail, Nat.cast_mul, Nat.cast_ofNat]

theorem C5_tenMinuteMarks_witness :
    (∃ t, new (.string "10:00:00;00") (2997 / 100) none = .ok t ∧ t.dropFrame = true
      ∧ t.frameCount = .int 1078920)
    ∧ (∃ u, new (.number 1078920) (2997 / 100) none = .ok u
      ∧ u.dropFrame = true ∧ u.toString none = .ok "10:00:00;00") := by
  have h := C5_tenMinuteMarks (2997 / 100) 2 10 0 none (Or.inl ⟨rfl, rfl⟩) (by simp)
    (by decide) (by decide)
  have hs : tenMinuteMark 10 0 = "10:00:00;00" := by decide
  have hn : (6 * ((10 : Nat) : Int) + ((0 : Nat) : Int)) * 17982 * 2 / 2 = 1078920 := by decide
  rw [hs, hn] at h
  simpa using h


/-- Without drop-frame, converting a frame count below 24 hours of timecode to fields and
back gives the same object as converting it to fields only. -/
theorem roundTrip_frameCount_nodrop (this : Timecode) (c : Int) (hd : this.dropFrame = false)
    (hc : this.frameCount = .int c) (h0 : 0 ≤ c)
    (h1 : c < 86400 * Math.round this.frameRate) :
    this._frameCountToTimeCode._timeCodeToFrameCount = this._frameCountToTimeCode := by
  have hfps : 0 < Math.round this.frameRate := by omega
  have e := frameCountToTimeCode_nodrop this c hd hc h0 hfps
  have k := timeCodeToFrameCount_nodrop this._frameCountToTimeCode
    (c / (Math.round this.frameRate * 3600) % 24)
    (c / (Math.round this.frameRate * 60) % 60)
    (c / Math.round this.frameRate % 60)
    (c % Math.round this.frameRate)
    hd (by rw [e]) (by rw [e]) (by rw [e]) (by rw [e])
  have hr' : this._frameCountToTimeCode.frameRate = this.frameRate := rfl
  rw [k, hr', (fields_of_count _ c hfps h0 h1).1, ← hc]
  rfl

theorem round_day_ntsc : Math.round ((30000 / 1001 : ℚ) * 86400) = 2589411 := by
  norm_num [Math.round]

theorem is30DF_ntsc (this : Timecode) (h : this.frameRate = 30000 / 1001) :
    this._is30DF = true := by
  rw [is30DF_iff, h, abs_lt]; norm_num

/-- C6, as stated, fails: at the rate 30000/1001 with `dropFrame = true`, which the
constructor accepts, the frame count 2589408 is below `round(rate * 86400) = 2589411`, its
fields are 00:00:00;00, and converting them back gives 0. -/
theorem C6_counterexample :
    (∃ t, new (.number 2589408) (30000 / 1001) (some true) = .ok t
      ∧ t.frameCount = .int 2589408 ∧ t.hours = .int 0 ∧ t.minutes = .int 0
      ∧ t.seconds = .int 0 ∧ t.frames = .int 0)
    ∧ (2589408 : Int) < Math.round ((30000 / 1001 : ℚ) * 86400)
    ∧ (_timeCodeToFrameCount (_frameCountToTimeCode
        { frameRate := 30000 / 1001, dropFrame := true, frameCount := .int 2589408,
          hours := .nan, minutes := .nan, seconds := .nan, frames := .nan })).frameCount
      = .int 0 := by
  have e3 := is30DF_ntsc
    { frameRate := 30000 / 1001, dropFrame := true, frameCount := .int 2589408,
      hours := .nan, minutes := .nan, seconds := .nan, frames := .nan } rfl
  have hn := numOfFramesToDrop_of_is30DF _ e3
  have hr := round_of_is30DF _ e3
  have e := frameCountToTimeCode_drop
    { frameRate := 30000 / 1001, dropFrame := true, frameCount := .int 2589408,
      hours := .nan, minutes := .nan, seconds := .nan, frames := .nan }
    2589408 2 rfl hn (Or.inl rfl) rfl (by decide) (by rw [hr]; decide)
  rw [hr] at e
  have hi : inflated 2 2589408 = 2592000 := by decide
  rw [hi] at e
  norm_num at e
  refine ⟨?_, by rw [round_day_ntsc]; decide, ?_⟩
  · rw [new_number_eq _ _ _ (by norm_num)]
    have h1 : Math.round (2589408 : ℚ) = 2589408 := by exact_mod_cast round_intCast 2589408
    simp only [h1, Option.getD_some]
    have hv : (_frameCountToTimeCode
      { frameRate := 30000 / 1001, dropFrame := true, frameCount := .int 2589408,
        hours := .nan, minutes := .nan, seconds := .nan, frames := .nan })._validate
        = .ok () := by
      rw [validate_eq_ok_iff _ 0 0 0 0 (by rw [e]) (by rw [e]) (by rw [e]) (by rw [e])
        (by decide)]
      refine ⟨fun _ => Or.inl e3, by decide, by decide, by decide, ?_, fun _ h => h.2.1 rfl⟩
      show ((0 : Int) : ℚ) < 30000 / 1001
      norm_num
    rw [hv]
    exact ⟨_, rfl, rfl, by rw [e], by rw [e], by rw [e], by rw [e]⟩
  · rw [timeCodeToFrameCount_drop _ 0 0 0 0 rfl (by rw [e]) (by rw [e]) (by rw [e])
      (by rw [e])]
    simp


/-- C6, amended. For every configuration the constructor accepts (`dropFrame = false` at
any rate, `dropFrame = true` at a drop-eligible rate) and every integer `fc` with
`0 ≤ fc < timecodesPerDay` (24 hours of timecode: `86400 * round(rate)` frame counts, less
`1296 * df` in drop-frame mode), `_frameCountToTimeCode` followed by
`_timeCodeToFrameCount` leaves `frameCount` equal to `fc`. -/
theorem C6_frameCount_roundTrip_within_day (this : Timecode) (fc : Int)
    (hacc : this.dropFrame = true → this._is30DF = true ∨ this._is60DF = true)
    (hfc : this.frameCount = .int fc) (h0 : 0 ≤ fc) (h1 : fc < this.timecodesPerDay) :
    this._frameCountToTimeCode._timeCodeToFrameCount.frameCount = .int fc := by
  unfold timecodesPerDay at h1
  cases hd : this.dropFrame
  · rw [hd] at h1
    rw [roundTrip_frameCount_nodrop this fc hd hfc h0 (by simpa using h1)]
    exact hfc
  · rw [hd] at h1
    rcases eligible_cases this (hacc hd) with ⟨hn, hr⟩ | ⟨hn, hr⟩
    · rw [hn, hr] at h1
      rw [roundTrip_frameCount_drop this fc 2 hd hn (Or.inl rfl) (by rw [hr]; norm_num) hfc h0
        (by simp at h1; omega)]
      exact hfc
    · rw [hn, hr] at h1
      rw [roundTrip_frameCount_drop this fc 4 hd hn (Or.inr rfl) (by rw [hr]; norm_num) hfc h0
        (by simp at h1; omega)]
      exact hfc

theorem C6_frameCount_roundTrip_within_day_witness :
    (_timeCodeToFrameCount (_frameCountToTimeCode
      { frameRate := 30000 / 1001, dropFrame := true, frameCount := .int 2589407,
        hours := .nan, minutes := .nan, seconds := .nan, frames := .nan })).frameCount
      = .int 2589407 :=
  C6_frameCount_roundTrip_within_day
    { frameRate := 30000 / 1001, dropFrame := true, frameCount := .int 2589407,
      hours := .nan, minutes := .nan, seconds := .nan, frames := .nan }
    2589407 (fun _ => Or.inl (is30DF_ntsc _ rfl)) rfl (by decide)
    (by
      unfold timecodesPerDay
      rw [numOfFramesToDrop_of_is30DF _ (is30DF_ntsc _ rfl),
        round_of_is30DF _ (is30DF_ntsc _ rfl)]
      decide)


theorem timeCodeToFrameCount_fields (this : Timecode) :
    this._timeCodeToFrameCount.frameRate = this.frameRate
    ∧ this._timeCodeToFrameCount.dropFrame = this.dropFrame
    ∧ this._timeCodeToFrameCount.hours = this.hours
    ∧ this._timeCodeToFrameCount.minutes = this.minutes
    ∧ this._timeCodeToFrameCount.seconds = this.seconds
    ∧ this._timeCodeToFrameCount.frames = this.frames := by
  unfold _timeCodeToFrameCount
  split_ifs <;> exact ⟨rfl, rfl, rfl, rfl, rfl, rfl⟩

theorem is30DF_congr (a b : Timecode) (h : a.frameRate = b.frameRate) :
    a._is30DF = b._is30DF := by
  simp [_is30DF, h]

theorem is60DF_congr (a b : Timecode) (h : a.frameRate = b.frameRate) :
    a._is60DF = b._is60DF := by
  simp [_is60DF, h]

theorem numOfFramesToDrop_congr (a b : Timecode) (h : a.frameRate = b.frameRate) :
    a._numOfFramesToDrop = b._numOfFramesToDrop := by
  simp [_numOfFramesToDrop, is30DF_congr a b h, is60DF_congr a b h]

/-- What the constructor accepts for an object of integer fields and a boolean drop-frame
argument: the test on `frames` is against the frame rate itself. -/
theorem new_object_ok_iff (H M S F : Int) (rate : ℚ) (b : Bool) (hr : 0 < rate) (hM0 : 0 ≤ M) :
    (∃ t, new (.object H M S F) rate (some b) = .ok t) ↔
      (b = true → (_is30DF ⟨rate, b, .nan, .nan, .nan, .nan, .nan⟩ = true
        ∨ _is60DF ⟨rate, b, .nan, .nan, .nan, .nan, .nan⟩ = true))
      ∧ H ≤ 23 ∧ M ≤ 59 ∧ S ≤ 59 ∧ (F : ℚ) < rate
      ∧ (b = true → ¬ (S = 0 ∧ M % 10 ≠ 0
          ∧ F < _numOfFramesToDrop ⟨rate, b, .nan, .nan, .nan, .nan, .nan⟩)) := by
  rw [new_object_eq H M S F rate (some b) hr]
  simp only [Option.getD_some]
  obtain ⟨f1, f2, f3, f4, f5, f6⟩ := timeCodeToFrameCount_fields
    { frameRate := rate, dropFrame := b, frameCount := .nan, hours := .int H,
      minutes := .int M, seconds := .int S, frames := .int F }
  have hv := validate_eq_ok_iff (_timeCodeToFrameCount
    { frameRate := rate, dropFrame := b, frameCount := .nan, hours := .int H,
      minutes := .int M, seconds := .int S, frames := .int F }) H M S F f3 f4 f5 f6 hM0
  rw [f1, f2, is30DF_congr _ ⟨rate, b, .nan, .nan, .nan, .nan, .nan⟩ f1,
    is60DF_congr _ ⟨rate, b, .nan, .nan, .nan, .nan, .nan⟩ f1,
    numOfFramesToDrop_congr _ ⟨rate, b, .nan, .nan, .nan, .nan, .nan⟩ f1] at hv
  rw [← hv]
  cases hval : (_timeCodeToFrameCount
    { frameRate := rate, dropFrame := b, frameCount := .nan, hours := .int H,
      minutes := .int M, seconds := .int S, frames := .int F })._validate <;> simp

/-- C7, the code at the failing input: at the frame rate 30.4, which rounds to 30, the
constructor accepts the timecode 00:00:00:30 (as an object and as a string) although its
frame number is not below `round(rate)`; `_validate` compares `frames` with the unrounded
rate.  The accepted object has `frameCount = 30`, which `_frameCountToTimeCode` displays as
00:00:01:00. -/
theorem C7_accepts_frames_equal_to_rounded_rate :
    Math.round (152 / 5 : ℚ) = 30
    ∧ (∃ t, new (.object 0 0 0 30) (152 / 5) (some false) = .ok t
        ∧ t.frames = .int 30 ∧ t.frameCount = .int 30
        ∧ t._frameCountToTimeCode.seconds = .int 1 ∧ t._frameCountToTimeCode.frames = .int 0)
    ∧ (∃ t, new (.string "00:00:00:30") (152 / 5) (some false) = .ok t
        ∧ t.frames = .int 30 ∧ t.frameCount = .int 30) := by
  have hround : Math.round (152 / 5 : ℚ) = 30 := by norm_num [Math.round]
  have e := timeCodeToFrameCount_nodrop
    { frameRate := 152 / 5, dropFrame := false, frameCount := .nan, hours := .int 0,
      minutes := .int 0, seconds := .int 0, frames := .int 30 } 0 0 0 30 rfl rfl rfl rfl rfl
  rw [hround] at e
  norm_num at e
  have hv : (_timeCodeToFrameCount
      { frameRate := 152 / 5, dropFrame := false, frameCount := .nan, hours := .int 0,
        minutes := .int 0, seconds := .int 0, frames := .int 30 })._validate = .ok () := by
    rw [validate_eq_ok_iff _ 0 0 0 30 (by rw [e]) (by rw [e]) (by rw [e]) (by rw [e])
      (by decide)]
    refine ⟨fun h => ?_, by decide, by decide, by decide, ?_, fun h => ?_⟩
    · rw [e] at h; exact absurd h (by decide)
    · rw [e]; norm_num
    · rw [e] at h; exact absurd h (by decide)
  have hk := frameCountToTimeCode_nodrop
    { frameRate := 152 / 5, dropFrame := false, frameCount := .int 30, hours := .int 0,
      minutes := .int 0, seconds := .int 0, frames := .int 30 } 30 rfl rfl (by decide)
    (by rw [hround]; decide)
  rw [hround] at hk
  norm_num at hk
  refine ⟨hround, ?_, ?_⟩
  · rw [new_object_eq 0 0 0 30 _ _ (by norm_num)]
    simp only [Option.getD_some]
    rw [hv, e]
    exact ⟨_, rfl, rfl, rfl, by rw [hk], by rw [hk]⟩
  · have hm : matchTimecode "00:00:00:30"
        = some { p1 := 0, p2 := 0, p3 := 0, p4 := ':', p5 := 30 } := by decide
    rw [new_string_eq _ _ _ _ (by norm_num) hm]
    simp only [Option.getD_some]
    rw [hv, e]
    exact ⟨_, rfl, rfl, rfl⟩


/-! ## Evaluating `add` -/

/-- The signed amount of `add`: `r * (negative ? -1 : 1)`. -/
theorem signed_int (r : Int) (negative : Bool) :
    (JSNum.int r * (if negative then JSNum.int (-1) else JSNum.int 1))
      = JSNum.int (if negative then -r else r) := by
  cases negative <;> simp

/-- When the new count is not negative, `add` succeeds whatever the rollover argument is,
and stores the new count reduced with `%` by `round(rate * 86400)`. -/
theorem addNumber_of_nonneg (this : Timecode) (c r : Int) (negative : Bool)
    (rollOverMaxHours : Option ℚ) (hc : this.frameCount = .int c)
    (h : 0 ≤ c + (if negative then -r else r)) :
    this.addNumber (.int r) negative rollOverMaxHours =
      .ok (_frameCountToTimeCode
        { this with
          frameCount := JSNum.int (c + (if negative then -r else r))
            % JSNum.int (Math.round (this.frameRate * 86400)) }) := by
  unfold addNumber
  rw [hc, signed_int]
  have hlt : ¬ (c + (if negative then -r else r) < 0) := by omega
  simp [hlt]

/-- When the new count is negative and no positive rollover limit is given, `add` throws
`Negative timecodes not supported`. -/
theorem addNumber_of_neg (this : Timecode) (c r : Int) (negative : Bool)
    (rollOverMaxHours : Option ℚ) (hc : this.frameCount = .int c)
    (hroll : ∀ h, rollOverMaxHours = some h → ¬ (0 < h))
    (h : c + (if negative then -r else r) < 0) :
    this.addNumber (.int r) negative rollOverMaxHours = .error .negativeTimecodes := by
  unfold addNumber
  rw [hc, signed_int]
  rcases rollOverMaxHours with _ | x
  · simp [h]
  · have hx := hroll x rfl
    simp [h, hx]


/-- C9. Negative results are rejected: for a `Timecode` with frame count `c` and a numeric
amount `n`, when `rollOverMaxHours` is omitted or not `> 0`, `add(n)` throws (`Negative
timecodes not supported`) if and only if `c + round(n) < 0`, `subtract(n)` throws if and
only if `c - round(n) < 0`, and otherwise they return. -/
theorem C9_negative_results_rejected (this : Timecode) (c : Int) (n : ℚ)
    (rollOverMaxHours : Option ℚ) (hc : this.frameCount = .int c)
    (hroll : ∀ h, rollOverMaxHours = some h → ¬ (0 < h)) :
    (this.add (.value (.number n)) false rollOverMaxHours = .error .negativeTimecodes
        ↔ c + Math.round n < 0)
    ∧ ((∃ t, this.add (.value (.number n)) false rollOverMaxHours = .ok t)
        ↔ ¬ (c + Math.round n < 0))
    ∧ (this.subtract (.value (.number n)) rollOverMaxHours = .error .negativeTimecodes
        ↔ c - Math.round n < 0)
    ∧ ((∃ t, this.subtract (.value (.number n)) rollOverMaxHours = .ok t)
        ↔ ¬ (c - Math.round n < 0)) := by
  have key : ∀ negative : Bool,
      (this.addNumber (.int (Math.round n)) negative rollOverMaxHours
          = .error .negativeTimecodes
        ↔ c + (if negative then -Math.round n else Math.round n) < 0)
      ∧ ((∃ t, this.addNumber (.int (Math.round n)) negative rollOverMaxHours = .ok t)
        ↔ ¬ (c + (if negative then -Math.round n else Math.round n) < 0)) := by
    intro negative
    by_cases h : c + (if negative then -Math.round n else Math.round n) < 0
    · rw [addNumber_of_neg this c _ negative rollOverMaxHours hc hroll h]
      simp [h]
    · rw [addNumber_of_nonneg this c _ negative rollOverMaxHours hc (by omega)]
      simp [h]
  have ha := key false
  have hs := key true
  simp only [Bool.false_eq_true, if_false, if_true] at ha hs
  refine ⟨ha.1, ha.2, ?_, ?_⟩
  · rw [show c - Math.round n = c + -Math.round n by ring]; exact hs.1
  · rw [show c - Math.round n = c + -Math.round n by ring]; exact hs.2

theorem C9_negative_results_rejected_witness :
    add { frameRate := 2997 / 100, dropFrame := true, frameCount := .int 300,
          hours := .int 0, minutes := .int 0, seconds := .int 10, frames := .int 0 }
      (.value (.number (-301))) false none = .error .negativeTimecodes :=
  (C9_negative_results_rejected
    { frameRate := 2997 / 100, dropFrame := true, frameCount := .int 300,
      hours := .int 0, minutes := .int 0, seconds := .int 10, frames := .int 0 }
    300 (-301) none rfl (fun _ h => by simp at h)).1.2
    (by
      have h : Math.round (-301 : ℚ) = -301 := by exact_mod_cast round_intCast (-301)
      rw [h]; decide)


theorem round_zero : Math.round (0 : ℚ) = 0 := by exact_mod_cast round_intCast 0

/-- With a frame rate that rounds to 0 and no drop-frame, every field computed by
`_frameCountToTimeCode` is `NaN`. -/
theorem frameCountToTimeCode_fps_zero (this : Timecode) (hd : this.dropFrame = false)
    (hr : Math.round this.frameRate = 0) :
    this._frameCountToTimeCode =
      { this with frames := .nan, seconds := .nan, minutes := .nan, hours := .nan } := by
  have h1 : ∀ a : JSNum, a % JSNum.int 0 = JSNum.nan := by
    intro a
    show JSNum.mod a (.int 0) = _
    cases a <;> simp [JSNum.mod]
  have h2 : ∀ a : JSNum, JSNum.floorDiv a (.int 0) = JSNum.nan := by
    intro a
    cases a <;> simp [JSNum.floorDiv]
  have h3 : ∀ b : JSNum, JSNum.nan % b = JSNum.nan := by
    intro b
    show JSNum.mod .nan b = _
    cases b <;> simp [JSNum.mod]
  simp [_frameCountToTimeCode, hd, hr, h1, h2, h3]

/-- An object whose fields are all `NaN` passes `_validate` when drop-frame is off. -/
theorem validate_nan (this : Timecode) (hd : this.dropFrame = false) (hH : this.hours = .nan)
    (hM : this.minutes = .nan) (hS : this.seconds = .nan) (hF : this.frames = .nan) :
    this._validate = .ok () := by
  simp [_validate, hd, hH, hM, hS, hF, JSNum.gt, JSNum.geRat]

theorem timeCodeToFrameCount_idem (this : Timecode) :
    this._timeCodeToFrameCount._timeCodeToFrameCount = this._timeCodeToFrameCount := by
  cases hd : this.dropFrame <;> simp [_timeCodeToFrameCount, hd, _numOfFramesToDrop, _is30DF,
    _is60DF]

/-- What a successful construction from a string or an object establishes: the rate is
positive and stored, the object passed `_validate`, and its `frameCount` is the one
`_timeCodeToFrameCount` computes from its fields. -/
theorem new_fields_inv (timeCode : Input) (rate : ℚ) (arg : Option Bool) (t : Timecode)
    (hin : ∀ x, timeCode ≠ .number x) (hnew : new timeCode rate arg = .ok t) :
    0 < rate ∧ t.frameRate = rate ∧ t._validate = .ok () ∧ t._timeCodeToFrameCount = t := by
  have hr : 0 < rate := by
    by_contra h
    unfold new at hnew
    rw [if_neg h] at hnew
    exact absurd hnew (by simp)
  refine ⟨hr, ?_⟩
  have key : ∀ t0 : Timecode, t0.frameRate = rate →
      (match t0._timeCodeToFrameCount._validate with
        | .error e => (.error e : Except Error Timecode)
        | .ok _ => .ok t0._timeCodeToFrameCount) = .ok t →
      t.frameRate = rate ∧ t._validate = .ok () ∧ t._timeCodeToFrameCount = t := by
    intro t0 h0 h
    cases hv : t0._timeCodeToFrameCount._validate with
    | error e => rw [hv] at h; exact absurd h (by simp)
    | ok u =>
      rw [hv] at h
      have ht : t0._timeCodeToFrameCount = t := by simpa using h
      rw [← ht]
      exact ⟨(timeCodeToFrameCount_fields t0).1.trans h0, hv, timeCodeToFrameCount_idem t0⟩
  rcases timeCode with x | s | ⟨H, M, S, F⟩
  · exact absurd rfl (hin x)
  · cases hm : matchTimecode s with
    | none =>
      unfold new at hnew
      rw [if_pos hr] at hnew
      simp [hm] at hnew
    | some p =>
      rw [new_string_eq s p rate arg hr hm] at hnew
      exact key _ rfl hnew
  · rw [new_object_eq H M S F rate arg hr] at hnew
    exact key _ rfl hnew


theorem round_2997 : Math.round (2997 / 100 : ℚ) = 30 := by norm_num [Math.round]

/-- The frame count of a validated object with consistent `frameCount`: it is not
negative and below the number of timecodes in a day. -/
theorem frameCount_lt_timecodesPerDay (t : Timecode) (H M S F c : Int)
    (hH : t.hours = .int H) (hM : t.minutes = .int M) (hS : t.seconds = .int S)
    (hF : t.frames = .int F) (hH0 : 0 ≤ H) (hH1 : H < 24) (hM0 : 0 ≤ M) (hM1 : M < 60)
    (hS0 : 0 ≤ S) (hS1 : S < 60) (hF0 : 0 ≤ F) (hF1 : F < Math.round t.frameRate)
    (hel : t.dropFrame = true → t._is30DF = true ∨ t._is60DF = true)
    (hcons : t._timeCodeToFrameCount = t) (hc : t.frameCount = .int c) :
    0 ≤ c ∧ c < t.timecodesPerDay := by
  unfold timecodesPerDay
  cases hd : t.dropFrame
  · have e := timeCodeToFrameCount_nodrop t H M S F hd hH hM hS hF
    rw [hcons] at e
    have e' := congrArg Timecode.frameCount e
    rw [hc] at e'
    have hcv : c = (H * 3600 + M * 60 + S) * Math.round t.frameRate + F := by
      simpa using e'
    have h1 : 0 ≤ (H * 3600 + M * 60 + S) * Math.round t.frameRate :=
      Int.mul_nonneg (by omega) (by omega)
    have h2 : (H * 3600 + M * 60 + S) * Math.round t.frameRate
        ≤ 86399 * Math.round t.frameRate :=
      Int.mul_le_mul_of_nonneg_right (by omega) (by omega)
    simp only [Bool.false_eq_true, if_false]
    omega
  · have e := timeCodeToFrameCount_drop t H M S F hd hH hM hS hF
    rw [hcons] at e
    have e' := congrArg Timecode.frameCount e
    rw [hc] at e'
    have hcv : c = (H * 3600 + M * 60 + S) * Math.round t.frameRate + F
        - t._numOfFramesToDrop * (H * 60 + M - (H * 60 + M) / 10) := by
      simpa using e'
    simp only [if_true]
    rcases eligible_cases t (hel hd) with ⟨hn, hr⟩ | ⟨hn, hr⟩ <;>
      simp only [hn, hr] at hcv hF1 ⊢ <;> omega

/-- The frame count that `_timeCodeToFrameCount` gives 23:59:59 with the last frame number
is `timecodesPerDay - 1`. -/
theorem lastTimecode_frameCount (t : Timecode) :
    (_timeCodeToFrameCount
      { t with hours := .int 23, minutes := .int 59, seconds := .int 59,
               frames := .int (Math.round t.frameRate - 1) }).frameCount
      = .int (t.timecodesPerDay - 1) := by
  unfold timecodesPerDay
  by_cases hd : t.dropFrame = true
  · rw [timeCodeToFrameCount_drop
      { t with hours := .int 23, minutes := .int 59, seconds := .int 59,
               frames := .int (Math.round t.frameRate - 1) }
      23 59 59 (Math.round t.frameRate - 1) hd rfl rfl rfl rfl]
    show JSNum.int _ = JSNum.int _
    congr 1
    have hn : _numOfFramesToDrop
      { t with hours := .int 23, minutes := .int 59, seconds := .int 59,
               frames := .int (Math.round t.frameRate - 1) } = t._numOfFramesToDrop := rfl
    rw [hn, if_pos hd]
    generalize t._numOfFramesToDrop = df
    show (23 * 3600 + 59 * 60 + 59) * Math.round t.frameRate + (Math.round t.frameRate - 1)
      - df * (23 * 60 + 59 - (23 * 60 + 59) / 10) = _
    omega
  · have hd' : t.dropFrame = false := by simpa using hd
    rw [timeCodeToFrameCount_nodrop
      { t with hours := .int 23, minutes := .int 59, seconds := .int 59,
               frames := .int (Math.round t.frameRate - 1) }
      23 59 59 (Math.round t.frameRate - 1) hd' rfl rfl rfl rfl]
    show JSNum.int _ = JSNum.int _
    congr 1
    rw [if_neg hd]
    show (23 * 3600 + 59 * 60 + 59) * Math.round t.frameRate + (Math.round t.frameRate - 1)
      = _
    omega

/-- Frame count 0 is displayed as 00:00:00:00 in every accepted configuration with a
frame rate that rounds to at least 1. -/
theorem frameCountToTimeCode_zero (t : Timecode) (hc : t.frameCount = .int 0)
    (hfps : 0 < Math.round t.frameRate)
    (hel : t.dropFrame = true → t._is30DF = true ∨ t._is60DF = true) :
    t._frameCountToTimeCode.hours = .int 0 ∧ t._frameCountToTimeCode.minutes = .int 0
    ∧ t._frameCountToTimeCode.seconds = .int 0 ∧ t._frameCountToTimeCode.frames = .int 0 := by
  cases hd : t.dropFrame
  · rw [frameCountToTimeCode_nodrop t 0 hd hc (le_refl 0) hfps]
    simp
  · have h0 : ∀ df : Int, df = 2 ∨ df = 4 → inflated df 0 = 0 := by
      intro df hdf
      rcases hdf with rfl | rfl <;> decide
    rcases eligible_cases t (hel hd) with ⟨hn, hr⟩ | ⟨hn, hr⟩
    · rw [frameCountToTimeCode_drop t 0 2 hd hn (Or.inl rfl) hc (le_refl 0) hfps,
        h0 2 (Or.inl rfl)]
      simp
    · rw [frameCountToTimeCode_drop t 0 4 hd hn (Or.inr rfl) hc (le_refl 0) hfps,
        h0 4 (Or.inr rfl)]
      simp


/-- In exact integer arithmetic.  Let `t` be constructed from a string or an object at an
accepted rate and drop-frame setting, with non-negative integer fields `H`, `M`, `S`,
`F < round(rate)`, frame count `c`, and let `n ≥ 0` be an integer.  Write
`L = timecodesPerDay`, which is `frameCount(23:59:59:(round(rate) - 1)) + 1`.  Whenever
`round(rate * 86400) = L`, `t.add(n)` succeeds and is `_frameCountToTimeCode` at frame count
`(c + n) mod L`; if `c + n < L` the frame count is `c + n`; `add(0)` leaves the object
unchanged; and adding one frame to 23:59:59:(round(rate) - 1) gives frame count 0 and
00:00:00:00. -/
theorem add_wraps_at_day_exact (timeCode : Input) (rate : ℚ) (dropFrame : Option Bool)
    (rollOverMaxHours : Option ℚ) (t : Timecode) (H M S F c n : Int)
    (hin : ∀ x, timeCode ≠ .number x) (hnew : new timeCode rate dropFrame = .ok t)
    (hH : t.hours = .int H) (hM : t.minutes = .int M) (hS : t.seconds = .int S)
    (hF : t.frames = .int F) (hH0 : 0 ≤ H) (hM0 : 0 ≤ M) (hS0 : 0 ≤ S) (hF0 : 0 ≤ F)
    (hF1 : F < Math.round rate) (hc : t.frameCount = .int c) (hn : 0 ≤ n)
    (hday : Math.round (rate * 86400) = t.timecodesPerDay) :
    (_timeCodeToFrameCount
        { t with hours := .int 23, minutes := .int 59, seconds := .int 59,
                 frames := .int (Math.round t.frameRate - 1) }).frameCount
      = .int (t.timecodesPerDay - 1)
    ∧ ∃ u, t.add (.value (.number (n : ℚ))) false rollOverMaxHours = .ok u
      ∧ u = _frameCountToTimeCode { t with frameCount := .int ((c + n) % t.timecodesPerDay) }
      ∧ (c + n < t.timecodesPerDay → u.frameCount = .int (c + n))
      ∧ (n = 0 → u = t)
      ∧ (H = 23 ∧ M = 59 ∧ S = 59 ∧ F = Math.round rate - 1 ∧ n = 1 →
          u.frameCount = .int 0 ∧ u.hours = .int 0 ∧ u.minutes = .int 0
          ∧ u.seconds = .int 0 ∧ u.frames = .int 0) := by
  obtain ⟨hr, hfr, hval, hcons⟩ := new_fields_inv timeCode rate dropFrame t hin hnew
  obtain ⟨hel, hH23, hM59, hS59, -, hnd⟩ :=
    (validate_eq_ok_iff t H M S F hH hM hS hF hM0).1 hval
  rw [← hfr] at hF1 hday
  have hfps : 0 < Math.round t.frameRate := by omega
  obtain ⟨hc0, hcL⟩ := frameCount_lt_timecodesPerDay t H M S F c hH hM hS hF hH0 (by omega)
    hM0 (by omega) hS0 (by omega) hF0 hF1 hel hcons hc
  have hL : 0 < t.timecodesPerDay := by omega
  have hfix : t._frameCountToTimeCode = t := by
    have h := timeCodeToFrameCount_frameCountToTimeCode t H M S F hH hM hS hF hH0 (by omega)
      hM0 (by omega) hS0 (by omega) hF0 hF1 (fun h => ⟨hel h, hnd h⟩)
    rw [hcons] at h
    exact h
  have hlast := lastTimecode_frameCount t
  refine ⟨hlast, ?_⟩
  have e : t.add (.value (.number (n : ℚ))) false rollOverMaxHours
      = t.addNumber (.int (Math.round (n : ℚ))) false rollOverMaxHours := rfl
  rw [e, round_intCast, addNumber_of_nonneg t c n false rollOverMaxHours hc
    (by simp only [Bool.false_eq_true, if_false]; omega)]
  simp only [Bool.false_eq_true, if_false]
  rw [hday, JSNum.int_mod_int _ _ (by omega) hL]
  refine ⟨_, rfl, rfl, fun h => ?_, fun h => ?_, fun h => ?_⟩
  · show JSNum.int _ = JSNum.int _
    rw [Int.emod_eq_of_lt (by omega) h]
  · subst h
    rw [add_zero, Int.emod_eq_of_lt hc0 hcL, ← hc]
    exact hfix
  · obtain ⟨rfl, rfl, rfl, hFl, rfl⟩ := h
    have hcl : c = t.timecodesPerDay - 1 := by
      have h1 : ({ t with hours := .int 23, minutes := .int 59, seconds := .int 59,
                          frames := .int (Math.round t.frameRate - 1) } : Timecode) = t := by
        have h2 : ({ t with hours := t.hours, minutes := t.minutes, seconds := t.seconds,
                            frames := t.frames } : Timecode) = t := rfl
        rw [hH, hM, hS, hF, hFl, hfr.symm] at h2
        exact h2
      rw [h1, hcons, hc] at hlast
      simpa using hlast
    have hz : (c + 1) % t.timecodesPerDay = 0 := by
      rw [hcl]
      simp
    rw [hz]
    have k := frameCountToTimeCode_zero { t with frameCount := .int 0 } rfl hfps hel
    exact ⟨rfl, k⟩


/-- At 29.97 with drop-frame, `round(rate * 86400)` is the number of timecodes in a day. -/
theorem day_eq_timecodesPerDay_2997 (t : Timecode) (hr : t.frameRate = 2997 / 100)
    (hd : t.dropFrame = true) : Math.round (t.frameRate * 86400) = t.timecodesPerDay := by
  have e := is30DF_2997 t hr
  unfold timecodesPerDay
  rw [numOfFramesToDrop_of_is30DF t e, round_of_is30DF t e, hr, round_day_2997, if_pos hd]
  rfl

/-- At 59.94 with drop-frame, `round(rate * 86400)` is the number of timecodes in a day. -/
theorem day_eq_timecodesPerDay_5994 (t : Timecode) (hr : t.frameRate = 2997 / 50)
    (hd : t.dropFrame = true) : Math.round (t.frameRate * 86400) = t.timecodesPerDay := by
  have e := is60DF_5994 t hr
  unfold timecodesPerDay
  rw [numOfFramesToDrop_of_is60DF t e, round_of_is60DF t e, hr, round_day_5994, if_pos hd]
  rfl

/-- At an integer rate without drop-frame, `round(rate * 86400)` is the number of
timecodes in a day. -/
theorem day_eq_timecodesPerDay_int (t : Timecode) (k : Int) (hr : t.frameRate = (k : ℚ))
    (hd : t.dropFrame = false) : Math.round (t.frameRate * 86400) = t.timecodesPerDay := by
  unfold timecodesPerDay
  rw [hr, round_intCast, hd]
  have h := round_intCast_mul k 86400
  push_cast at h
  rw [h]
  simp only [Bool.false_eq_true, if_false]
  omega

/-- The constructor on the string `23:59:59;29` at 29.97. -/
theorem new_lastTimecode_2997 :
    new (.string "23:59:59;29") (2997 / 100) none
      = .ok { frameRate := 2997 / 100, dropFrame := true, frameCount := .int 2589407,
              hours := .int 23, minutes := .int 59, seconds := .int 59, frames := .int 29 } := by
  have hm : matchTimecode "23:59:59;29"
      = some { p1 := 23, p2 := 59, p3 := 59, p4 := ';', p5 := 29 } := by decide
  rw [new_string_eq _ _ _ _ (by norm_num) hm]
  have hd : (none : Option Bool).getD ((';' : Char) != ':') = true := by decide
  simp only [hd]
  have e3 := is30DF_2997
    { frameRate := 2997 / 100, dropFrame := true, frameCount := .nan, hours := .int 23,
      minutes := .int 59, seconds := .int 59, frames := .int 29 } rfl
  have e := timeCodeToFrameCount_drop
    { frameRate := 2997 / 100, dropFrame := true, frameCount := .nan, hours := .int 23,
      minutes := .int 59, seconds := .int 59, frames := .int 29 } 23 59 59 29 rfl rfl rfl
    rfl rfl
  rw [numOfFramesToDrop_of_is30DF _ e3, round_of_is30DF _ e3] at e
  norm_num at e
  have hv : _validate
      { frameRate := 2997 / 100, dropFrame := true, frameCount := .int 2589407,
        hours := .int 23, minutes := .int 59, seconds := .int 59, frames := .int 29 }
      = .ok () := by
    rw [validate_eq_ok_iff _ 23 59 59 29 rfl rfl rfl rfl (by decide)]
    refine ⟨fun _ => Or.inl (is30DF_2997 _ rfl), by decide, by decide, by decide, ?_,
      fun _ h => absurd h.1 (by decide)⟩
    show ((29 : Int) : ℚ) < 2997 / 100
    norm_num
  rw [e, hv]

/-- The branch of `add` taken when the new count is negative and a positive rollover limit
`h` is given: the count is moved up by `round(rate * 86400)`; the call throws `Rollover
arithmetic exceeds max permitted` when the moved count lies more than `h` hours after
midnight, `Negative timecodes not supported` when it is still negative, and otherwise
stores the moved count reduced with `%`. -/
theorem addNumber_rollover (this : Timecode) (c r : Int) (negative : Bool) (h : ℚ)
    (hc : this.frameCount = .int c) (hh : 0 < h)
    (hneg : c + (if negative then -r else r) < 0) :
    this.addNumber (.int r) negative (some h) =
      if h < ((Math.round (this.frameRate * 86400) + (c + (if negative then -r else r)) : Int)
            : ℚ) / this.frameRate / 3600 then
        .error .rolloverExceedsMax
      else if Math.round (this.frameRate * 86400) + (c + (if negative then -r else r)) < 0 then
        .error .negativeTimecodes
      else
        .ok (_frameCountToTimeCode
          { this with
            frameCount :=
              JSNum.int (Math.round (this.frameRate * 86400)
                  + (c + (if negative then -r else r)))
                % JSNum.int (Math.round (this.frameRate * 86400)) }) := by
  unfold addNumber
  rw [hc, signed_int]
  simp only [JSNum.int_add_int, JSNum.lt_int_int, hneg, hh, decide_True, Bool.and_self,
    if_true, Bool.true_and, JSNum.divDivGtRat, gt_iff_lt, decide_eq_true_eq]


/-- C11. Bounded rollover: for a `Timecode` with frame count `c`, a numeric amount `n` with
`c - round(n) < 0` and `rollOverMaxHours = h > 0`, put
`c' = c - round(n) + round(rate * 86400)`.  Then `subtract(n, h)` succeeds if and only if
`c' ≥ 0` and `c' / rate / 3600 ≤ h`; on success the new `frameCount` is `c'` and the object
is `_frameCountToTimeCode` of the receiver with that frame count; otherwise it throws
(`Rollover arithmetic exceeds max permitted` when `c' / rate / 3600 > h`, else `Negative
timecodes not supported`). -/
theorem C11_bounded_rollover (this : Timecode) (c : Int) (n h : ℚ)
    (hc : this.frameCount = .int c) (hneg : c - Math.round n < 0) (hh : 0 < h) :
    ((∃ u, this.subtract (.value (.number n)) (some h) = .ok u) ↔
        (0 ≤ c - Math.round n + Math.round (this.frameRate * 86400)
          ∧ ((c - Math.round n + Math.round (this.frameRate * 86400) : Int) : ℚ)
              / this.frameRate / 3600 ≤ h))
    ∧ (∀ u, this.subtract (.value (.number n)) (some h) = .ok u →
        u.frameCount = .int (c - Math.round n + Math.round (this.frameRate * 86400))
        ∧ u = _frameCountToTimeCode
            { this with
              frameCount :=
                .int (c - Math.round n + Math.round (this.frameRate * 86400)) })
    ∧ (¬ (0 ≤ c - Math.round n + Math.round (this.frameRate * 86400)
          ∧ ((c - Math.round n + Math.round (this.frameRate * 86400) : Int) : ℚ)
              / this.frameRate / 3600 ≤ h) →
        this.subtract (.value (.number n)) (some h) = .error .rolloverExceedsMax
        ∨ this.subtract (.value (.number n)) (some h) = .error .negativeTimecodes) := by
  have e : this.subtract (.value (.number n)) (some h)
      = this.addNumber (.int (Math.round n)) true (some h) := rfl
  have hneg' : c + (if true = true then -Math.round n else Math.round n) < 0 := by
    simp only [if_true]; omega
  rw [e, addNumber_rollover this c (Math.round n) true h hc hh hneg']
  simp only [if_true]
  have hre : Math.round (this.frameRate * 86400) + (c + -Math.round n)
      = c - Math.round n + Math.round (this.frameRate * 86400) := by ring
  rw [hre]
  generalize hD : Math.round (this.frameRate * 86400) = D at *
  generalize hC : c - Math.round n + D = C at *
  by_cases hex : h < (C : ℚ) / this.frameRate / 3600
  · rw [if_pos hex]
    refine ⟨?_, ?_, ?_⟩
    · constructor
      · rintro ⟨u, hu⟩; exact absurd hu (by simp)
      · rintro ⟨-, hle⟩; exact absurd hex (not_lt.mpr hle)
    · intro u hu; exact absurd hu (by simp)
    · intro _; exact Or.inl rfl
  · rw [if_neg hex]
    by_cases hn : C < 0
    · rw [if_pos hn]
      refine ⟨?_, ?_, ?_⟩
      · constructor
        · rintro ⟨u, hu⟩; exact absurd hu (by simp)
        · rintro ⟨h0, -⟩; omega
      · intro u hu; exact absurd hu (by simp)
      · intro _; exact Or.inr rfl
    · rw [if_neg hn]
      have hC0 : 0 ≤ C := by omega
      have hCD : C < D := by omega
      have hD0 : 0 < D := by omega
      rw [JSNum.int_mod_int C D hC0 hD0, Int.emod_eq_of_lt hC0 hCD]
      refine ⟨?_, ?_, ?_⟩
      · exact ⟨fun _ => ⟨hC0, not_lt.mp hex⟩, fun _ => ⟨_, rfl⟩⟩
      · intro u hu
        have hu' : _frameCountToTimeCode { this with frameCount := .int C } = u := by
          simpa using hu
        rw [← hu']
        exact ⟨rfl, rfl⟩
      · intro hnot; exact absurd ⟨hC0, not_lt.mp hex⟩ hnot

theorem C11_bounded_rollover_witness :
    ∃ u,
      subtract { frameRate := 2997 / 100, dropFrame := true, frameCount := .int 0,
                 hours := .int 0, minutes := .int 0, seconds := .int 0, frames := .int 0 }
          (.value (.number 2535462)) (some 1) = .ok u
      ∧ u.frameCount = .int 53946
      ∧ u.hours = .int 0 ∧ u.minutes = .int 30 ∧ u.seconds = .int 0 ∧ u.frames = .int 0 := by
  have hr : Math.round (2535462 : ℚ) = 2535462 := by exact_mod_cast round_intCast 2535462
  obtain ⟨h1, h2, -⟩ := C11_bounded_rollover
    { frameRate := 2997 / 100, dropFrame := true, frameCount := .int 0,
      hours := .int 0, minutes := .int 0, seconds := .int 0, frames := .int 0 }
    0 2535462 1 rfl (by rw [hr]; decide) (by norm_num)
  obtain ⟨u, hu⟩ := h1.2 (by
    rw [hr, round_day_2997]
    constructor
    · decide
    · norm_num)
  obtain ⟨h3, h4⟩ := h2 u hu
  rw [hr, round_day_2997] at h3 h4
  have e3 := is30DF_2997
    { frameRate := 2997 / 100, dropFrame := true, frameCount := .int 53946,
      hours := .int 0, minutes := .int 0, seconds := .int 0, frames := .int 0 } rfl
  have k := frameCountToTimeCode_drop
    { frameRate := 2997 / 100, dropFrame := true, frameCount := .int 53946,
      hours := .int 0, minutes := .int 0, seconds := .int 0, frames := .int 0 }
    53946 2 rfl (numOfFramesToDrop_of_is30DF _ e3) (Or.inl rfl) rfl (by decide)
    (by rw [round_of_is30DF _ e3]; decide)
  have hi : inflated 2 53946 = 54000 := by decide
  rw [round_of_is30DF _ e3, hi] at k
  norm_num at k
  have h5 : u = { frameRate := 2997 / 100, dropFrame := true, frameCount := .int 53946,
                  hours := .int 0, minutes := .int 30, seconds := .int 0,
                  frames := .int 0 } := by
    rw [h4]
    exact k
  refine ⟨u, hu, ?_⟩
  rw [h5]
  exact ⟨rfl, rfl, rfl, rfl, rfl⟩


/-! ## Atomicity of `add` -/

/-- The result of `add` on numbers is the outcome of the statement-by-statement version. -/
theorem addNumber_eq_inPlace (this : Timecode) (r : JSNum) (negative : Bool)
    (rollOverMaxHours : Option ℚ) :
    this.addNumber r negative rollOverMaxHours =
      match (this.addNumberInPlace r negative rollOverMaxHours).thrown with
      | some e => .error e
      | none => .ok (this.addNumberInPlace r negative rollOverMaxHours).receiver := by
  unfold addNumber addNumberInPlace
  dsimp only
  split_ifs <;> rfl

/-- The result of `add` is the outcome of the statement-by-statement version. -/
theorem add_eq_inPlace (this : Timecode) (t : Operand) (negative : Bool)
    (rollOverMaxHours : Option ℚ) :
    this.add t negative rollOverMaxHours =
      match (this.addInPlace t negative rollOverMaxHours).thrown with
      | some e => .error e
      | none => .ok (this.addInPlace t negative rollOverMaxHours).receiver := by
  rcases t with v | t
  · rcases v with n | s | ⟨H, M, S, F⟩
    · exact addNumber_eq_inPlace this _ negative rollOverMaxHours
    · simp only [add, addInPlace]
      cases hnew : new (.string s) this.frameRate (some this.dropFrame) with
      | error e => rfl
      | ok u => exact addNumber_eq_inPlace this _ negative rollOverMaxHours
    · simp only [add, addInPlace]
      cases hnew : new (.object H M S F) this.frameRate (some this.dropFrame) with
      | error e => rfl
      | ok u => exact addNumber_eq_inPlace this _ negative rollOverMaxHours
  · exact addNumber_eq_inPlace this _ negative rollOverMaxHours

theorem addNumberInPlace_thrown (this : Timecode) (r : JSNum) (negative : Bool)
    (rollOverMaxHours : Option ℚ) (e : Error)
    (h : (this.addNumberInPlace r negative rollOverMaxHours).thrown = some e) :
    (this.addNumberInPlace r negative rollOverMaxHours).receiver = this := by
  unfold addNumberInPlace at h ⊢
  dsimp only at h ⊢
  split_ifs at h ⊢ <;> rfl

/-- C12. Atomicity of arithmetic: whenever `add` or `subtract` throws (negative result,
rollover limit exceeded, or a string or object operand that the constructor rejects), the
receiver is exactly what it was before the call: `frameCount`, `hours`, `minutes`,
`seconds`, `frames`, `frameRate` and `dropFrame` are unchanged.  The throw is the error
result of `add`. -/
theorem C12_arithmetic_atomic (this : Timecode) (t : Operand) (negative : Bool)
    (rollOverMaxHours : Option ℚ) (e : Error)
    (h : this.add t negative rollOverMaxHours = .error e) :
    (this.addInPlace t negative rollOverMaxHours).thrown = some e
    ∧ (this.addInPlace t negative rollOverMaxHours).receiver = this
    ∧ (negative = true →
        this.subtract t rollOverMaxHours = .error e
        ∧ (this.subtractInPlace t rollOverMaxHours).receiver = this) := by
  have hthrown : (this.addInPlace t negative rollOverMaxHours).thrown = some e := by
    rw [add_eq_inPlace] at h
    cases hth : (this.addInPlace t negative rollOverMaxHours).thrown with
    | none => rw [hth] at h; exact absurd h (by simp)
    | some e' =>
      rw [hth] at h
      have : e' = e := by simpa using h
      rw [this]
  have hrec : (this.addInPlace t negative rollOverMaxHours).receiver = this := by
    rcases t with v | t
    · rcases v with n | s | ⟨H, M, S, F⟩
      · exact addNumberInPlace_thrown this _ negative rollOverMaxHours e hthrown
      · simp only [addInPlace] at hthrown ⊢
        cases hnew : new (.string s) this.frameRate (some this.dropFrame) with
        | error e' => rfl
        | ok u =>
          rw [hnew] at hthrown
          exact addNumberInPlace_thrown this _ negative rollOverMaxHours e hthrown
      · simp only [addInPlace] at hthrown ⊢
        cases hnew : new (.object H M S F) this.frameRate (some this.dropFrame) with
        | error e' => rfl
        | ok u =>
          rw [hnew] at hthrown
          exact addNumberInPlace_thrown this _ negative rollOverMaxHours e hthrown
    · exact addNumberInPlace_thrown this _ negative rollOverMaxHours e hthrown
  refine ⟨hthrown, hrec, fun hn => ?_⟩
  subst hn
  exact ⟨h, hrec⟩

theorem C12_arithmetic_atomic_witness :
    (addInPlace
      { frameRate := 2997 / 100, dropFrame := true, frameCount := .int 300,
        hours := .int 0, minutes := .int 0, seconds := .int 10, frames := .int 0 }
      (.value (.number (-301))) false none).receiver
    = { frameRate := 2997 / 100, dropFrame := true, frameCount := .int 300,
        hours := .int 0, minutes := .int 0, seconds := .int 10, frames := .int 0 } :=
  (C12_arithmetic_atomic
    { frameRate := 2997 / 100, dropFrame := true, frameCount := .int 300,
      hours := .int 0, minutes := .int 0, seconds := .int 10, frames := .int 0 }
    (.value (.number (-301))) false none .negativeTimecodes
    (by
      have h : Math.round (-301 : ℚ) = -301 := by exact_mod_cast round_intCast (-301)
      show addNumber _ (.int (Math.round (-301))) false none = _
      rw [h]
      exact addNumber_of_neg _ 300 (-301) false none rfl (fun _ h => by simp at h)
        (by decide))).2.1


/-! ## Operands of `add` -/

/-- With a boolean drop-frame argument the constructor reads only the digits of a string:
the result is that of the object with the same fields. -/
theorem new_string_some (s : String) (p : Parts) (rate : ℚ) (b : Bool)
    (hm : matchTimecode s = some p) :
    new (.string s) rate (some b) = new (.object p.p1 p.p2 p.p3 p.p5) rate (some b) := by
  by_cases hr : 0 < rate
  · rw [new_string_eq s p rate (some b) hr hm, new_object_eq _ _ _ _ rate (some b) hr]
    rfl
  · unfold new
    rw [if_neg hr, if_neg hr]

/-- A successful `add` on numbers keeps the receiver's frame rate and drop-frame flag. -/
theorem addNumber_ok_settings (this : Timecode) (r : JSNum) (negative : Bool)
    (rollOverMaxHours : Option ℚ) (u : Timecode)
    (h : this.addNumber r negative rollOverMaxHours = .ok u) :
    u.frameRate = this.frameRate ∧ u.dropFrame = this.dropFrame := by
  unfold addNumber at h
  dsimp only at h
  split_ifs at h <;> (have h' := Except.ok.inj h; rw [← h']; exact ⟨rfl, rfl⟩)

/-- A successful `add` keeps the receiver's frame rate and drop-frame flag. -/
theorem add_ok_settings (this : Timecode) (t : Operand) (negative : Bool)
    (rollOverMaxHours : Option ℚ) (u : Timecode)
    (h : this.add t negative rollOverMaxHours = .ok u) :
    u.frameRate = this.frameRate ∧ u.dropFrame = this.dropFrame := by
  rcases t with v | t
  · rcases v with n | s | ⟨H, M, S, F⟩
    · exact addNumber_ok_settings this _ negative rollOverMaxHours u h
    · simp only [add] at h
      cases hnew : new (.string s) this.frameRate (some this.dropFrame) with
      | error e => rw [hnew] at h; exact absurd h (by simp)
      | ok w =>
        rw [hnew] at h
        exact addNumber_ok_settings this _ negative rollOverMaxHours u h
    · simp only [add] at h
      cases hnew : new (.object H M S F) this.frameRate (some this.dropFrame) with
      | error e => rw [hnew] at h; exact absurd h (by simp)
      | ok w =>
        rw [hnew] at h
        exact addNumber_ok_settings this _ negative rollOverMaxHours u h
  · exact addNumber_ok_settings this _ negative rollOverMaxHours u h

/-- The constructor on an object of integer fields without drop-frame, when the fields pass
`_validate`. -/
theorem new_object_nodrop (H M S F : Int) (rate : ℚ) (hr : 0 < rate) (hM0 : 0 ≤ M)
    (hH : H ≤ 23) (hM : M ≤ 59) (hS : S ≤ 59) (hF : (F : ℚ) < rate) :
    new (.object H M S F) rate (some false)
      = .ok { frameRate := rate, dropFrame := false,
              frameCount := .int ((H * 3600 + M * 60 + S) * Math.round rate + F),
              hours := .int H, minutes := .int M, seconds := .int S, frames := .int F } := by
  rw [new_object_eq H M S F rate (some false) hr]
  simp only [Option.getD_some]
  rw [timeCodeToFrameCount_nodrop _ H M S F rfl rfl rfl rfl rfl]
  have hv : _validate
      { frameRate := rate, dropFrame := false,
        frameCount := .int ((H * 3600 + M * 60 + S) * Math.round rate + F),
        hours := .int H, minutes := .int M, seconds := .int S, frames := .int F }
      = .ok () := by
    rw [validate_eq_ok_iff _ H M S F rfl rfl rfl rfl hM0]
    exact ⟨fun h => absurd h (by simp), hH, hM, hS, hF, fun h => absurd h (by simp)⟩
  rw [hv]

/-- C13. Operands are interpreted at the receiver's settings.  For a receiver with rate `r`
and drop-frame flag `b` and a string or object `v` that the constructor accepts at
`(r, b)`, with frame count `k` there, `receiver.add(v)` is `receiver.add(k)`; a string with
the same digits and any other separators gives the same result; for a `Timecode` operand `t`
(of any rate and flag) with frame count `c`, `receiver.add(t)` is `receiver.add(c)`; and
every successful `add` leaves the receiver's `frameRate` and `dropFrame` unchanged.  The
same holds for `subtract` (`negative = true`). -/
theorem C13_operands_at_receiver_settings (this : Timecode) (v : Input) (t : Timecode)
    (k : Int) (negative : Bool) (rollOverMaxHours : Option ℚ)
    (hin : ∀ x, v ≠ .number x)
    (hnew : new v this.frameRate (some this.dropFrame) = .ok t)
    (hk : t.frameCount = .int k) :
    this.add (.value v) negative rollOverMaxHours
      = this.add (.value (.number (k : ℚ))) negative rollOverMaxHours
    ∧ (∀ s s' p p', v = .string s → matchTimecode s = some p → matchTimecode s' = some p' →
        p'.p1 = p.p1 → p'.p2 = p.p2 → p'.p3 = p.p3 → p'.p5 = p.p5 →
        this.add (.value (.string s')) negative rollOverMaxHours
          = this.add (.value (.number (k : ℚ))) negative rollOverMaxHours)
    ∧ (∀ (op : Timecode) (c : Int), op.frameCount = .int c →
        this.add (.timecode op) negative rollOverMaxHours
          = this.add (.value (.number (c : ℚ))) negative rollOverMaxHours)
    ∧ (∀ (operand : Operand) (u : Timecode),
        this.add operand negative rollOverMaxHours = .ok u →
        u.frameRate = this.frameRate ∧ u.dropFrame = this.dropFrame) := by
  have hnum : ∀ c : Int, this.add (.value (.number (c : ℚ))) negative rollOverMaxHours
      = this.addNumber (.int c) negative rollOverMaxHours := by
    intro c
    show this.addNumber (.int (Math.round (c : ℚ))) negative rollOverMaxHours = _
    rw [round_intCast]
  have hv : ∀ v' : Input, (∀ x, v' ≠ .number x) →
      new v' this.frameRate (some this.dropFrame) = .ok t →
      this.add (.value v') negative rollOverMaxHours
        = this.add (.value (.number (k : ℚ))) negative rollOverMaxHours := by
    intro v' hin' hnew'
    rw [hnum]
    rcases v' with x | s | ⟨H, M, S, F⟩
    · exact absurd rfl (hin' x)
    · simp only [add]
      rw [hnew']
      simp only [hk]
    · simp only [add]
      rw [hnew']
      simp only [hk]
  refine ⟨hv v hin hnew, ?_, ?_, ?_⟩
  · intro s s' p p' hvs hm hm' h1 h2 h3 h5
    subst hvs
    apply hv (.string s') (fun x h => by simp at h)
    rw [new_string_some s' p' _ _ hm', h1, h2, h3, h5, ← new_string_some s p _ _ hm]
    exact hnew
  · intro op c hop
    rw [hnum]
    show this.addNumber op.frameCount negative rollOverMaxHours = _
    rw [hop]
  · intro operand u hu
    exact add_ok_settings this operand negative rollOverMaxHours u hu

theorem C13_operands_at_receiver_settings_witness :
    add { frameRate := 25, dropFrame := false, frameCount := .int 0,
          hours := .int 0, minutes := .int 0, seconds := .int 0, frames := .int 0 }
      (.value (.string "00:01:00:00")) false none
    = add { frameRate := 25, dropFrame := false, frameCount := .int 0,
            hours := .int 0, minutes := .int 0, seconds := .int 0, frames := .int 0 }
        (.value (.number ((1500 : Int) : ℚ))) false none :=
  (C13_operands_at_receiver_settings
    { frameRate := 25, dropFrame := false, frameCount := .int 0,
      hours := .int 0, minutes := .int 0, seconds := .int 0, frames := .int 0 }
    (.string "00:01:00:00")
    { frameRate := 25, dropFrame := false, frameCount := .int 1500,
      hours := .int 0, minutes := .int 1, seconds := .int 0, frames := .int 0 }
    1500 false none (fun x h => by simp at h)
    (by
      have hm : matchTimecode "00:01:00:00"
          = some { p1 := 0, p2 := 1, p3 := 0, p4 := ':', p5 := 0 } := by decide
      have h25 : Math.round (25 : ℚ) = 25 := by exact_mod_cast round_intCast 25
      rw [new_string_some _ _ _ _ hm,
        new_object_nodrop 0 1 0 0 25 (by norm_num) (by decide) (by decide) (by decide)
          (by decide) (by norm_num), h25]
      rfl)
    rfl).1


/-! ## The frame count after construction -/

/-- A successful construction from a number stores the rounded number. -/
theorem new_number_frameCount (n rate : ℚ) (arg : Option Bool) (t : Timecode)
    (hnew : new (.number n) rate arg = .ok t) : t.frameCount = .int (Math.round n) := by
  have hr : 0 < rate := by
    by_contra h
    unfold new at hnew
    rw [if_neg h] at hnew
    exact absurd hnew (by simp)
  rw [new_number_eq n rate arg hr] at hnew
  split at hnew
  · exact absurd hnew (by simp)
  · have h := Except.ok.inj hnew
    rw [← h]
    rfl

/-- C14, as stated, fails.  (a) `Timecode(2160000, 25, false)`, the number of frames of a
whole day, is constructed with `frameCount = 2160000`, which is `round(rate * 86400)` and
not below it; the fields are 00:00:00:00, the hours being reduced modulo 24.
(b) At 29.97 the string `23:59:59:00` is constructed without drop-frame, with
`frameCount = 2591970`, not below `round(rate * 86400) = 2589408`. -/
theorem C14_counterexample :
    (∃ t, new (.number 2160000) 25 (some false) = .ok t ∧ t.frameCount = .int 2160000
        ∧ Math.round (t.frameRate * 86400) = 2160000
        ∧ t.hours = .int 0 ∧ t.minutes = .int 0 ∧ t.seconds = .int 0 ∧ t.frames = .int 0)
    ∧ (∃ t, new (.string "23:59:59:00") (2997 / 100) none = .ok t
        ∧ t.frameCount = .int 2591970
        ∧ Math.round (t.frameRate * 86400) = 2589408) := by
  constructor
  · have hn : Math.round (2160000 : ℚ) = 2160000 := by exact_mod_cast round_intCast 2160000
    have h25 : Math.round (25 : ℚ) = 25 := by exact_mod_cast round_intCast 25
    have hday : Math.round ((25 : ℚ) * 86400) = 2160000 := by norm_num [Math.round]
    rw [new_number_eq _ _ _ (by norm_num)]
    simp only [Option.getD_some, hn]
    have k := frameCountToTimeCode_nodrop
      { frameRate := 25, dropFrame := false, frameCount := .int 2160000, hours := .nan,
        minutes := .nan, seconds := .nan, frames := .nan }
      2160000 rfl rfl (by decide) (by rw [h25]; decide)
    rw [h25] at k
    norm_num at k
    rw [k]
    have hv : _validate
        { frameRate := 25, dropFrame := false, frameCount := .int 2160000, hours := .int 0,
          minutes := .int 0, seconds := .int 0, frames := .int 0 } = .ok () := by
      rw [validate_eq_ok_iff _ 0 0 0 0 rfl rfl rfl rfl (by decide)]
      exact ⟨fun h => absurd h (by simp), by decide, by decide, by decide, by norm_num,
        fun h => absurd h (by simp)⟩
    rw [hv]
    exact ⟨_, rfl, rfl, hday, rfl, rfl, rfl, rfl⟩
  · have hm : matchTimecode "23:59:59:00"
        = some { p1 := 23, p2 := 59, p3 := 59, p4 := ':', p5 := 0 } := by decide
    have hd : (none : Option Bool).getD ((':' : Char) != ':') = false := by decide
    have e : new (.string "23:59:59:00") (2997 / 100) none
        = new (.object 23 59 59 0) (2997 / 100) (some false) := by
      rw [new_string_eq _ _ _ _ (by norm_num) hm, new_object_eq _ _ _ _ _ _ (by norm_num)]
      simp only [hd, Option.getD_some]
    rw [e, new_object_nodrop 23 59 59 0 _ (by norm_num) (by decide) (by decide) (by decide)
      (by decide) (by norm_num), round_2997]
    exact ⟨_, rfl, rfl, round_day_2997⟩

/-- C14, amended. Every `Timecode` that construction produces from a number, a string or an
object of non-negative values has a non-negative integer `frameCount`: constructed from a
number `n` with `round(n) ≥ 0` it is `round(n)`, which the constructor does not reduce
modulo a day; constructed from a string or from an object of non-negative integers with
`F < round(rate)` it is the count `c` of the fields, with `0 ≤ c < timecodesPerDay`
(`86400 * round(rate)`, less `1296 * df` in drop-frame mode), hence below
`round(frameRate * 86400)` whenever that is at least `timecodesPerDay`, as at 29.97 and
59.94 with drop-frame and at integer rates without. -/
theorem C14_frameCount_after_construction (timeCode : Input) (rate : ℚ)
    (dropFrame : Option Bool) (t : Timecode) (hnew : new timeCode rate dropFrame = .ok t) :
    (∀ n, timeCode = .number n → 0 ≤ Math.round n →
        t.frameCount = .int (Math.round n) ∧ ∃ c : Int, t.frameCount = .int c ∧ 0 ≤ c)
    ∧ (∀ H M S F : Int, (∀ x, timeCode ≠ .number x) →
        t.hours = .int H → t.minutes = .int M → t.seconds = .int S → t.frames = .int F →
        0 ≤ H → 0 ≤ M → 0 ≤ S → 0 ≤ F → F < Math.round rate →
        ∃ c : Int, t.frameCount = .int c ∧ 0 ≤ c ∧ c < t.timecodesPerDay
          ∧ (t.timecodesPerDay ≤ Math.round (t.frameRate * 86400) →
              c < Math.round (t.frameRate * 86400))) := by
  constructor
  · intro n hn hn0
    subst hn
    have h := new_number_frameCount n rate dropFrame t hnew
    exact ⟨h, _, h, hn0⟩
  · intro H M S F hin hH hM hS hF hH0 hM0 hS0 hF0 hF1
    obtain ⟨hr, hfr, hval, hcons⟩ := new_fields_inv timeCode rate dropFrame t hin hnew
    obtain ⟨hel, hH23, hM59, hS59, -, hnd⟩ :=
      (validate_eq_ok_iff t H M S F hH hM hS hF hM0).1 hval
    rw [← hfr] at hF1
    have hint : ∃ c : Int, t.frameCount = .int c := by
      by_cases hd : t.dropFrame = true
      · have e := timeCodeToFrameCount_drop t H M S F hd hH hM hS hF
        rw [hcons] at e
        exact ⟨_, congrArg Timecode.frameCount e⟩
      · have hd' : t.dropFrame = false := by simpa using hd
        have e := timeCodeToFrameCount_nodrop t H M S F hd' hH hM hS hF
        rw [hcons] at e
        exact ⟨_, congrArg Timecode.frameCount e⟩
    obtain ⟨c, hc⟩ := hint
    obtain ⟨hc0, hcL⟩ := frameCount_lt_timecodesPerDay t H M S F c hH hM hS hF hH0 (by omega)
      hM0 (by omega) hS0 (by omega) hF0 hF1 hel hcons hc
    exact ⟨c, hc, hc0, hcL, fun h => lt_of_lt_of_le hcL h⟩

theorem C14_frameCount_after_construction_witness :
    ∃ c : Int, JSNum.int 2589407 = .int c ∧ 0 ≤ c
      ∧ c < timecodesPerDay
          { frameRate := 2997 / 100, dropFrame := true, frameCount := .int 2589407,
            hours := .int 23, minutes := .int 59, seconds := .int 59, frames := .int 29 } := by
  obtain ⟨c, h1, h2, h3, -⟩ := (C14_frameCount_after_construction (.string "23:59:59;29")
    (2997 / 100) none
    { frameRate := 2997 / 100, dropFrame := true, frameCount := .int 2589407,
      hours := .int 23, minutes := .int 59, seconds := .int 59, frames := .int 29 }
    new_lastTimecode_2997).2 23 59 59 29 (fun x h => by simp at h) rfl rfl rfl rfl
    (by decide) (by decide) (by decide) (by decide) (by rw [round_2997]; decide)
  exact ⟨c, h1, h2, h3⟩


/-! ## Drop-frame and the frame rate -/

theorem validate_not_eligible (t : Timecode) (hd : t.dropFrame = true)
    (h3 : t._is30DF = false) (h6 : t._is60DF = false) :
    t._validate = .error .dropFrameOnlySupported := by
  simp [_validate, hd, h3, h6]

theorem validate_ok_eligible (t : Timecode) (h : t._validate = .ok ())
    (hd : t.dropFrame = true) : t._is30DF = true ∨ t._is60DF = true := by
  by_contra hne
  have h3 : t._is30DF = false := by
    cases h3 : t._is30DF
    · rfl
    · exact absurd (Or.inl h3) hne
  have h6 : t._is60DF = false := by
    cases h6 : t._is60DF
    · rfl
    · exact absurd (Or.inr h6) hne
  rw [validate_not_eligible t hd h3 h6] at h
  exact absurd h (by simp)

theorem validate_eligible_ne (t : Timecode) (hel : t._is30DF = true ∨ t._is60DF = true) :
    t._validate ≠ .error .dropFrameOnlySupported := by
  unfold _validate
  have hc : (t.dropFrame && !t._is30DF && !t._is60DF) = false := by
    rcases hel with h | h <;> simp [h]
  rw [hc]
  simp only [Bool.false_eq_true, if_false]
  split_ifs <;> simp

/-- Where the result of the constructor comes from: a rate that is not positive, a string
that does not match, or `_validate` on an object with the given rate, whose drop-frame flag
is the boolean argument when there is one. -/
theorem new_cases (timeCode : Input) (rate : ℚ) (dropFrame : Option Bool) :
    new timeCode rate dropFrame = .error .numberExpectedAsFramerate
    ∨ new timeCode rate dropFrame = .error .timecodeStringExpected
    ∨ ∃ t : Timecode, t.frameRate = rate ∧ (∀ b, dropFrame = some b → t.dropFrame = b)
        ∧ new timeCode rate dropFrame
            = (match t._validate with
              | .error e => .error e
              | .ok _ => .ok t) := by
  by_cases hr : 0 < rate
  · right
    rcases timeCode with n | s | ⟨H, M, S, F⟩
    · right
      rw [new_number_eq n rate dropFrame hr]
      refine ⟨_, rfl, ?_, rfl⟩
      intro b hb; subst hb; rfl
    · cases hm : matchTimecode s with
      | none =>
        left
        unfold new
        rw [if_pos hr]
        simp [hm]
      | some p =>
        right
        rw [new_string_eq s p rate dropFrame hr hm]
        refine ⟨_, (timeCodeToFrameCount_fields _).1, ?_, rfl⟩
        intro b hb; subst hb
        exact (timeCodeToFrameCount_fields _).2.1
    · right
      rw [new_object_eq H M S F rate dropFrame hr]
      refine ⟨_, (timeCodeToFrameCount_fields _).1, ?_, rfl⟩
      intro b hb; subst hb
      exact (timeCodeToFrameCount_fields _).2.1
  · left
    unfold new
    rw [if_neg hr]

/-- Every constructed object has passed `_validate` and holds the given rate. -/
theorem new_ok_validate (timeCode : Input) (rate : ℚ) (dropFrame : Option Bool)
    (t : Timecode) (hnew : new timeCode rate dropFrame = .ok t) :
    t._validate = .ok () ∧ t.frameRate = rate := by
  rcases new_cases timeCode rate dropFrame with h | h | ⟨u, hu, -, h⟩
  · rw [h] at hnew; exact absurd hnew (by simp)
  · rw [h] at hnew; exact absurd hnew (by simp)
  · rw [h] at hnew
    cases hv : u._validate with
    | error e => rw [hv] at hnew; exact absurd hnew (by simp)
    | ok x =>
      rw [hv] at hnew
      have : u = t := by simpa using hnew
      rw [← this]
      exact ⟨hv, hu⟩


theorem is30DF_of_abs (t : Timecode) :
    t._is30DF = decide (|30000 / 1001 - t.frameRate| < 1 / 10000) := by
  simp [_is30DF, DROP_FRAME_EPSILON]

theorem is60DF_of_abs (t : Timecode) :
    t._is60DF = decide (|60000 / 1001 - t.frameRate| < 1 / 10000) := by
  simp [_is60DF, DROP_FRAME_EPSILON]

/-- Every value that exists has passed `_validate` at its own rate and flag, as far as the
drop-frame test goes: drop-frame implies a drop-eligible rate. -/
theorem reachable_eligible (t : Timecode) (h : Reachable t) (hd : t.dropFrame = true) :
    t._is30DF = true ∨ t._is60DF = true := by
  induction h with
  | construct timeCode rate dropFrame t hnew =>
    exact validate_ok_eligible t (new_ok_validate timeCode rate dropFrame t hnew).1 hd
  | add this op negative rollOverMaxHours u _ hadd ih =>
    obtain ⟨hfr, hdf⟩ := add_ok_settings this op negative rollOverMaxHours u hadd
    rw [is30DF_congr u this hfr, is60DF_congr u this hfr]
    exact ih (hdf ▸ hd)

/-- C15. Drop-frame only for the NTSC rates: construction with `dropFrame = true` throws
whenever the frame rate is not within `1e-4` of `30000/1001` or `60000/1001` (so at rate 30,
where the error is `Drop frame is only supported for 29.97 and 59.94 fps`); at 29.97,
`30000/1001`, 59.94 and `60000/1001` no construction throws that error; and every
`Timecode` that exists after a construction or after any successful `add` or `subtract`,
if its `dropFrame` is true, has a drop-eligible rate and 2 or 4 frames dropped per
minute. -/
theorem C15_dropFrame_only_for_ntsc_rates :
    (∀ (timeCode : Input) (rate : ℚ), ¬ (|30000 / 1001 - rate| < 1 / 10000) →
        ¬ (|60000 / 1001 - rate| < 1 / 10000) →
        ∃ e, new timeCode rate (some true) = .error e)
    ∧ new (.number 0) 30 (some true) = .error .dropFrameOnlySupported
    ∧ (∀ (timeCode : Input) (rate : ℚ) (dropFrame : Option Bool),
        rate = 2997 / 100 ∨ rate = 30000 / 1001 ∨ rate = 2997 / 50 ∨ rate = 60000 / 1001 →
        new timeCode rate dropFrame ≠ .error .dropFrameOnlySupported)
    ∧ (∀ t : Timecode, Reachable t → t.dropFrame = true →
        (|30000 / 1001 - t.frameRate| < 1 / 10000 ∨ |60000 / 1001 - t.frameRate| < 1 / 10000)
        ∧ (t._numOfFramesToDrop = 2 ∨ t._numOfFramesToDrop = 4)) := by
  have hthrow : ∀ (timeCode : Input) (rate : ℚ), ¬ (|30000 / 1001 - rate| < 1 / 10000) →
      ¬ (|60000 / 1001 - rate| < 1 / 10000) →
      new timeCode rate (some true) = .error .numberExpectedAsFramerate
      ∨ new timeCode rate (some true) = .error .timecodeStringExpected
      ∨ new timeCode rate (some true) = .error .dropFrameOnlySupported := by
    intro timeCode rate h3 h6
    rcases new_cases timeCode rate (some true) with h | h | ⟨u, hu, hb, h⟩
    · exact Or.inl h
    · exact Or.inr (Or.inl h)
    · right; right
      have e3 : u._is30DF = false := by rw [is30DF_of_abs, hu]; simpa using h3
      have e6 : u._is60DF = false := by rw [is60DF_of_abs, hu]; simpa using h6
      rw [h, validate_not_eligible u (hb true rfl) e3 e6]
  refine ⟨?_, ?_, ?_, ?_⟩
  · intro timeCode rate h3 h6
    rcases hthrow timeCode rate h3 h6 with h | h | h <;> exact ⟨_, h⟩
  · rw [new_number_eq _ _ _ (by norm_num)]
    have e3 : ∀ u : Timecode, u.frameRate = 30 → u._is30DF = false := by
      intro u hu
      rw [is30DF_of_abs, hu]
      simp [abs_lt]
      norm_num
    have e6 : ∀ u : Timecode, u.frameRate = 30 → u._is60DF = false := by
      intro u hu
      rw [is60DF_of_abs, hu]
      simp [abs_lt]
      norm_num
    rw [validate_not_eligible _ rfl (e3 _ rfl) (e6 _ rfl)]
  · intro timeCode rate dropFrame hrate
    rcases new_cases timeCode rate dropFrame with h | h | ⟨u, hu, -, h⟩
    · rw [h]; simp
    · rw [h]; simp
    · have hel : u._is30DF = true ∨ u._is60DF = true := by
        rw [is30DF_of_abs, is60DF_of_abs, hu]
        rcases hrate with h | h | h | h <;> rw [h] <;> simp [abs_lt] <;> norm_num
      have hne := validate_eligible_ne u hel
      rw [h]
      cases hv : u._validate with
      | error e =>
        intro hcontra
        apply hne
        rw [hv]
        have : e = .dropFrameOnlySupported := by simpa using hcontra
        rw [this]
      | ok x => simp
  · intro t ht hd
    have hel := reachable_eligible t ht hd
    refine ⟨?_, ?_⟩
    · rcases hel with h | h
      · exact Or.inl ((is30DF_iff t).1 h)
      · exact Or.inr ((is60DF_iff t).1 h)
    · rcases eligible_cases t hel with ⟨h, -⟩ | ⟨h, -⟩
      · exact Or.inl h
      · exact Or.inr h


/-! ## The drop-frame flag after construction -/

theorem ok_of_match_validate (x t : Timecode)
    (h : (match x._validate with
          | .error e => (.error e : Except Error Timecode)
          | .ok _ => .ok x) = .ok t) :
    x = t ∧ x._validate = .ok () := by
  cases hv : x._validate with
  | error e => rw [hv] at h; exact absurd h (by simp)
  | ok u =>
    rw [hv] at h
    exact ⟨by simpa using h, rfl⟩

/-- C16, as stated, fails: at 29.97, a drop-eligible rate, the string `12:33:44:12` passed
without a drop-frame argument constructs a `Timecode` with `dropFrame = false`; the frame
separator `:` decides. -/
theorem C16_counterexample :
    |30000 / 1001 - (2997 / 100 : ℚ)| < 1 / 10000
    ∧ ∃ t, new (.string "12:33:44:12") (2997 / 100) none = .ok t
        ∧ t.dropFrame = false ∧ t.frameCount = .int 1356732 := by
  refine ⟨by rw [abs_lt]; norm_num, ?_⟩
  have hm : matchTimecode "12:33:44:12"
      = some { p1 := 12, p2 := 33, p3 := 44, p4 := ':', p5 := 12 } := by decide
  have hd : (none : Option Bool).getD ((':' : Char) != ':') = false := by decide
  have e : new (.string "12:33:44:12") (2997 / 100) none
      = new (.object 12 33 44 12) (2997 / 100) (some false) := by
    rw [new_string_eq _ _ _ _ (by norm_num) hm, new_object_eq _ _ _ _ _ _ (by norm_num)]
    simp only [hd, Option.getD_some]
  rw [e, new_object_nodrop 12 33 44 12 _ (by norm_num) (by decide) (by decide) (by decide)
    (by decide) (by norm_num), round_2997]
  exact ⟨_, rfl, rfl, rfl⟩

/-- C16, amended. When the caller passes a boolean `dropFrame`, the constructed `Timecode`
has it as given, whatever the string's separator.  When the caller passes none: for a number
or an object, `dropFrame` is true if and only if the rate is drop-eligible; for a string it
is true if and only if the separator before the frames is not `:` (it is `;` or `.`). -/
theorem C16_dropFrame_after_construction (timeCode : Input) (rate : ℚ)
    (dropFrame : Option Bool) (t : Timecode) (hnew : new timeCode rate dropFrame = .ok t) :
    (∀ b, dropFrame = some b → t.dropFrame = b)
    ∧ (dropFrame = none → (∀ s, timeCode ≠ .string s) →
        (t.dropFrame = true ↔
          (|30000 / 1001 - rate| < 1 / 10000 ∨ |60000 / 1001 - rate| < 1 / 10000)))
    ∧ (dropFrame = none → ∀ s p, timeCode = .string s → matchTimecode s = some p →
        (t.dropFrame = true ↔ p.p4 ≠ ':')) := by
  have hr : 0 < rate := by
    by_contra h
    unfold new at hnew
    rw [if_neg h] at hnew
    exact absurd hnew (by simp)
  have hdef : ((_is30DF ⟨rate, false, .nan, .nan, .nan, .nan, .nan⟩
        || _is60DF ⟨rate, false, .nan, .nan, .nan, .nan, .nan⟩) = true)
      ↔ (|30000 / 1001 - rate| < 1 / 10000 ∨ |60000 / 1001 - rate| < 1 / 10000) := by
    rw [is30DF_of_abs, is60DF_of_abs]
    simp
  refine ⟨?_, ?_, ?_⟩
  · intro b hb
    subst hb
    rcases new_cases timeCode rate (some b) with h | h | ⟨u, -, hub, h⟩
    · rw [h] at hnew; exact absurd hnew (by simp)
    · rw [h] at hnew; exact absurd hnew (by simp)
    · rw [h] at hnew
      rw [← (ok_of_match_validate u t hnew).1]
      exact hub b rfl
  · intro hnone hns
    subst hnone
    rcases timeCode with n | s | ⟨H, M, S, F⟩
    · rw [new_number_eq n rate none hr] at hnew
      rw [← (ok_of_match_validate _ t hnew).1]
      exact hdef
    · exact absurd rfl (hns s)
    · rw [new_object_eq H M S F rate none hr] at hnew
      rw [← (ok_of_match_validate _ t hnew).1, (timeCodeToFrameCount_fields _).2.1]
      exact hdef
  · intro hnone s p hs hm
    subst hnone hs
    rw [new_string_eq s p rate none hr hm] at hnew
    rw [← (ok_of_match_validate _ t hnew).1, (timeCodeToFrameCount_fields _).2.1]
    simp

theorem C16_dropFrame_after_construction_witness :
    dropFrame
      { frameRate := 2997 / 100, dropFrame := true, frameCount := .int 2589407,
        hours := .int 23, minutes := .int 59, seconds := .int 59, frames := .int 29 }
      = true ↔ (';' : Char) ≠ ':' :=
  (C16_dropFrame_after_construction (.string "23:59:59;29") (2997 / 100) none
    { frameRate := 2997 / 100, dropFrame := true, frameCount := .int 2589407,
      hours := .int 23, minutes := .int 59, seconds := .int 59, frames := .int 29 }
    new_lastTimecode_2997).2.2 rfl "23:59:59;29"
    { p1 := 23, p2 := 59, p3 := 59, p4 := ';', p5 := 29 } rfl (by decide)


/-! ## The field format -/

theorem toString_field_low (this : Timecode) (s : String) (hr : this.frameRate ≤ 30)
    (h : this.toString none = .ok s) : this.toString (some "field") = .ok (s ++ ".0") := by
  simp only [toString, if_pos hr, if_true] at h ⊢
  rw [← Except.ok.inj h]
  simp [String.append_assoc]

theorem toString_field_high (this : Timecode) (H M S F c : Int)
    (hH : this.hours = .int H) (hM : this.minutes = .int M) (hS : this.seconds = .int S)
    (hF : this.frames = .int F) (hc : this.frameCount = .int c) (hc0 : 0 ≤ c)
    (hr : 30 < this.frameRate) :
    this.toString (some "field")
      = .ok (twoDigits H ++ ":" ++ twoDigits M ++ ":" ++ twoDigits S
          ++ (if this.dropFrame then ";" else ":") ++ twoDigits (F / 2)
          ++ "." ++ ToString.toString (c % 2)) := by
  simp only [toString, if_neg (not_le.mpr hr), if_true, hH, hM, hS, hF, hc,
    JSNum.floorDiv_int_int F 2 (by decide), JSNum.int_mod_int c 2 hc0 (by decide)]
  simp [twoDigits, JSNum.toStr, String.append_assoc]

/-- C18. Field format: for a `Timecode` whose fields are integers and whose frame count is a
non-negative integer, `toString('field')` is the plain `toString()` followed by `.0` when
`frameRate ≤ 30`; when `frameRate > 30` it is `HH:MM:SS`, the separator of the plain
string, `floor(frames / 2)` padded to two digits, then `.` and the digit
`frameCount mod 2`; any other string passed as format makes `toString` throw. -/
theorem C18_field_format (this : Timecode) (H M S F c : Int)
    (hH : this.hours = .int H) (hM : this.minutes = .int M) (hS : this.seconds = .int S)
    (hF : this.frames = .int F) (hc : this.frameCount = .int c) (hc0 : 0 ≤ c) :
    this.toString none = .ok (twoDigits H ++ ":" ++ twoDigits M ++ ":" ++ twoDigits S
        ++ (if this.dropFrame then ";" else ":") ++ twoDigits F)
    ∧ (this.frameRate ≤ 30 →
        this.toString (some "field")
          = .ok (twoDigits H ++ ":" ++ twoDigits M ++ ":" ++ twoDigits S
              ++ (if this.dropFrame then ";" else ":") ++ twoDigits F ++ ".0"))
    ∧ (30 < this.frameRate →
        this.toString (some "field")
          = .ok (twoDigits H ++ ":" ++ twoDigits M ++ ":" ++ twoDigits S
              ++ (if this.dropFrame then ";" else ":") ++ twoDigits (F / 2)
              ++ "." ++ ToString.toString (c % 2))
        ∧ (c % 2 = 0 ∨ c % 2 = 1))
    ∧ (∀ f : String, f ≠ "field" → this.toString (some f) = .error .unsupportedStringFormat) := by
  have h0 := toString_none_eq this H M S F hH hM hS hF
  refine ⟨h0, fun hr => toString_field_low this _ hr h0, fun hr => ?_, fun f hf => ?_⟩
  · exact ⟨toString_field_high this H M S F c hH hM hS hF hc hc0 hr, by omega⟩
  · simp [toString, hf]

theorem C18_field_format_witness :
    toString
        { frameRate := 2997 / 50, dropFrame := true, frameCount := .int 2715101,
          hours := .int 12, minutes := .int 34, seconds := .int 56, frames := .int 57 }
        (some "field") = .ok "12:34:56;28.1"
    ∧ toString
        { frameRate := 2997 / 50, dropFrame := true, frameCount := .int 2715101,
          hours := .int 12, minutes := .int 34, seconds := .int 56, frames := .int 57 }
        none = .ok "12:34:56;57" := by
  have h := C18_field_format
    { frameRate := 2997 / 50, dropFrame := true, frameCount := .int 2715101,
      hours := .int 12, minutes := .int 34, seconds := .int 56, frames := .int 57 }
    12 34 56 57 2715101 rfl rfl rfl rfl rfl (by decide)
  refine ⟨?_, ?_⟩
  · rw [(h.2.2.1 (by norm_num)).1]
    exact congrArg Except.ok (by decide)
  · rw [h.1]
    exact congrArg Except.ok (by decide)


/-! ## Drop-frame timecode against real time -/

theorem inflated_drift (df c : Int) (hdf : df = 2 ∨ df = 4) (h0 : 0 ≤ c)
    (h1 : c < 144 * (8991 * df)) :
    0 ≤ inflated df c ∧ inflated df c < 86400 * (15 * df)
    ∧ -(2997 * df) < 2997 * inflated df c - 3000 * c
    ∧ 2997 * inflated df c - 3000 * c < 2997 * df
    ∧ (inflated df c % (9000 * df) = 0 → 2997 * inflated df c = 3000 * c) := by
  obtain ⟨q, hq0, hq9, he, hd, hm⟩ := inflated_shape df c hdf
  have hnn := inflated_nonneg c df h0 hdf
  generalize inflated df c = x at *
  rcases hdf with rfl | rfl <;> norm_num at * <;> refine ⟨?_, ?_, ?_, ?_⟩ <;> omega

theorem displayed_eq (X F R x : Int) (hR : 0 < R) (h : X * R + F = x) :
    (X : ℚ) + (F : ℚ) / (R : ℚ) = (x : ℚ) / (R : ℚ) := by
  have hR' : (R : ℚ) ≠ 0 := by exact_mod_cast hR.ne'
  rw [← h]
  push_cast
  field_simp

theorem drift_rat (df x c : Int) (hdf : 0 < df) (h1 : -(2997 * df) < 2997 * x - 3000 * c)
    (h2 : 2997 * x - 3000 * c < 2997 * df) :
    |(x : ℚ) / ((15 * df : Int) : ℚ) - (c : ℚ) / (2997 * (df : ℚ) / 200)| < 1 / 15 := by
  have hd : (0 : ℚ) < (df : ℚ) := by exact_mod_cast hdf
  have e : (x : ℚ) / ((15 * df : Int) : ℚ) - (c : ℚ) / (2997 * (df : ℚ) / 200)
      = (2997 * (x : ℚ) - 3000 * (c : ℚ)) / (44955 * (df : ℚ)) := by
    push_cast
    field_simp
    ring
  have h1' : -(2997 * (df : ℚ)) < 2997 * (x : ℚ) - 3000 * (c : ℚ) := by exact_mod_cast h1
  have h2' : 2997 * (x : ℚ) - 3000 * (c : ℚ) < 2997 * (df : ℚ) := by exact_mod_cast h2
  rw [e, abs_lt, lt_div_iff₀ (by positivity), div_lt_iff₀ (by positivity)]
  constructor <;> nlinarith

theorem tracks_real_time (this : Timecode) (df fc : Int) (hdf : df = 2 ∨ df = 4)
    (hrate : this.frameRate = 2997 * (df : ℚ) / 200) (hR : Math.round this.frameRate = 15 * df)
    (hn : this._numOfFramesToDrop = df) (hd : this.dropFrame = true)
    (hfc : this.frameCount = .int fc) (h0 : 0 ≤ fc) (hlt : fc < 144 * (8991 * df)) :
    ∃ H M S F : Int,
      this._frameCountToTimeCode.hours = .int H ∧ this._frameCountToTimeCode.minutes = .int M
      ∧ this._frameCountToTimeCode.seconds = .int S ∧ this._frameCountToTimeCode.frames = .int F
      ∧ |((H * 3600 + M * 60 + S : Int) : ℚ) + (F : ℚ) / ((15 * df : Int) : ℚ)
          - (fc : ℚ) / this.frameRate| < 1 / 15
      ∧ (M % 10 = 0 → S = 0 → F = 0 →
          ((H * 3600 + M * 60 + S : Int) : ℚ) + (F : ℚ) / ((15 * df : Int) : ℚ)
            = (fc : ℚ) / this.frameRate) := by
  have hdf0 : 0 < df := by rcases hdf with rfl | rfl <;> decide
  have hfps : 0 < 15 * df := by omega
  obtain ⟨hx0, hx1, hb1, hb2, hmark⟩ := inflated_drift df fc hdf h0 hlt
  have hfields := (fields_of_count (15 * df) (inflated df fc) hfps hx0 hx1).1
  rw [frameCountToTimeCode_drop this fc df hd hn hdf hfc h0 (by rw [hR]; exact hfps), hR]
  refine ⟨_, _, _, _, rfl, rfl, rfl, rfl, ?_, ?_⟩
  · rw [displayed_eq _ _ (15 * df) _ hfps hfields, hrate]
    exact drift_rat df _ fc hdf0 hb1 hb2
  · intro hM hS hF
    rw [displayed_eq _ _ (15 * df) _ hfps hfields, hrate]
    have hz : inflated df fc % (9000 * df) = 0 := by
      generalize inflated df fc = x at *
      rcases hdf with rfl | rfl <;> norm_num at * <;> omega
    have he := hmark hz
    have he' : 2997 * ((inflated df fc : Int) : ℚ) = 3000 * (fc : ℚ) := by exact_mod_cast he
    have hd' : (0 : ℚ) < (df : ℚ) := by exact_mod_cast hdf0
    push_cast
    field_simp
    linear_combination (df : ℚ) * he'

/-- C20. Drop-frame timecode tracks real time: at rate 29.97 (`R = round(rate) = 30`) and
at rate 59.94 (`R = 60`) with `dropFrame = true`, for every integer `fc` with
`0 ≤ fc < round(rate * 86400)`, the displayed time `H * 3600 + M * 60 + S + F / R` of the
tuple computed by `_frameCountToTimeCode` differs from the elapsed time `fc / rate` seconds
by strictly less than 1/15 second, and the two are equal whenever the tuple is at a
ten-minute mark (`M mod 10 = 0`, `S = 0`, `F = 0`). -/
theorem C20_dropFrame_tracks_real_time (this : Timecode) (R fc : Int)
    (hrate : (this.frameRate = 2997 / 100 ∧ R = 30) ∨ (this.frameRate = 2997 / 50 ∧ R = 60))
    (hd : this.dropFrame = true) (hfc : this.frameCount = .int fc) (h0 : 0 ≤ fc)
    (hlt : fc < Math.round (this.frameRate * 86400)) :
    R = Math.round this.frameRate
    ∧ ∃ H M S F : Int,
      this._frameCountToTimeCode.hours = .int H ∧ this._frameCountToTimeCode.minutes = .int M
      ∧ this._frameCountToTimeCode.seconds = .int S ∧ this._frameCountToTimeCode.frames = .int F
      ∧ |((H * 3600 + M * 60 + S : Int) : ℚ) + (F : ℚ) / (R : ℚ) - (fc : ℚ) / this.frameRate|
          < 1 / 15
      ∧ (M % 10 = 0 → S = 0 → F = 0 →
          ((H * 3600 + M * 60 + S : Int) : ℚ) + (F : ℚ) / (R : ℚ) = (fc : ℚ) / this.frameRate) := by
  rcases hrate with ⟨hr, rfl⟩ | ⟨hr, rfl⟩
  · have e3 := is30DF_2997 this hr
    rw [hr, round_day_2997] at hlt
    refine ⟨(round_of_is30DF this e3).symm, ?_⟩
    exact tracks_real_time this 2 fc (Or.inl rfl) (by rw [hr]; norm_num)
      (round_of_is30DF this e3) (numOfFramesToDrop_of_is30DF this e3) hd hfc h0
      (by omega)
  · have e6 := is60DF_5994 this hr
    rw [hr, round_day_5994] at hlt
    refine ⟨(round_of_is60DF this e6).symm, ?_⟩
    exact tracks_real_time this 4 fc (Or.inr rfl) (by rw [hr]; norm_num)
      (round_of_is60DF this e6) (numOfFramesToDrop_of_is60DF this e6) hd hfc h0
      (by omega)

theorem C20_dropFrame_tracks_real_time_witness :
    (30 : Int) = Math.round (2997 / 100 : ℚ)
    ∧ ∃ H M S F : Int,
      hours (_frameCountToTimeCode
        { frameRate := 2997 / 100, dropFrame := true, frameCount := .int 1800,
          hours := .nan, minutes := .nan, seconds := .nan, frames := .nan }) = .int H
      ∧ minutes (_frameCountToTimeCode
        { frameRate := 2997 / 100, dropFrame := true, frameCount := .int 1800,
          hours := .nan, minutes := .nan, seconds := .nan, frames := .nan }) = .int M
      ∧ seconds (_frameCountToTimeCode
        { frameRate := 2997 / 100, dropFrame := true, frameCount := .int 1800,
          hours := .nan, minutes := .nan, seconds := .nan, frames := .nan }) = .int S
      ∧ frames (_frameCountToTimeCode
        { frameRate := 2997 / 100, dropFrame := true, frameCount := .int 1800,
          hours := .nan, minutes := .nan, seconds := .nan, frames := .nan }) = .int F
      ∧ |((H * 3600 + M * 60 + S : Int) : ℚ) + (F : ℚ) / ((30 : Int) : ℚ)
          - ((1800 : Int) : ℚ) / (2997 / 100)| < 1 / 15
      ∧ (M % 10 = 0 → S = 0 → F = 0 →
          ((H * 3600 + M * 60 + S : Int) : ℚ) + (F : ℚ) / ((30 : Int) : ℚ)
            = ((1800 : Int) : ℚ) / (2997 / 100)) :=
  C20_dropFrame_tracks_real_time
    { frameRate := 2997 / 100, dropFrame := true, frameCount := .int 1800,
      hours := .nan, minutes := .nan, seconds := .nan, frames := .nan }
    30 1800 (Or.inl ⟨rfl, rfl⟩) rfl rfl (by decide)
    (by show (1800 : Int) < Math.round ((2997 / 100 : ℚ) * 86400); rw [round_day_2997]; decide)


/-! ## Strings: parsing the output of `toString` -/

theorem isDigit_cases (c : Char) (h : c.isDigit = true) :
    c ∈ ['0', '1', '2', '3', '4', '5', '6', '7', '8', '9'] := by
  have hb : 48 ≤ c.toNat ∧ c.toNat ≤ 57 := by
    simp only [Char.isDigit, Bool.and_eq_true, decide_eq_true_eq, UInt32.le_def,
      Fin.le_def] at h
    exact h
  have e : c = Char.ofNat c.toNat := (Char.ofNat_toNat c).symm
  obtain ⟨h1, h2⟩ := hb
  rw [e]
  interval_cases c.toNat <;> decide

theorem twoDigits_parseInt2_mem :
    ∀ a ∈ ['0', '1', '2', '3', '4', '5', '6', '7', '8', '9'],
    ∀ b ∈ ['0', '1', '2', '3', '4', '5', '6', '7', '8', '9'],
      twoDigits (parseInt2 a b) = String.mk [a, b] := by
  decide

theorem twoDigits_parseInt2 (a b : Char) (ha : a.isDigit = true) (hb : b.isDigit = true) :
    twoDigits (parseInt2 a b) = String.mk [a, b] :=
  twoDigits_parseInt2_mem a (isDigit_cases a ha) b (isDigit_cases b hb)

theorem matchTimecode_some (s : String) (p : Parts) (h : matchTimecode s = some p) :
    ∃ h1 h2 c1 m1 m2 c2 s1 s2 c3 f1 f2 : Char,
      s.data = [h1, h2, c1, m1, m2, c2, s1, s2, c3, f1, f2]
      ∧ (h1 = '0' ∨ h1 = '1' ∨ h1 = '2') ∧ h2.isDigit = true ∧ (c1 = ':' ∨ c1 = ';')
      ∧ m1.isDigit = true ∧ m2.isDigit = true ∧ (c2 = ':' ∨ c2 = ';')
      ∧ s1.isDigit = true ∧ s2.isDigit = true ∧ (c3 = ':' ∨ c3 = ';' ∨ c3 = '.')
      ∧ f1.isDigit = true ∧ f2.isDigit = true
      ∧ p = { p1 := parseInt2 h1 h2, p2 := parseInt2 m1 m2, p3 := parseInt2 s1 s2, p4 := c3,
              p5 := parseInt2 f1 f2 } := by
  unfold matchTimecode at h
  split at h
  · rename_i h1 h2 c1 m1 m2 c2 s1 s2 c3 f1 f2 hs
    split_ifs at h with hc
    simp only [Bool.and_eq_true, Bool.or_eq_true, beq_iff_eq] at hc
    obtain ⟨⟨⟨⟨⟨⟨⟨⟨⟨⟨a1, a2⟩, a3⟩, a4⟩, a5⟩, a6⟩, a7⟩, a8⟩, a9⟩, a10⟩, a11⟩ := hc
    exact ⟨h1, h2, c1, m1, m2, c2, s1, s2, c3, f1, f2, hs, by tauto, a2, a3, a4, a5, a6, a7,
      a8, by tauto, a10, a11, (Option.some.inj h).symm⟩
  · exact absurd h (by simp)

theorem matchTimecode_mk (h1 h2 c1 m1 m2 c2 s1 s2 c3 f1 f2 : Char)
    (a1 : h1 = '0' ∨ h1 = '1' ∨ h1 = '2') (a2 : h2.isDigit = true) (a3 : c1 = ':' ∨ c1 = ';')
    (a4 : m1.isDigit = true) (a5 : m2.isDigit = true) (a6 : c2 = ':' ∨ c2 = ';')
    (a7 : s1.isDigit = true) (a8 : s2.isDigit = true) (a9 : c3 = ':' ∨ c3 = ';' ∨ c3 = '.')
    (a10 : f1.isDigit = true) (a11 : f2.isDigit = true) :
    matchTimecode (String.mk [h1, h2, c1, m1, m2, c2, s1, s2, c3, f1, f2])
      = some { p1 := parseInt2 h1 h2, p2 := parseInt2 m1 m2, p3 := parseInt2 s1 s2, p4 := c3,
               p5 := parseInt2 f1 f2 } := by
  have hc : ((h1 == '0' || h1 == '1' || h1 == '2') && h2.isDigit
        && (c1 == ':' || c1 == ';')
        && m1.isDigit && m2.isDigit
        && (c2 == ':' || c2 == ';')
        && s1.isDigit && s2.isDigit
        && (c3 == ':' || c3 == ';' || c3 == '.')
        && f1.isDigit && f2.isDigit) = true := by
    simp only [Bool.and_eq_true, Bool.or_eq_true, beq_iff_eq]
    tauto
  show (if _ then _ else _) = _
  rw [if_pos hc]

theorem new_string_none (s : String) (rate : ℚ) (arg : Option Bool)
    (hm : matchTimecode s = none) :
    new (.string s) rate arg = .error .numberExpectedAsFramerate
    ∨ new (.string s) rate arg = .error .timecodeStringExpected := by
  unfold new
  split_ifs
  · right
    simp only [hm]
  · left
    rfl

theorem toString_of_digits (t : Timecode) (h1 h2 m1 m2 s1 s2 f1 f2 : Char)
    (a1 : h1.isDigit = true) (a2 : h2.isDigit = true) (a4 : m1.isDigit = true)
    (a5 : m2.isDigit = true) (a7 : s1.isDigit = true) (a8 : s2.isDigit = true)
    (a10 : f1.isDigit = true) (a11 : f2.isDigit = true)
    (hH : t.hours = .int (parseInt2 h1 h2)) (hM : t.minutes = .int (parseInt2 m1 m2))
    (hS : t.seconds = .int (parseInt2 s1 s2)) (hF : t.frames = .int (parseInt2 f1 f2)) :
    t.toString none = .ok (String.mk
      [h1, h2, ':', m1, m2, ':', s1, s2, if t.dropFrame = true then ';' else ':', f1, f2]) := by
  rw [toString_none_eq t _ _ _ _ hH hM hS hF, twoDigits_parseInt2 h1 h2 a1 a2,
    twoDigits_parseInt2 m1 m2 a4 a5, twoDigits_parseInt2 s1 s2 a7 a8,
    twoDigits_parseInt2 f1 f2 a10 a11]
  cases t.dropFrame <;> rfl

/-- C17, as stated, fails: at rate 25 the string `00;10;00:23`, which uses `;` between the
first fields, is accepted, and `toString()` returns `00:10:00:23`, with `:` before the
frames, not `;`. -/
theorem C17_counterexample :
    ∃ t, new (.string "00;10;00:23") 25 none = .ok t
      ∧ t.toString none = .ok "00:10:00:23" ∧ "00:10:00:23" ≠ "00:10:00;23" := by
  have hm : matchTimecode "00;10;00:23"
      = some { p1 := 0, p2 := 10, p3 := 0, p4 := ':', p5 := 23 } := by decide
  have hd : (none : Option Bool).getD ((':' : Char) != ':') = false := by decide
  have e : new (.string "00;10;00:23") 25 none
      = new (.object 0 10 0 23) 25 (some false) := by
    rw [new_string_eq _ _ _ _ (by norm_num) hm, new_object_eq _ _ _ _ _ _ (by norm_num)]
    simp only [hd, Option.getD_some]
  have h25 : Math.round (25 : ℚ) = 25 := by exact_mod_cast round_intCast 25
  rw [e, new_object_nodrop 0 10 0 23 _ (by norm_num) (by decide) (by decide) (by decide)
    (by decide) (by norm_num)]
  refine ⟨_, rfl, ?_, by decide⟩
  rw [toString_none_eq _ 0 10 0 23 rfl rfl rfl rfl]
  exact congrArg Except.ok (by decide)

/-- C17, amended. For every string `s` that the constructor accepts at rate `r`
(`dropFrame` not passed), `toString()` of the constructed `Timecode` returns the same
digits with `:` between hours, minutes and seconds and, before the frames, `:` when `s` has
`:` there and `;` when `s` has `;` or `.` there; it returns `s` itself when `s` is written
as `HH:MM:SS;FF` or `HH:MM:SS:FF`; and parsing the output again yields the same `Timecode`
(the same tuple, `frameCount` and `dropFrame`) as parsing `s`. -/
theorem C17_string_round_trip (s : String) (rate : ℚ) (t : Timecode)
    (hnew : new (.string s) rate none = .ok t) :
    ∃ h1 h2 c1 m1 m2 c2 s1 s2 c3 f1 f2 : Char,
      s = String.mk [h1, h2, c1, m1, m2, c2, s1, s2, c3, f1, f2]
      ∧ t.toString none = .ok (String.mk
          [h1, h2, ':', m1, m2, ':', s1, s2, if c3 = ':' then ':' else ';', f1, f2])
      ∧ (c1 = ':' → c2 = ':' → c3 ≠ '.' → t.toString none = .ok s)
      ∧ new (.string (String.mk
          [h1, h2, ':', m1, m2, ':', s1, s2, if c3 = ':' then ':' else ';', f1, f2]))
          rate none = .ok t := by
  have hr : 0 < rate := by
    by_contra h
    unfold new at hnew
    rw [if_neg h] at hnew
    exact absurd hnew (by simp)
  cases hm : matchTimecode s with
  | none =>
    rcases new_string_none s rate none hm with h | h <;> rw [h] at hnew <;>
      exact absurd hnew (by simp)
  | some p =>
    obtain ⟨h1, h2, c1, m1, m2, c2, s1, s2, c3, f1, f2, hs, a1, a2, a3, a4, a5, a6, a7, a8,
      a9, a10, a11, hp⟩ := matchTimecode_some s p hm
    have a1' : h1.isDigit = true := by rcases a1 with rfl | rfl | rfl <;> decide
    have hs' : s = String.mk [h1, h2, c1, m1, m2, c2, s1, s2, c3, f1, f2] := by
      rw [← hs]
    have hnew0 := hnew
    rw [new_string_eq s p rate none hr hm] at hnew
    obtain ⟨ht, -⟩ := ok_of_match_validate _ t hnew
    have hf := timeCodeToFrameCount_fields
      { frameRate := rate, dropFrame := (none : Option Bool).getD (p.p4 != ':'),
        frameCount := .nan, hours := .int p.p1, minutes := .int p.p2,
        seconds := .int p.p3, frames := .int p.p5 }
    rw [ht] at hf
    obtain ⟨-, hfd, hfH, hfM, hfS, hfF⟩ := hf
    rw [hp] at hfd hfH hfM hfS hfF
    have hsep : (if t.dropFrame = true then ';' else ':') = if c3 = ':' then ':' else ';' := by
      rw [hfd]
      by_cases hc : c3 = ':'
      · simp [hc]
      · simp [hc]
    have hstr := toString_of_digits t h1 h2 m1 m2 s1 s2 f1 f2 a1' a2 a4 a5 a7 a8 a10 a11
      hfH hfM hfS hfF
    rw [hsep] at hstr
    have hsep' : (if c3 = ':' then ':' else ';') = ':' ∨ (if c3 = ':' then ':' else ';') = ';'
        ∨ (if c3 = ':' then ':' else ';') = '.' := by
      by_cases hc : c3 = ':'
      · simp [hc]
      · simp [hc]
    have hm' := matchTimecode_mk h1 h2 ':' m1 m2 ':' s1 s2 (if c3 = ':' then ':' else ';') f1 f2
      a1 a2 (Or.inl rfl) a4 a5 (Or.inl rfl) a7 a8 hsep' a10 a11
    refine ⟨h1, h2, c1, m1, m2, c2, s1, s2, c3, f1, f2, hs', hstr, ?_, ?_⟩
    · intro e1 e2 e3
      rw [hstr, hs', e1, e2]
      rcases a9 with rfl | rfl | rfl
      · rfl
      · rfl
      · exact absurd rfl e3
    · rw [new_string_eq _ _ rate none hr hm', ← hnew0, new_string_eq s p rate none hr hm, hp]
      have hd : ((if c3 = ':' then ':' else ';' : Char) != ':') = (c3 != ':') := by
        by_cases hc : c3 = ':'
        · simp [hc]
        · simp [hc]
      simp only [hd]

theorem C17_string_round_trip_witness :
    ∃ h1 h2 c1 m1 m2 c2 s1 s2 c3 f1 f2 : Char,
      "23:59:59;29" = String.mk [h1, h2, c1, m1, m2, c2, s1, s2, c3, f1, f2]
      ∧ toString
          { frameRate := 2997 / 100, dropFrame := true, frameCount := .int 2589407,
            hours := .int 23, minutes := .int 59, seconds := .int 59, frames := .int 29 }
          none = .ok (String.mk
            [h1, h2, ':', m1, m2, ':', s1, s2, if c3 = ':' then ':' else ';', f1, f2])
      ∧ (c1 = ':' → c2 = ':' → c3 ≠ '.' →
          toString
            { frameRate := 2997 / 100, dropFrame := true, frameCount := .int 2589407,
              hours := .int 23, minutes := .int 59, seconds := .int 59, frames := .int 29 }
            none = .ok "23:59:59;29")
      ∧ new (.string (String.mk
          [h1, h2, ':', m1, m2, ':', s1, s2, if c3 = ':' then ':' else ';', f1, f2]))
          (2997 / 100) none
        = .ok { frameRate := 2997 / 100, dropFrame := true, frameCount := .int 2589407,
                hours := .int 23, minutes := .int 59, seconds := .int 59, frames := .int 29 } :=
  C17_string_round_trip "23:59:59;29" (2997 / 100) _ new_lastTimecode_2997

end Timecode
end SmpteTimecode
namespace SmpteTimecode

/-! ## Dates -/

namespace Date

theorem timeClip_bounds (x : ℚ) : x - 1 < (timeClip x : ℚ) ∧ (timeClip x : ℚ) < x + 1 := by
  unfold timeClip
  split_ifs
  · exact ⟨Int.sub_one_lt_floor x, by linarith [Int.floor_le x]⟩
  · exact ⟨by linarith [Int.le_ceil x], Int.ceil_lt_add_one x⟩

theorem timeClip_mono (x y : ℚ) (h : x ≤ y) : timeClip x ≤ timeClip y := by
  unfold timeClip
  split_ifs with hx hy hy
  · exact Int.floor_mono h
  · exact absurd (le_trans hx h) hy
  · exact le_trans (Int.ceil_le.mpr (by push_cast; linarith)) (Int.floor_nonneg.mpr hy)
  · exact Int.ceil_mono h

theorem timeClip_add_int_le (x : ℚ) (s : Int) (hs : s ≤ 0) :
    timeClip x + s ≤ timeClip (x + (s : ℚ)) := by
  have hs' : (s : ℚ) ≤ 0 := by exact_mod_cast hs
  unfold timeClip
  split_ifs with hx hy hy
  · rw [Int.floor_add_int]
  · rw [Int.ceil_add_int]
    linarith [Int.floor_le_ceil x]
  · exact absurd (by linarith : x + (s : ℚ) < 0) (not_lt.mpr hy)
  · rw [Int.ceil_add_int]

theorem timeClip_intCast_add (m : Int) (x : ℚ) (hx : 0 ≤ x) : m ≤ timeClip ((m : ℚ) + x) := by
  have h := timeClip_mono (m : ℚ) ((m : ℚ) + x) (by linarith)
  have e : timeClip (m : ℚ) = m := by
    unfold timeClip
    split_ifs <;> simp
  rwa [e] at h

end Date

namespace Math

theorem round_bounds (x : ℚ) : x - 1 / 2 < (round x : ℚ) ∧ (round x : ℚ) ≤ x + 1 / 2 := by
  unfold round
  exact ⟨by linarith [Int.sub_one_lt_floor (x + 1 / 2)], Int.floor_le _⟩

theorem round_nonneg (x : ℚ) (h : 0 ≤ x) : 0 ≤ round x := by
  unfold round
  exact Int.floor_nonneg.mpr (by linarith)

end Math

namespace Timecode

/-- The fields computed from a frame count `c ≥ 0` pass `_validate`, at every rate above 0,
when drop-frame comes with a drop-eligible rate. -/
theorem validate_frameCountToTimeCode (this : Timecode) (c : Int)
    (hc : this.frameCount = .int c) (h0 : 0 ≤ c) (hr : 0 < this.frameRate)
    (hel : this.dropFrame = true → this._is30DF = true ∨ this._is60DF = true) :
    this._frameCountToTimeCode._validate = .ok () := by
  have e1 : this._frameCountToTimeCode.frameRate = this.frameRate := rfl
  have e3 : this._frameCountToTimeCode._is30DF = this._is30DF := rfl
  have e4 : this._frameCountToTimeCode._is60DF = this._is60DF := rfl
  by_cases hd : this.dropFrame = true
  · have hcases : ∃ df : Int, (df = 2 ∨ df = 4) ∧ this._numOfFramesToDrop = df
        ∧ Math.round this.frameRate = 15 * df := by
      rcases eligible_cases this (hel hd) with ⟨h1, h2⟩ | ⟨h1, h2⟩
      · exact ⟨2, Or.inl rfl, h1, by rw [h2]; norm_num⟩
      · exact ⟨4, Or.inr rfl, h1, by rw [h2]; norm_num⟩
    obtain ⟨df, hdf, hn, hrd⟩ := hcases
    have hfps : 0 < Math.round this.frameRate := by omega
    have k := frameCountToTimeCode_drop this c df hd hn hdf hc h0 hfps
    obtain ⟨bH, bM, bS, bF, bv⟩ := fields_of_inflated df c hdf h0
    rw [hrd] at k
    rw [validate_eq_ok_iff this._frameCountToTimeCode _ _ _ _ (by rw [k]) (by rw [k])
      (by rw [k]) (by rw [k]) bM.1]
    have e2 : this._frameCountToTimeCode._numOfFramesToDrop = df := hn
    rw [e1, e2, e3, e4]
    refine ⟨fun _ => hel hd, by omega, by omega, by omega, ?_, fun _ => bv⟩
    exact lt_rate_of_lt_round _ _ (by rw [hrd]; exact bF.2)
  · have hd' : this.dropFrame = false := by simpa using hd
    have hfps0 : 0 ≤ Math.round this.frameRate := Math.round_nonneg _ hr.le
    rcases hfps0.eq_or_lt with hz | hfps
    · rw [frameCountToTimeCode_fps_zero this hd' hz.symm]
      exact validate_nan _ hd' rfl rfl rfl rfl
    · have k := frameCountToTimeCode_nodrop this c hd' hc h0 hfps
      have hdk : this._frameCountToTimeCode.dropFrame = false := hd'
      have b1 : 0 ≤ c / (Math.round this.frameRate * 60) % 60 :=
        Int.emod_nonneg _ (by norm_num)
      rw [validate_eq_ok_iff this._frameCountToTimeCode _ _ _ _ (by rw [k]) (by rw [k])
        (by rw [k]) (by rw [k]) b1]
      rw [e1, hdk]
      refine ⟨by simp, ?_, ?_, ?_, ?_, by simp⟩
      · have hlt := Int.emod_lt_of_pos (c / (Math.round this.frameRate * 3600))
          (by norm_num : (0 : Int) < 24)
        omega
      · have hlt := Int.emod_lt_of_pos (c / (Math.round this.frameRate * 60))
          (by norm_num : (0 : Int) < 60)
        omega
      · have hlt := Int.emod_lt_of_pos (c / Math.round this.frameRate)
          (by norm_num : (0 : Int) < 60)
        omega
      · exact lt_rate_of_lt_round _ _ (Int.emod_lt_of_pos _ hfps)

theorem newFromDate_eq (host : Host) (timeCode : Int) (rate : ℚ) (dropFrame : Option Bool) :
    newFromDate host timeCode rate dropFrame
      = new (.number ((((timeCode - host.midnight timeCode
          + (host.getTimezoneOffset (host.midnight timeCode) * 60 * 1000
            - host.getTimezoneOffset timeCode * 60 * 1000) : Int) : ℚ) * rate) / 1000))
          rate dropFrame := by
  unfold newFromDate new
  cases dropFrame <;> rfl

theorem toDate_eq (this : Timecode) (host : Host) (c : Int) (hc : this.frameCount = .int c)
    (hr : this.frameRate ≠ 0) :
    this.toDate host
      = .int (Date.timeClip (((host.midnight host.now : Int) : ℚ)
          + (c : ℚ) / this.frameRate * 1000
          + ((host.getTimezoneOffset (Date.timeClip (((host.midnight host.now : Int) : ℚ)
                + (c : ℚ) / this.frameRate * 1000)) * 60 * 1000
              - host.getTimezoneOffset (host.midnight host.now) * 60 * 1000 : Int) : ℚ))) := by
  unfold toDate
  rw [hc]
  simp only [if_neg hr]

/-- The frame count of a wall-clock time `w`, turned back into milliseconds, is within half
a frame of `w`. -/
theorem frame_rounding (w : Int) (rate : ℚ) (hr : 0 < rate) :
    -(500 / rate) < (Math.round ((w : ℚ) * rate / 1000) : ℚ) / rate * 1000 - (w : ℚ)
    ∧ (Math.round ((w : ℚ) * rate / 1000) : ℚ) / rate * 1000 - (w : ℚ) ≤ 500 / rate := by
  obtain ⟨h1, h2⟩ := Math.round_bounds ((w : ℚ) * rate / 1000)
  have e : (Math.round ((w : ℚ) * rate / 1000) : ℚ) / rate * 1000 - (w : ℚ)
      = ((Math.round ((w : ℚ) * rate / 1000) : ℚ) * 1000 - (w : ℚ) * rate) / rate := by
    field_simp
    ring
  rw [e, ← neg_div, div_lt_div_iff_of_pos_right hr, div_le_div_iff_of_pos_right hr]
  constructor <;> linarith

/-- The wall-clock time of the instant `toDate` returns, when the offset there is the offset
at the candidate instant that `toDate` reads it from. -/
theorem wallClock_bound (off : Int → Int) (m d w fc c r : Int) (rate : ℚ) (hr : 0 < rate)
    (hw : w = d - m + (off m * 60 * 1000 - off d * 60 * 1000))
    (hfc : fc = Math.round ((w : ℚ) * rate / 1000))
    (hres : r = Date.timeClip ((m : ℚ) + (fc : ℚ) / rate * 1000
      + ((off c * 60 * 1000 - off m * 60 * 1000 : Int) : ℚ)))
    (hoff : off r = off c) :
    |(((r - off r * 60 * 1000) - (d - off d * 60 * 1000) : Int) : ℚ)| < 500 / rate + 1 := by
  obtain ⟨f1, f2⟩ := frame_rounding w rate hr
  rw [← hfc] at f1 f2
  obtain ⟨b1, b2⟩ := Date.timeClip_bounds ((m : ℚ) + (fc : ℚ) / rate * 1000
      + ((off c * 60 * 1000 - off m * 60 * 1000 : Int) : ℚ))
  rw [← hres] at b1 b2
  have hw' : (w : ℚ) = (d : ℚ) - (m : ℚ) + ((off m : ℚ) * 60 * 1000 - (off d : ℚ) * 60 * 1000) := by
    rw [hw]
    push_cast
    ring
  rw [hoff, abs_lt]
  push_cast at b1 b2 ⊢
  constructor <;> linarith

/-- With a single change of offset at `T`, the offset at the instant `toDate` returns is
the offset at the candidate instant, unless the change moves the clock forward and the
candidate falls in the interval right after `T` whose wall-clock times were skipped. -/
theorem offset_result (off : Int → Int) (T pre post m fc c r : Int) (rate : ℚ) (hr : 0 < rate)
    (hoff : ∀ x, off x = if x < T then pre else post) (hfc : 0 ≤ fc)
    (hc : c = Date.timeClip ((m : ℚ) + (fc : ℚ) / rate * 1000))
    (hres : r = Date.timeClip ((m : ℚ) + (fc : ℚ) / rate * 1000
      + ((off c * 60 * 1000 - off m * 60 * 1000 : Int) : ℚ)))
    (hgap : post < pre → c < T ∨ T + (pre - post) * 60 * 1000 ≤ c) :
    off r = off c := by
  have hms : (0 : ℚ) ≤ (fc : ℚ) / rate * 1000 := by
    have hfc' : (0 : ℚ) ≤ (fc : ℚ) := by exact_mod_cast hfc
    positivity
  have hmc : m ≤ c := by
    rw [hc]
    exact Date.timeClip_intCast_add m _ hms
  have hsame : off c = off m → r = c := by
    intro h
    rw [hres, h, sub_self, Int.cast_zero, add_zero]
    exact hc.symm
  by_cases hcT : c < T
  · have hmT : m < T := by omega
    have h1 : off c = off m := by rw [hoff c, hoff m, if_pos hcT, if_pos hmT]
    rw [hsame h1]
  · by_cases hmT : m < T
    · have ec : off c = post := by rw [hoff c, if_neg hcT]
      have em : off m = pre := by rw [hoff m, if_pos hmT]
      have hrT : T ≤ r := by
        by_cases hpp : post < pre
        · have hle : T + (pre - post) * 60 * 1000 ≤ c := by
            rcases hgap hpp with h | h
            · exact absurd h hcT
            · exact h
          have hs : post * 60 * 1000 - pre * 60 * 1000 ≤ 0 := by omega
          have h2 := Date.timeClip_add_int_le ((m : ℚ) + (fc : ℚ) / rate * 1000)
            (post * 60 * 1000 - pre * 60 * 1000) hs
          rw [← hc] at h2
          rw [hres, ec, em]
          omega
        · have hs : (0 : ℚ) ≤ ((post * 60 * 1000 - pre * 60 * 1000 : Int) : ℚ) := by
            have hs0 : (0 : Int) ≤ post * 60 * 1000 - pre * 60 * 1000 := by omega
            exact_mod_cast hs0
          have h2 := Date.timeClip_mono ((m : ℚ) + (fc : ℚ) / rate * 1000)
            ((m : ℚ) + (fc : ℚ) / rate * 1000
              + ((post * 60 * 1000 - pre * 60 * 1000 : Int) : ℚ)) (by linarith)
          rw [← hc] at h2
          rw [hres, ec, em]
          omega
      rw [hoff r, hoff c, if_neg hcT, if_neg (by omega)]
    · have h1 : off c = off m := by rw [hoff c, hoff m, if_neg hcT, if_neg hmT]
      rw [hsame h1]

/-- The constructor succeeds on a `Date` whose wall-clock time since midnight is not
negative, and stores the rounded number of frames of that time. -/
theorem newFromDate_ok (host : Host) (d w : Int) (rate : ℚ) (dropFrame : Option Bool)
    (hr : 0 < rate)
    (hel : dropFrame = some true →
      |30000 / 1001 - rate| < 1 / 10000 ∨ |60000 / 1001 - rate| < 1 / 10000)
    (hw : w = d - host.midnight d
      + (host.getTimezoneOffset (host.midnight d) * 60 * 1000
        - host.getTimezoneOffset d * 60 * 1000))
    (hw0 : 0 ≤ w) :
    ∃ t, newFromDate host d rate dropFrame = .ok t
      ∧ t.frameCount = .int (Math.round ((w : ℚ) * rate / 1000)) ∧ t.frameRate = rate := by
  have hx : (0 : ℚ) ≤ (w : ℚ) * rate / 1000 := by
    have hw' : (0 : ℚ) ≤ (w : ℚ) := by exact_mod_cast hw0
    positivity
  rw [newFromDate_eq, ← hw, new_number_eq _ _ _ hr]
  have hv := validate_frameCountToTimeCode
    { frameRate := rate,
      dropFrame := dropFrame.getD ((_is30DF ⟨rate, false, .nan, .nan, .nan, .nan, .nan⟩)
        || (_is60DF ⟨rate, false, .nan, .nan, .nan, .nan, .nan⟩)),
      frameCount := .int (Math.round ((w : ℚ) * rate / 1000)), hours := .nan, minutes := .nan,
      seconds := .nan, frames := .nan }
    (Math.round ((w : ℚ) * rate / 1000)) rfl (Math.round_nonneg _ hx) hr
    (by
      intro hd
      rw [is30DF_iff, is60DF_iff]
      rcases dropFrame with _ | b
      · have hd' : ((_is30DF ⟨rate, false, .nan, .nan, .nan, .nan, .nan⟩)
            || (_is60DF ⟨rate, false, .nan, .nan, .nan, .nan, .nan⟩)) = true := hd
        rw [Bool.or_eq_true, is30DF_iff, is60DF_iff] at hd'
        exact hd'
      · have hb : b = true := hd
        exact hel (by rw [hb]))
  rw [hv]
  exact ⟨_, rfl, rfl, rfl⟩

/-- C19, as stated, fails in two places.  (a) With a constant offset, at 29.97 an instant
50 ms after local midnight gets frame count 1, and `toDate()` is 33 ms after midnight: the
wall clocks differ by 17 ms, more than `500 / rate` (about 16.7), because a `Date` holds
whole milliseconds.  (b) On a day whose clock moves forward by an hour two hours after
midnight (offset 300 minutes before, 240 from then on), at 25 fps the instant 10 ms before
the change has wall-clock time 01:59:59.990 and frame count 180000, and `toDate()` returns
the instant with wall-clock time 01:00:00.000. -/
theorem C19_counterexample :
    (∃ t, newFromDate ⟨fun _ => 0, fun _ => 0, 0⟩ 50 (2997 / 100) none = .ok t
      ∧ t.frameCount = .int 1
      ∧ t.toDate ⟨fun _ => 0, fun _ => 0, 0⟩ = .int 33
      ∧ Host.localTime ⟨fun _ => 0, fun _ => 0, 0⟩ 33
          - Host.localTime ⟨fun _ => 0, fun _ => 0, 0⟩ 50 = -17
      ∧ ¬ (|(-17 : ℚ)| ≤ 500 / (2997 / 100)))
    ∧ (∃ t,
        newFromDate ⟨fun x => if x < 25200000 then 300 else 240, fun _ => 18000000, 18000000⟩
          25199990 25 none = .ok t
      ∧ t.frameCount = .int 180000
      ∧ t.toDate ⟨fun x => if x < 25200000 then 300 else 240, fun _ => 18000000, 18000000⟩
          = .int 21600000
      ∧ Host.localTime
            ⟨fun x => if x < 25200000 then 300 else 240, fun _ => 18000000, 18000000⟩ 25199990
          - Host.localTime
            ⟨fun x => if x < 25200000 then 300 else 240, fun _ => 18000000, 18000000⟩ 18000000
          = 7199990
      ∧ Host.localTime
            ⟨fun x => if x < 25200000 then 300 else 240, fun _ => 18000000, 18000000⟩ 21600000
          - Host.localTime
            ⟨fun x => if x < 25200000 then 300 else 240, fun _ => 18000000, 18000000⟩ 18000000
          = 3600000
      ∧ ¬ (|((3600000 - 7199990 : Int) : ℚ)| ≤ 500 / 25)) := by
  constructor
  · obtain ⟨t, h1, h2, h3⟩ := newFromDate_ok ⟨fun _ => 0, fun _ => 0, 0⟩ 50 50 (2997 / 100)
      none (by norm_num) (by intro h; exact absurd h (by simp)) (by simp) (by decide)
    have e : Math.round (((50 : Int) : ℚ) * (2997 / 100) / 1000) = 1 := by
      norm_num [Math.round]
    rw [e] at h2
    refine ⟨t, h1, h2, ?_, by decide, ?_⟩
    · rw [toDate_eq t _ 1 h2 (by rw [h3]; norm_num), h3]
      norm_num [Date.timeClip]
    · rw [abs_of_neg (by norm_num)]
      norm_num
  · obtain ⟨t, h1, h2, h3⟩ := newFromDate_ok
      ⟨fun x => if x < 25200000 then 300 else 240, fun _ => 18000000, 18000000⟩
      25199990 7199990 25 none (by norm_num) (by intro h; exact absurd h (by simp))
      (by simp) (by decide)
    have e : Math.round (((7199990 : Int) : ℚ) * 25 / 1000) = 180000 := by
      norm_num [Math.round]
    rw [e] at h2
    refine ⟨t, h1, h2, ?_, by decide, by decide, ?_⟩
    · rw [toDate_eq t _ 180000 h2 (by rw [h3]; norm_num), h3]
      norm_num [Date.timeClip]
    · rw [abs_of_neg (by norm_num)]
      norm_num

/-- C19, amended. Civil-time round trip across DST: for an instant `d` on the current day
(its local midnight is today's, and its wall-clock time is not before that midnight's), at
a rate above 0 with drop-frame passed only at a drop-eligible rate, the `Timecode`
constructed from `d` exists and has `frameCount = round(w * rate / 1000)`, where `w` is the
wall-clock milliseconds elapsed since local midnight,
`(d - midnight) + (offset(midnight) - offset(d))`.  Its `toDate()` is an instant `r` whose
local wall-clock time differs from that of `d` by less than `500 / rate + 1` milliseconds
(frame rounding, and the fraction of a millisecond a `Date` drops), whenever the offset at
`r` is the offset at the instant `c = midnight + frameCount / rate * 1000` (fraction dropped)
that `toDate` reads it from.  With an offset function that has a single transition, at `T`,
this is so whether `d` lies before or after the transition, unless the transition moves the
clock forward and `c` falls in the interval `[T, T + skipped time)`. -/
theorem C19_date_round_trip (host : Host) (d : Int) (rate : ℚ) (dropFrame : Option Bool)
    (hr : 0 < rate)
    (hel : dropFrame = some true →
      |30000 / 1001 - rate| < 1 / 10000 ∨ |60000 / 1001 - rate| < 1 / 10000)
    (hday : host.midnight host.now = host.midnight d)
    (hw : host.localTime (host.midnight d) ≤ host.localTime d) :
    ∃ (t : Timecode) (w fc c r : Int),
      w = host.localTime d - host.localTime (host.midnight d)
      ∧ w = (d - host.midnight d)
          + (host.getTimezoneOffset (host.midnight d) * 60 * 1000
            - host.getTimezoneOffset d * 60 * 1000)
      ∧ fc = Math.round ((w : ℚ) * rate / 1000)
      ∧ newFromDate host d rate dropFrame = .ok t
      ∧ t.frameCount = .int fc
      ∧ c = Date.timeClip ((host.midnight d : ℚ) + (fc : ℚ) / rate * 1000)
      ∧ t.toDate host = .int r
      ∧ (host.getTimezoneOffset r = host.getTimezoneOffset c →
          |((host.localTime r - host.localTime d : Int) : ℚ)| < 500 / rate + 1)
      ∧ ∀ T pre post : Int,
          (∀ x, host.getTimezoneOffset x = if x < T then pre else post) →
          (post < pre → c < T ∨ T + (pre - post) * 60 * 1000 ≤ c) →
          |((host.localTime r - host.localTime d : Int) : ℚ)| < 500 / rate + 1 := by
  have hw1 : host.localTime d - host.localTime (host.midnight d)
      = (d - host.midnight d)
        + (host.getTimezoneOffset (host.midnight d) * 60 * 1000
          - host.getTimezoneOffset d * 60 * 1000) := by
    unfold Host.localTime
    ring
  have hw0 : 0 ≤ host.localTime d - host.localTime (host.midnight d) := by omega
  obtain ⟨t, h1, h2, h3⟩ := newFromDate_ok host d _ rate dropFrame hr hel hw1 hw0
  have h4 := toDate_eq t host _ h2 (by rw [h3]; exact hr.ne')
  rw [h3, hday] at h4
  have hfc0 : 0 ≤ Math.round
      (((host.localTime d - host.localTime (host.midnight d) : Int) : ℚ) * rate / 1000) := by
    apply Math.round_nonneg
    have hw' : (0 : ℚ) ≤ ((host.localTime d - host.localTime (host.midnight d) : Int) : ℚ) := by
      exact_mod_cast hw0
    positivity
  refine ⟨t, _, _, _, _, rfl, hw1, rfl, h1, h2, rfl, h4, ?_, ?_⟩
  · intro hoff
    exact wallClock_bound host.getTimezoneOffset (host.midnight d) d _ _ _ _ rate hr hw1 rfl
      rfl hoff
  · intro T pre post hstep hgap
    exact wallClock_bound host.getTimezoneOffset (host.midnight d) d _ _ _ _ rate hr hw1 rfl
      rfl (offset_result host.getTimezoneOffset T pre post (host.midnight d) _ _ _ rate hr
        hstep hfc0 rfl rfl hgap)

theorem C19_date_round_trip_witness :
    ∃ (t : Timecode) (r : Int),
      newFromDate ⟨fun x => if x < 25200000 then 300 else 240, fun _ => 18000000, 18000000⟩
        25200200 (2997 / 100) (some true) = .ok t
      ∧ t.frameCount = .int 323682
      ∧ t.toDate ⟨fun x => if x < 25200000 then 300 else 240, fun _ => 18000000, 18000000⟩
          = .int r
      ∧ |((Host.localTime
              ⟨fun x => if x < 25200000 then 300 else 240, fun _ => 18000000, 18000000⟩ r
            - Host.localTime
              ⟨fun x => if x < 25200000 then 300 else 240, fun _ => 18000000, 18000000⟩
              25200200 : Int) : ℚ)| < 500 / (2997 / 100) + 1 := by
  obtain ⟨t, w, fc, c, r, hw, -, hfc, h1, h2, hc, h3, -, h4⟩ := C19_date_round_trip
    ⟨fun x => if x < 25200000 then 300 else 240, fun _ => 18000000, 18000000⟩
    25200200 (2997 / 100) (some true) (by norm_num)
    (fun _ => Or.inl (by rw [abs_lt]; norm_num)) rfl (by decide)
  have ew : w = 10800200 := by rw [hw]; decide
  have efc : fc = 323682 := by
    rw [hfc, ew]
    norm_num [Math.round]
  have ec : c = 28800200 := by
    rw [hc, efc]
    norm_num [Date.timeClip]
  rw [efc] at h2
  refine ⟨t, r, h1, h2, h3, ?_⟩
  exact h4 25200000 300 240 (fun _ => rfl) (fun _ => Or.inr (by rw [ec]; decide))


/-! ## Parsing the output of `toString` for a frame count -/

set_option maxRecDepth 100000 in
theorem twoDigits_fin :
    ∀ k : Fin 100,
      twoDigits ((k : Nat) : Int)
        = String.mk [Char.ofNat (48 + (k : Nat) / 10), Char.ofNat (48 + (k : Nat) % 10)]
      ∧ (Char.ofNat (48 + (k : Nat) / 10)).isDigit = true
      ∧ (Char.ofNat (48 + (k : Nat) % 10)).isDigit = true
      ∧ parseInt2 (Char.ofNat (48 + (k : Nat) / 10)) (Char.ofNat (48 + (k : Nat) % 10))
          = ((k : Nat) : Int)
      ∧ ((k : Nat) < 30 → Char.ofNat (48 + (k : Nat) / 10) = '0'
          ∨ Char.ofNat (48 + (k : Nat) / 10) = '1' ∨ Char.ofNat (48 + (k : Nat) / 10) = '2') := by
  decide

/-- A number from 0 to 99 is written by `toString` as two digits that `parseInt` reads
back as the same number. -/
theorem twoDigits_digits (k : Int) (h0 : 0 ≤ k) (h1 : k < 100) :
    ∃ a b : Char, twoDigits k = String.mk [a, b] ∧ a.isDigit = true ∧ b.isDigit = true
      ∧ parseInt2 a b = k ∧ (k < 30 → a = '0' ∨ a = '1' ∨ a = '2') := by
  obtain ⟨n, rfl⟩ := Int.eq_ofNat_of_zero_le h0
  have hn : n < 100 := by omega
  obtain ⟨e1, e2, e3, e4, e5⟩ := twoDigits_fin ⟨n, hn⟩
  exact ⟨_, _, e1, e2, e3, e4, fun h => e5 (by simpa using h)⟩

/-- The result of `_validate` depends only on the frame rate, the drop-frame flag and the
fields. -/
theorem validate_congr (a b : Timecode) (hr : a.frameRate = b.frameRate)
    (hd : a.dropFrame = b.dropFrame) (hH : a.hours = b.hours) (hM : a.minutes = b.minutes)
    (hS : a.seconds = b.seconds) (hF : a.frames = b.frames) : a._validate = b._validate := by
  simp only [_validate, _is30DF, _is60DF, _numOfFramesToDrop, hr, hd, hH, hM, hS, hF]

/-- The fields computed from a frame count `c ≥ 0` at a rate above 0 that rounds to at
least 1: integers in range. -/
theorem fields_frameCountToTimeCode (this : Timecode) (c : Int)
    (hc : this.frameCount = .int c) (h0 : 0 ≤ c) (hfps : 0 < Math.round this.frameRate)
    (hel : this.dropFrame = true → this._is30DF = true ∨ this._is60DF = true) :
    ∃ H M S F : Int,
      this._frameCountToTimeCode.hours = .int H ∧ this._frameCountToTimeCode.minutes = .int M
      ∧ this._frameCountToTimeCode.seconds = .int S ∧ this._frameCountToTimeCode.frames = .int F
      ∧ (0 ≤ H ∧ H < 24) ∧ (0 ≤ M ∧ M < 60) ∧ (0 ≤ S ∧ S < 60)
      ∧ (0 ≤ F ∧ F < Math.round this.frameRate) := by
  by_cases hd : this.dropFrame = true
  · have hcases : ∃ df : Int, (df = 2 ∨ df = 4) ∧ this._numOfFramesToDrop = df
        ∧ Math.round this.frameRate = 15 * df := by
      rcases eligible_cases this (hel hd) with ⟨h1, h2⟩ | ⟨h1, h2⟩
      · exact ⟨2, Or.inl rfl, h1, by rw [h2]; norm_num⟩
      · exact ⟨4, Or.inr rfl, h1, by rw [h2]; norm_num⟩
    obtain ⟨df, hdf, hn, hrd⟩ := hcases
    have k := frameCountToTimeCode_drop this c df hd hn hdf hc h0 hfps
    obtain ⟨bH, bM, bS, bF, -⟩ := fields_of_inflated df c hdf h0
    rw [hrd] at k ⊢
    exact ⟨_, _, _, _, by rw [k], by rw [k], by rw [k], by rw [k], bH, bM, bS, bF⟩
  · have hd' : this.dropFrame = false := by simpa using hd
    have k := frameCountToTimeCode_nodrop this c hd' hc h0 hfps
    refine ⟨_, _, _, _, by rw [k], by rw [k], by rw [k], by rw [k],
      ⟨Int.emod_nonneg _ (by norm_num), Int.emod_lt_of_pos _ (by norm_num)⟩,
      ⟨Int.emod_nonneg _ (by norm_num), Int.emod_lt_of_pos _ (by norm_num)⟩,
      ⟨Int.emod_nonneg _ (by norm_num), Int.emod_lt_of_pos _ (by norm_num)⟩,
      ⟨Int.emod_nonneg _ hfps.ne', Int.emod_lt_of_pos _ hfps⟩⟩

/-- Formatting fields in range gives a string that the constructor's regular expression
matches, with the same numbers in its groups. -/
theorem matchTimecode_toString (t : Timecode) (H M S F : Int)
    (hH : t.hours = .int H) (hM : t.minutes = .int M) (hS : t.seconds = .int S)
    (hF : t.frames = .int F) (bH : 0 ≤ H ∧ H < 24) (bM : 0 ≤ M ∧ M < 60)
    (bS : 0 ≤ S ∧ S < 60) (bF : 0 ≤ F ∧ F < 100) :
    ∃ s, t.toString none = .ok s
      ∧ matchTimecode s
          = some { p1 := H, p2 := M, p3 := S, p4 := if t.dropFrame = true then ';' else ':',
                   p5 := F } := by
  obtain ⟨h1, h2, eH, a1, a2, pH, qH⟩ := twoDigits_digits H bH.1 (by omega)
  obtain ⟨m1, m2, eM, a4, a5, pM, -⟩ := twoDigits_digits M bM.1 (by omega)
  obtain ⟨s1, s2, eS, a7, a8, pS, -⟩ := twoDigits_digits S bS.1 (by omega)
  obtain ⟨f1, f2, eF, a10, a11, pF, -⟩ := twoDigits_digits F bF.1 bF.2
  have hsep : (if t.dropFrame = true then ';' else ':') = ':'
      ∨ (if t.dropFrame = true then ';' else ':') = ';'
      ∨ (if t.dropFrame = true then ';' else ':') = '.' := by
    cases t.dropFrame <;> simp
  have hm := matchTimecode_mk h1 h2 ':' m1 m2 ':' s1 s2 (if t.dropFrame = true then ';' else ':')
    f1 f2 (qH (by omega)) a2 (Or.inl rfl) a4 a5 (Or.inl rfl) a7 a8 hsep a10 a11
  rw [pH, pM, pS, pF] at hm
  refine ⟨_, ?_, hm⟩
  rw [toString_none_eq t H M S F hH hM hS hF, eH, eM, eS, eF]
  cases t.dropFrame <;> rfl

/-- C21, as stated, fails in two places.  (a) At 120 fps the frame count 100 is
`00:00:00:100`, three digits of frames, which the constructor rejects.  (b) At the rate
2/5, which rounds to 0, every field of the `Timecode` of frame count 0 is `NaN`; its
string is `NaN:NaN:NaN:NaN`, which the constructor rejects. -/
theorem C21_counterexample :
    (100 < Math.round ((120 : ℚ) * 86400)
      ∧ ∃ t, new (.number 100) 120 (some false) = .ok t
        ∧ t.toString none = .ok "00:00:00:100"
        ∧ new (.string "00:00:00:100") 120 (some false) = .error .timecodeStringExpected)
    ∧ (0 < Math.round ((2 / 5 : ℚ) * 86400)
      ∧ ∃ t, new (.number 0) (2 / 5) (some false) = .ok t
        ∧ t.toString none = .ok "NaN:NaN:NaN:NaN"
        ∧ new (.string "NaN:NaN:NaN:NaN") (2 / 5) (some false)
            = .error .timecodeStringExpected) := by
  have hstr : ∀ (s : String) (rate : ℚ), 0 < rate → matchTimecode s = none →
      new (.string s) rate (some false) = .error .timecodeStringExpected := by
    intro s rate hr hm
    unfold new
    rw [if_pos hr]
    simp only [hm]
  constructor
  · refine ⟨by norm_num [Math.round], ?_⟩
    have h120 : Math.round (120 : ℚ) = 120 := by exact_mod_cast round_intCast 120
    have h100 : Math.round (100 : ℚ) = 100 := by exact_mod_cast round_intCast 100
    have hv := validate_frameCountToTimeCode
      { frameRate := 120, dropFrame := false, frameCount := .int 100, hours := .nan,
        minutes := .nan, seconds := .nan, frames := .nan }
      100 rfl (by decide) (by norm_num) (by simp)
    have k := frameCountToTimeCode_nodrop
      { frameRate := 120, dropFrame := false, frameCount := .int 100, hours := .nan,
        minutes := .nan, seconds := .nan, frames := .nan }
      100 rfl rfl (by decide) (by rw [h120]; decide)
    rw [new_number_eq _ _ _ (by norm_num)]
    simp only [Option.getD_some, h100]
    rw [hv]
    refine ⟨_, rfl, ?_, hstr _ _ (by norm_num) (by decide)⟩
    rw [k]
    simp only [h120]
    rw [toString_none_eq _ (100 / (120 * 3600) % 24) (100 / (120 * 60) % 60) (100 / 120 % 60)
      (100 % 120) rfl rfl rfl rfl]
    exact congrArg Except.ok (by decide)
  · refine ⟨by norm_num [Math.round], ?_⟩
    have h0 : Math.round (2 / 5 : ℚ) = 0 := by norm_num [Math.round]
    have k := frameCountToTimeCode_fps_zero
      { frameRate := 2 / 5, dropFrame := false, frameCount := .int 0, hours := .nan,
        minutes := .nan, seconds := .nan, frames := .nan }
      rfl h0
    rw [new_number_eq _ _ _ (by norm_num)]
    simp only [Option.getD_some, round_zero]
    rw [k, validate_nan _ rfl rfl rfl rfl rfl]
    refine ⟨_, rfl, ?_, hstr _ _ (by norm_num) (by decide)⟩
    simp only [toString, JSNum.lt, JSNum.toStr]
    exact congrArg Except.ok (by decide)

/-- A `Timecode` with fields in range that passes `_validate` is parsed back from its
string, at its own rate, with the same fields. -/
theorem reparse_toString (t : Timecode) (arg : Option Bool) (H M S F : Int)
    (hH : t.hours = .int H) (hM : t.minutes = .int M) (hS : t.seconds = .int S)
    (hF : t.frames = .int F) (bH : 0 ≤ H ∧ H < 24) (bM : 0 ≤ M ∧ M < 60)
    (bS : 0 ≤ S ∧ S < 60) (bF : 0 ≤ F ∧ F < 100) (hr : 0 < t.frameRate)
    (hv : t._validate = .ok ()) (harg : ∀ b, arg = some b → t.dropFrame = b) :
    ∃ (s : String) (u : Timecode), t.toString none = .ok s
      ∧ new (.string s) t.frameRate arg = .ok u
      ∧ u.hours = t.hours ∧ u.minutes = t.minutes ∧ u.seconds = t.seconds
      ∧ u.frames = t.frames ∧ u.dropFrame = t.dropFrame ∧ u.frameRate = t.frameRate := by
  obtain ⟨s, hs, hm⟩ := matchTimecode_toString t H M S F hH hM hS hF bH bM bS bF
  have hd : arg.getD ((if t.dropFrame = true then ';' else ':' : Char) != ':') = t.dropFrame := by
    rcases arg with _ | b
    · show ((if t.dropFrame = true then ';' else ':' : Char) != ':') = t.dropFrame
      cases t.dropFrame <;> decide
    · exact (harg b rfl).symm
  have hf := timeCodeToFrameCount_fields
    { frameRate := t.frameRate, dropFrame := t.dropFrame, frameCount := .nan,
      hours := .int H, minutes := .int M, seconds := .int S, frames := .int F }
  obtain ⟨f1, f2, f3, f4, f5, f6⟩ := hf
  have hY := (validate_congr _ t f1 f2 (f3.trans hH.symm) (f4.trans hM.symm)
    (f5.trans hS.symm) (f6.trans hF.symm)).trans hv
  have hu : new (.string s) t.frameRate arg
      = .ok (_timeCodeToFrameCount
          { frameRate := t.frameRate, dropFrame := t.dropFrame, frameCount := .nan,
            hours := .int H, minutes := .int M, seconds := .int S, frames := .int F }) := by
    rw [new_string_eq s _ t.frameRate arg hr hm]
    simp only [hd]
    rw [hY]
  exact ⟨s, _, hs, hu, f3.trans hH.symm, f4.trans hM.symm, f5.trans hS.symm,
    f6.trans hF.symm, f2, f1⟩

/-- The constructor succeeds on an integer `n ≥ 0`, at every rate above 0, when drop-frame
comes with a drop-eligible rate. -/
theorem new_number_ok (n : Int) (rate : ℚ) (dropFrame : Option Bool) (hr : 0 < rate)
    (hel : dropFrame = some true →
      |30000 / 1001 - rate| < 1 / 10000 ∨ |60000 / 1001 - rate| < 1 / 10000)
    (hn0 : 0 ≤ n) :
    ∃ X : Timecode, X.frameRate = rate ∧ X.frameCount = .int n
      ∧ (∀ b, dropFrame = some b → X.dropFrame = b)
      ∧ (X.dropFrame = true → X._is30DF = true ∨ X._is60DF = true)
      ∧ X._frameCountToTimeCode._validate = .ok ()
      ∧ new (.number (n : ℚ)) rate dropFrame = .ok X._frameCountToTimeCode := by
  have helX : dropFrame.getD ((_is30DF ⟨rate, false, .nan, .nan, .nan, .nan, .nan⟩)
        || (_is60DF ⟨rate, false, .nan, .nan, .nan, .nan, .nan⟩)) = true →
      |30000 / 1001 - rate| < 1 / 10000 ∨ |60000 / 1001 - rate| < 1 / 10000 := by
    intro hd
    rcases dropFrame with _ | b
    · have hd' : ((_is30DF ⟨rate, false, .nan, .nan, .nan, .nan, .nan⟩)
          || (_is60DF ⟨rate, false, .nan, .nan, .nan, .nan, .nan⟩)) = true := hd
      rw [Bool.or_eq_true, is30DF_iff, is60DF_iff] at hd'
      exact hd'
    · have hb : b = true := hd
      exact hel (by rw [hb])
  have hv := validate_frameCountToTimeCode
    { frameRate := rate,
      dropFrame := dropFrame.getD ((_is30DF ⟨rate, false, .nan, .nan, .nan, .nan, .nan⟩)
        || (_is60DF ⟨rate, false, .nan, .nan, .nan, .nan, .nan⟩)),
      frameCount := .int n, hours := .nan, minutes := .nan, seconds := .nan, frames := .nan }
    n rfl hn0 hr (by intro hd; rw [is30DF_iff, is60DF_iff]; exact helX hd)
  refine ⟨_, rfl, rfl, ?_, ?_, hv, ?_⟩
  · intro b hb
    rw [hb]
    rfl
  · intro hd
    rw [is30DF_iff, is60DF_iff]
    exact helX hd
  · rw [new_number_eq _ _ _ hr, round_intCast, hv]

/-- C21, amended. Formatting is re-parseable at the rates that round to a number from 1 to
100: for every such frame rate and every `dropFrame` setting the constructor accepts there
(drop-frame passed as `true` only at a drop-eligible rate) and every integer `n ≥ 0`, in
particular every `n` with `0 ≤ n < round(rate * 86400)`, the `Timecode` of `n` exists, the
string `Timecode(n, rate, dropFrame).toString()` is accepted by the constructor at the
same rate and `dropFrame`, and the `Timecode` parsed from it has the same hours, minutes,
seconds and frames as the original (and the same `dropFrame` and frame rate). -/
theorem C21_format_reparse (rate : ℚ) (dropFrame : Option Bool) (n : Int)
    (hfps1 : 1 ≤ Math.round rate) (hfps2 : Math.round rate ≤ 100)
    (hel : dropFrame = some true →
      |30000 / 1001 - rate| < 1 / 10000 ∨ |60000 / 1001 - rate| < 1 / 10000)
    (hn0 : 0 ≤ n) :
    ∃ (t : Timecode) (s : String) (u : Timecode),
      new (.number (n : ℚ)) rate dropFrame = .ok t
      ∧ t.toString none = .ok s
      ∧ new (.string s) rate dropFrame = .ok u
      ∧ u.hours = t.hours ∧ u.minutes = t.minutes ∧ u.seconds = t.seconds
      ∧ u.frames = t.frames ∧ u.dropFrame = t.dropFrame ∧ u.frameRate = t.frameRate := by
  have hr : 0 < rate := by
    have h := (Math.round_bounds rate).2
    have h1 : (1 : ℚ) ≤ (Math.round rate : ℚ) := by exact_mod_cast hfps1
    linarith
  obtain ⟨X, hXr, hXc, hXd, hXe, hXv, hnew⟩ := new_number_ok n rate dropFrame hr hel hn0
  obtain ⟨H, M, S, F, hH, hM, hS, hF, bH, bM, bS, bF⟩ :=
    fields_frameCountToTimeCode X n hXc hn0 (by rw [hXr]; omega) hXe
  have bF' : 0 ≤ F ∧ F < 100 := ⟨bF.1, by rw [hXr] at bF; omega⟩
  have hrt : X._frameCountToTimeCode.frameRate = rate := hXr
  obtain ⟨s, u, hs, hu, e1, e2, e3, e4, e5, e6⟩ := reparse_toString X._frameCountToTimeCode
    dropFrame H M S F hH hM hS hF bH bM bS bF' (by rw [hrt]; exact hr) hXv hXd
  rw [hrt] at hu
  exact ⟨_, s, u, hnew, hs, hu, e1, e2, e3, e4, e5, e6⟩

theorem C21_format_reparse_witness :
    ∃ (t : Timecode) (s : String) (u : Timecode),
      new (.number ((1800 : Int) : ℚ)) (2997 / 100) none = .ok t
      ∧ t.toString none = .ok s
      ∧ new (.string s) (2997 / 100) none = .ok u
      ∧ u.hours = t.hours ∧ u.minutes = t.minutes ∧ u.seconds = t.seconds
      ∧ u.frames = t.frames ∧ u.dropFrame = t.dropFrame ∧ u.frameRate = t.frameRate :=
  C21_format_reparse (2997 / 100) none 1800 (by rw [round_2997]; decide)
    (by rw [round_2997]; decide) (fun h => absurd h (by simp)) (by decide)

end Timecode
end SmpteTimecode

namespace SmpteTimecode

/-! ## Rounding to doubles -/

namespace JSNum
namespace Binary64

theorem roundHalfEven_intCast (m : Int) : roundHalfEven (m : ℚ) = m := by
  simp [roundHalfEven]

theorem le_roundHalfEven (m : Int) (y : ℚ) (h : (m : ℚ) ≤ y) : m ≤ roundHalfEven y := by
  have hf : m ≤ ⌊y⌋ := Int.le_floor.mpr h
  unfold roundHalfEven
  split_ifs <;> omega

theorem roundHalfEven_lt (m : Int) (y : ℚ) (h : y < (m : ℚ) - 1 / 2) : roundHalfEven y < m := by
  have hf : ⌊y⌋ < m := Int.floor_lt.mpr (by linarith)
  have hfl : (⌊y⌋ : ℚ) ≤ y := Int.floor_le y
  unfold roundHalfEven
  split_ifs with h1 h2 h3
  · exact hf
  · by_contra hc
    have e : ⌊y⌋ + 1 = m := by omega
    have e' : (⌊y⌋ : ℚ) + 1 = (m : ℚ) := by exact_mod_cast e
    linarith
  · exact hf
  · by_contra hc
    have e : ⌊y⌋ + 1 = m := by omega
    have e' : (⌊y⌋ : ℚ) + 1 = (m : ℚ) := by exact_mod_cast e
    have : y - ⌊y⌋ = 1 / 2 := le_antisymm (not_lt.mp h2) (not_lt.mp h1)
    linarith


/-- Evaluation of `round` from the binade of `x`. -/
theorem round_of_binade (x : ℚ) (e : Int) (h1 : (2 : ℚ) ^ e ≤ |x|) (h2 : |x| < (2 : ℚ) ^ (e + 1)) :
    round x = (roundHalfEven (x / 2 ^ (e - 52)) : ℚ) * 2 ^ (e - 52) := by
  have hpos : 0 < |x| := lt_of_lt_of_le (by positivity) h1
  have he : Int.log 2 |x| = e := by
    apply le_antisymm
    · have := (Int.lt_zpow_iff_log_lt (b := 2) (by norm_num) hpos (x := e + 1)).1
        (by exact_mod_cast h2)
      omega
    · exact (Int.zpow_le_iff_le_log (b := 2) (by norm_num) hpos).1 (by exact_mod_cast h1)
  unfold round
  rw [he]

theorem round64_zero : round 0 = 0 := by
  simp [round, roundHalfEven]

/-- A non-zero rational below `2 ^ 53` in absolute value lies in a binade `2 ^ (52 - k)`. -/
theorem binade_of_lt (x : ℚ) (hx : x ≠ 0) (h : |x| < 2 ^ 53) :
    ∃ k : ℕ, (2 : ℚ) ^ 52 / 2 ^ k ≤ |x| ∧ |x| < 2 ^ 53 / 2 ^ k
      ∧ round x = (roundHalfEven (x * 2 ^ k) : ℚ) / 2 ^ k := by
  have hpos : 0 < |x| := abs_pos.mpr hx
  have h1 := Int.zpow_log_le_self (b := 2) (by norm_num) hpos
  have h2 := Int.lt_zpow_succ_log_self (b := 2) (by norm_num) |x|
  have hle : Int.log 2 |x| ≤ 52 := by
    have := (Int.lt_zpow_iff_log_lt (b := 2) (by norm_num) hpos (x := 53)).1
      (by exact_mod_cast h)
    omega
  obtain ⟨k, hk⟩ := Int.eq_ofNat_of_zero_le (by omega : 0 ≤ 52 - Int.log 2 |x|)
  have he : Int.log 2 |x| = 52 - (k : Int) := by omega
  have p1 : ((2 : ℕ) : ℚ) ^ (52 - (k : Int)) = 2 ^ 52 / 2 ^ k := by
    rw [zpow_sub₀ (by norm_num)]
    norm_cast
  have p2 : ((2 : ℕ) : ℚ) ^ (52 - (k : Int) + 1) = 2 ^ 53 / 2 ^ k := by
    rw [show (52 : Int) - k + 1 = 53 - k by ring, zpow_sub₀ (by norm_num)]
    norm_cast
  have p3 : (2 : ℚ) ^ (52 - (k : Int) - 52) = 1 / 2 ^ k := by
    rw [show (52 : Int) - k - 52 = -(k : Int) by ring, zpow_neg, zpow_natCast, one_div]
  rw [he] at h1 h2
  rw [p1] at h1
  rw [p2] at h2
  refine ⟨k, h1, h2, ?_⟩
  unfold round
  rw [he, p3]
  have hk0 : (0 : ℚ) < 2 ^ k := by positivity
  field_simp


/-- Integers below `2 ^ 53` in absolute value are doubles. -/
theorem round64_intCast (n : Int) (h : |n| < 2 ^ 53) : round (n : ℚ) = n := by
  by_cases hn : n = 0
  · subst hn
    simpa using round64_zero
  · have hx : (n : ℚ) ≠ 0 := by exact_mod_cast hn
    have hlt : |(n : ℚ)| < 2 ^ 53 := by exact_mod_cast h
    obtain ⟨k, -, -, hr⟩ := binade_of_lt (n : ℚ) hx hlt
    rw [hr]
    have e : (n : ℚ) * 2 ^ k = ((n * 2 ^ k : Int) : ℚ) := by push_cast; ring
    rw [e, roundHalfEven_intCast]
    have hk0 : (0 : ℚ) < 2 ^ k := by positivity
    push_cast
    field_simp

theorem floor_round64_intCast (n : Int) (h : |n| < 2 ^ 53) : ⌊round (n : ℚ)⌋ = n := by
  rw [round64_intCast n h, Int.floor_intCast]

/-- An integer from `2 ^ 53` on rounds to a double from `2 ^ 53` on. -/
theorem le_floor_round (n : Int) (h : 2 ^ 53 ≤ n) : 2 ^ 53 ≤ ⌊round (n : ℚ)⌋ := by
  have hq : (2 : ℚ) ^ 53 ≤ (n : ℚ) := by exact_mod_cast h
  have hpos : 0 < |(n : ℚ)| := by
    rw [abs_of_pos (by linarith [show (0 : ℚ) < 2 ^ 53 by positivity])]
    linarith [show (0 : ℚ) < 2 ^ 53 by positivity]
  have habs : |(n : ℚ)| = n := abs_of_pos (by linarith [show (0 : ℚ) < 2 ^ 53 by positivity])
  have h1 := Int.zpow_log_le_self (b := 2) (by norm_num) hpos
  have hge : (53 : Int) ≤ Int.log 2 |(n : ℚ)| :=
    (Int.zpow_le_iff_le_log (b := 2) (by norm_num) hpos).1 (by rw [habs]; exact_mod_cast hq)
  obtain ⟨j, hj⟩ := Int.eq_ofNat_of_zero_le (by omega : 0 ≤ Int.log 2 |(n : ℚ)| - 53)
  have he : Int.log 2 |(n : ℚ)| = 53 + (j : Int) := by omega
  rw [he, habs] at h1
  have p1 : ((2 : ℕ) : ℚ) ^ (53 + (j : Int)) = 2 ^ 53 * 2 ^ j := by
    rw [zpow_add₀ (by norm_num)]
    norm_cast
  have p3 : (2 : ℚ) ^ (53 + (j : Int) - 52) = 2 * 2 ^ j := by
    rw [show (53 : Int) + j - 52 = 1 + j by ring, zpow_add₀ (by norm_num)]
    norm_cast
  rw [p1] at h1
  have hj0 : (0 : ℚ) < 2 ^ j := by positivity
  have hle : ((2 ^ 52 : Int) : ℚ) ≤ (n : ℚ) / (2 * 2 ^ j) := by
    rw [le_div_iff₀ (by positivity)]
    push_cast
    linarith
  have hr := le_roundHalfEven (2 ^ 52) _ hle
  apply Int.le_floor.mpr
  unfold round
  rw [he, p3]
  have hr' : ((2 ^ 52 : Int) : ℚ) ≤ (roundHalfEven ((n : ℚ) / (2 * 2 ^ j)) : ℚ) := by
    exact_mod_cast hr
  have hj1 : (1 : ℚ) ≤ 2 ^ j := one_le_pow₀ (by norm_num)
  push_cast at hr' ⊢
  nlinarith

/-- On a non-negative integer below `2 ^ 53` and a positive integer, `Math.floor(a / b)` in
doubles is the integer quotient. -/
theorem floor_round_div (a b : Int) (ha0 : 0 ≤ a) (ha : a < 2 ^ 53) (hb : 0 < b) :
    ⌊round ((a : ℚ) / (b : ℚ))⌋ = a / b := by
  have hbq : (0 : ℚ) < (b : ℚ) := by exact_mod_cast hb
  by_cases ha' : a = 0
  · subst ha'
    simp [round64_zero]
  have hapos : (0 : ℚ) < (a : ℚ) := by
    have : 0 < a := by omega
    exact_mod_cast this
  have hx0 : (0 : ℚ) < (a : ℚ) / (b : ℚ) := div_pos hapos hbq
  have hx53 : |(a : ℚ) / (b : ℚ)| < 2 ^ 53 := by
    rw [abs_of_pos hx0, div_lt_iff₀ hbq]
    have h1 : (a : ℚ) < 2 ^ 53 := by exact_mod_cast ha
    have h2 : (1 : ℚ) ≤ (b : ℚ) := by exact_mod_cast hb
    nlinarith
  obtain ⟨k, hlo, -, hr⟩ := binade_of_lt _ hx0.ne' hx53
  rw [abs_of_pos hx0] at hlo
  have hk0 : (0 : ℚ) < 2 ^ k := by positivity
  -- the quotient and the remainder
  have hdiv : a = b * (a / b) + a % b := (Int.ediv_add_emod a b).symm
  have hm0 : 0 ≤ a % b := Int.emod_nonneg a hb.ne'
  have hm1 : a % b < b := Int.emod_lt_of_pos a hb
  have hdivq : (a : ℚ) = (b : ℚ) * ((a / b : Int) : ℚ) + ((a % b : Int) : ℚ) := by
    exact_mod_cast hdiv
  have hm0q : (0 : ℚ) ≤ ((a % b : Int) : ℚ) := by exact_mod_cast hm0
  have hm1q : ((a % b : Int) : ℚ) + 1 ≤ (b : ℚ) := by exact_mod_cast hm1
  -- `b * 2 ^ 52 ≤ a * 2 ^ k`, hence `b < 2 * 2 ^ k`
  have hb2 : (b : ℚ) * 2 ^ 52 ≤ (a : ℚ) * 2 ^ k := by
    rw [div_le_div_iff₀ hk0 hbq] at hlo
    linarith
  have hbk : (b : ℚ) < 2 * 2 ^ k := by
    have h1 : (a : ℚ) < 2 ^ 53 := by exact_mod_cast ha
    nlinarith
  rw [hr]
  rw [Int.floor_eq_iff]
  constructor
  · rw [le_div_iff₀ hk0]
    have hge := le_roundHalfEven ((a / b) * 2 ^ k) ((a : ℚ) / (b : ℚ) * 2 ^ k) (by
      push_cast
      rw [div_mul_eq_mul_div, le_div_iff₀ hbq]
      nlinarith)
    have hge' : (((a / b) * 2 ^ k : Int) : ℚ)
        ≤ (roundHalfEven ((a : ℚ) / (b : ℚ) * 2 ^ k) : ℚ) := by exact_mod_cast hge
    push_cast at hge'
    exact hge'
  · rw [div_lt_iff₀ hk0]
    have hlt := roundHalfEven_lt ((a / b + 1) * 2 ^ k) ((a : ℚ) / (b : ℚ) * 2 ^ k) (by
      push_cast
      rw [div_mul_eq_mul_div, div_lt_iff₀ hbq]
      nlinarith)
    have hlt' : (roundHalfEven ((a : ℚ) / (b : ℚ) * 2 ^ k) : ℚ)
        < (((a / b + 1) * 2 ^ k : Int) : ℚ) := by exact_mod_cast hlt
    push_cast at hlt'
    exact hlt'


theorem add64_int_int (a b : Int) (h : |a + b| < 2 ^ 53) : add (int a) (int b) = int (a + b) := by
  have e : (a : ℚ) + (b : ℚ) = ((a + b : Int) : ℚ) := by push_cast; ring
  simp only [add, e, floor_round64_intCast _ h]

theorem sub64_int_int (a b : Int) (h : |a - b| < 2 ^ 53) : sub (int a) (int b) = int (a - b) := by
  have e : (a : ℚ) - (b : ℚ) = ((a - b : Int) : ℚ) := by push_cast; ring
  simp only [sub, e, floor_round64_intCast _ h]

theorem mul64_int_int (a b : Int) (h : |a * b| < 2 ^ 53) : mul (int a) (int b) = int (a * b) := by
  have e : (a : ℚ) * (b : ℚ) = ((a * b : Int) : ℚ) := by push_cast; ring
  simp only [mul, e, floor_round64_intCast _ h]

theorem floorDiv64_int_int (a b : Int) (ha0 : 0 ≤ a) (ha : a < 2 ^ 53) (hb : 0 < b) :
    floorDiv (int a) (int b) = int (a / b) := by
  simp only [floorDiv, if_neg hb.ne', floor_round_div a b ha0 ha hb]

/-- Division by a product computed in doubles: exact when the product is, and 0 either way
when the product is beyond `2 ^ 53`. -/
theorem floorDiv64_mul (a f k : Int) (ha0 : 0 ≤ a) (ha : a < 2 ^ 53) (hf : 0 ≤ f) (hk : 0 < k) :
    floorDiv (int a) (mul (int f) (int k)) = JSNum.floorDiv (int a) (int (f * k)) := by
  rcases hf.eq_or_lt with hz | hpos
  · subst hz
    have e : mul (int 0) (int k) = int 0 := by
      rw [mul64_int_int 0 k (by simp)]
      simp
    rw [e]
    simp [floorDiv, JSNum.floorDiv]
  · have hfk : 0 < f * k := Int.mul_pos hpos hk
    by_cases hs : f * k < 2 ^ 53
    · rw [mul64_int_int f k (by rw [abs_of_pos hfk]; exact hs),
        floorDiv64_int_int a _ ha0 ha hfk, JSNum.floorDiv_int_int a _ hfk]
    · have e : (f : ℚ) * (k : ℚ) = ((f * k : Int) : ℚ) := by push_cast; ring
      have hB := le_floor_round (f * k) (by omega)
      simp only [mul, e]
      rw [floorDiv64_int_int a _ ha0 ha (by omega), JSNum.floorDiv_int_int a _ hfk,
        Int.ediv_eq_zero_of_lt ha0 (by omega), Int.ediv_eq_zero_of_lt ha0 (by omega)]

end Binary64
end JSNum
end SmpteTimecode
namespace SmpteTimecode
namespace Timecode
namespace Binary64

/-! ## The conversion in double precision -/

/-- Below `2 ^ 53` the drop-frame adjustment in doubles is the exact one. -/
theorem dropAdjust64_eq (c df : Int) (h0 : 0 ≤ c) (hdf : df = 2 ∨ df = 4)
    (hs : inflated df c < 2 ^ 53) :
    JSNum.Binary64.add (.int c)
      (JSNum.Binary64.add
        (JSNum.Binary64.mul (.int (9 * df))
          (JSNum.Binary64.floorDiv (.int c) (.int (17982 * df / 2))))
        (JSNum.Binary64.mul (.int df)
          (JSNum.Binary64.floorDiv
            (JSNum.Binary64.sub
              (if JSNum.lt (JSNum.int c % JSNum.int (17982 * df / 2)) (.int df)
                then JSNum.Binary64.add (JSNum.int c % JSNum.int (17982 * df / 2)) (.int df)
                else JSNum.int c % JSNum.int (17982 * df / 2))
              (.int df))
            (.int (1798 * df / 2))))) = .int (inflated df c) := by
  obtain ⟨q, hq0, hq9, he, -, -⟩ := inflated_shape df c hdf
  have hi : inflated df c
      = c + (9 * df * (c / (17982 * df / 2))
        + df * (((if c % (17982 * df / 2) < df then c % (17982 * df / 2) + df
            else c % (17982 * df / 2)) - df) / (1798 * df / 2))) := rfl
  have hK : 0 < 17982 * df / 2 := by rcases hdf with rfl | rfl <;> decide
  have hk : 0 < 1798 * df / 2 := by rcases hdf with rfl | rfl <;> decide
  have hD0 : 0 ≤ c / (17982 * df / 2) := Int.ediv_nonneg h0 hK.le
  have hm0 : 0 ≤ c % (17982 * df / 2) := Int.emod_nonneg _ hK.ne'
  have hm1 : c % (17982 * df / 2) < 17982 * df / 2 := Int.emod_lt_of_pos _ hK
  have hc53 : c < 2 ^ 53 := by
    rcases hdf with rfl | rfl <;> norm_num at he hs hD0 ⊢ <;> omega
  have hD53 : 9 * df * (c / (17982 * df / 2)) < 2 ^ 53 := by
    rcases hdf with rfl | rfl <;> norm_num at he hs hD0 ⊢ <;> omega
  rw [JSNum.int_mod_int c _ h0 hK, JSNum.Binary64.floorDiv64_int_int c _ h0 hc53 hK]
  simp only [JSNum.lt_int_int]
  have hm' : (if decide (c % (17982 * df / 2) < df) = true
        then JSNum.Binary64.add (JSNum.int (c % (17982 * df / 2))) (.int df)
        else JSNum.int (c % (17982 * df / 2)))
      = JSNum.int (if c % (17982 * df / 2) < df then c % (17982 * df / 2) + df
          else c % (17982 * df / 2)) := by
    by_cases hlt : c % (17982 * df / 2) < df
    · rw [if_pos (by simpa using hlt), if_pos hlt, JSNum.Binary64.add64_int_int _ _ (by
        rw [abs_of_nonneg (by rcases hdf with rfl | rfl <;> omega)]
        rcases hdf with rfl | rfl <;> omega)]
    · rw [if_neg (by simpa using hlt), if_neg hlt]
  rw [hm']
  generalize hM : (if c % (17982 * df / 2) < df then c % (17982 * df / 2) + df
      else c % (17982 * df / 2)) = M at hi ⊢
  have hM0 : df ≤ M := by
    rw [← hM]
    split_ifs with h
    · omega
    · omega
  have hM1 : M < 17982 * df / 2 + df := by
    rw [← hM]
    split_ifs with h
    · rcases hdf with rfl | rfl <;> omega
    · rcases hdf with rfl | rfl <;> omega
  have hMs : M - df < 2 ^ 53 := by rcases hdf with rfl | rfl <;> norm_num at hM1 ⊢ <;> omega
  have hQ0 : 0 ≤ (M - df) / (1798 * df / 2) := Int.ediv_nonneg (by omega) hk.le
  have hQ1 : (M - df) / (1798 * df / 2) ≤ 9 := by
    rcases hdf with rfl | rfl <;> norm_num at hM1 hM0 ⊢ <;> omega
  rw [JSNum.Binary64.sub64_int_int _ _ (by rw [abs_of_nonneg (by omega)]; exact hMs),
    JSNum.Binary64.floorDiv64_int_int _ _ (by omega) hMs hk,
    JSNum.Binary64.mul64_int_int df _ (by
      rw [abs_of_nonneg (by rcases hdf with rfl | rfl <;> omega)]
      rcases hdf with rfl | rfl <;> omega),
    JSNum.Binary64.mul64_int_int (9 * df) _ (by
      rw [abs_of_nonneg (by rcases hdf with rfl | rfl <;> omega)]
      exact hD53),
    JSNum.Binary64.add64_int_int _ _ (by
      rw [abs_of_nonneg (by rcases hdf with rfl | rfl <;> omega)]
      rcases hdf with rfl | rfl <;> omega),
    JSNum.Binary64.add64_int_int _ _ (by
      rw [abs_of_nonneg (by rcases hdf with rfl | rfl <;> omega)]
      rw [hi] at hs
      exact hs),
    hi]

theorem floorDiv64_eq (a b : Int) (ha0 : 0 ≤ a) (ha : a < 2 ^ 53) (hb : 0 ≤ b) :
    JSNum.Binary64.floorDiv (.int a) (.int b) = JSNum.floorDiv (.int a) (.int b) := by
  rcases hb.eq_or_lt with hz | hpos
  · subst hz
    simp [JSNum.Binary64.floorDiv, JSNum.floorDiv]
  · rw [JSNum.Binary64.floorDiv64_int_int a b ha0 ha hpos, JSNum.floorDiv_int_int a b hpos]

theorem numOfFramesToDrop_cases (this : Timecode)
    (h : this._numOfFramesToDrop = 2 ∨ this._numOfFramesToDrop = 4) :
    this._is30DF = true ∨ this._is60DF = true := by
  unfold _numOfFramesToDrop at h
  split_ifs at h with h3 h6
  · exact Or.inl h3
  · exact Or.inr h6
  · omega

/-- Below `2 ^ 53` the conversion in doubles is the exact one: for a frame count `c` with
`0 ≤ c < 2 ^ 53` whose number with the dropped numbers counted in, in drop-frame mode at a
drop-eligible rate, is below `2 ^ 53` as well. -/
theorem frameCountToTimeCode_eq (this : Timecode) (c : Int) (hc : this.frameCount = .int c)
    (h0 : 0 ≤ c) (hs : c < 2 ^ 53) (hfps : 0 ≤ Math.round this.frameRate)
    (hdrop : this.dropFrame = true →
      (this._numOfFramesToDrop = 2 ∨ this._numOfFramesToDrop = 4)
      ∧ inflated this._numOfFramesToDrop c < 2 ^ 53) :
    Binary64._frameCountToTimeCode this = this._frameCountToTimeCode := by
  by_cases hd : this.dropFrame = true
  · obtain ⟨hdf, hi⟩ := hdrop hd
    have hi0 := inflated_nonneg c _ h0 hdf
    simp only [Binary64._frameCountToTimeCode, Timecode._frameCountToTimeCode, hd, hc, if_true]
    rw [dropAdjust64_eq c _ h0 hdf hi, dropAdjust_eq c _ h0 hdf,
      floorDiv64_eq _ _ hi0 hi hfps, JSNum.Binary64.floorDiv64_mul _ _ 60 hi0 hi hfps (by decide),
      JSNum.Binary64.floorDiv64_mul _ _ 3600 hi0 hi hfps (by decide)]
  · have hd' : this.dropFrame = false := by simpa using hd
    simp only [Binary64._frameCountToTimeCode, Timecode._frameCountToTimeCode, hd', hc,
      Bool.false_eq_true, if_false]
    rw [floorDiv64_eq _ _ h0 hs hfps, JSNum.Binary64.floorDiv64_mul _ _ 60 h0 hs hfps (by decide),
      JSNum.Binary64.floorDiv64_mul _ _ 3600 h0 hs hfps (by decide)]

end Binary64
namespace Binary64

/-! ## Drop-frame exclusion in double precision -/

/-- The sum `8998192055487657 + 9007199254742`, which is `2 ^ 53 + 1407`, is not a double:
it lies midway between two doubles and rounds to the one with the even significand. -/
theorem add64_example :
    JSNum.Binary64.add (.int 8998192055487657) (.int 9007199254742)
      = .int 9007199254742400 := by
  have e : JSNum.Binary64.round ((8998192055487657 : Int) + (9007199254742 : Int) : ℚ)
      = 9007199254742400 := by
    rw [JSNum.Binary64.round_of_binade _ 53 (by norm_num [abs_of_pos])
      (by norm_num [abs_of_pos])]
    norm_num [JSNum.Binary64.roundHalfEven]
  simp only [JSNum.Binary64.add, e]
  norm_num

theorem floorDiv64_example :
    JSNum.Binary64.floorDiv (.int 9007199254742400) (.int 108000) = .int 83399993099 := by
  have e : JSNum.Binary64.round ((9007199254742400 : Int) / (108000 : Int) : ℚ)
      = 5465701947766647 / 65536 := by
    rw [JSNum.Binary64.round_of_binade _ 36 (by norm_num [abs_of_pos])
      (by norm_num [abs_of_pos])]
    norm_num [JSNum.Binary64.roundHalfEven]
  simp only [JSNum.Binary64.floorDiv, e]
  norm_num

/-- A quotient that is an integer below `2 ^ 53` is computed exactly. -/
theorem floorDiv64_exact (a b q : Int) (hb : b ≠ 0) (h : a = q * b) (hq : |q| < 2 ^ 53) :
    JSNum.Binary64.floorDiv (.int a) (.int b) = .int q := by
  have hbq : (b : ℚ) ≠ 0 := by exact_mod_cast hb
  have e : (a : ℚ) / (b : ℚ) = (q : ℚ) := by
    rw [h]
    push_cast
    field_simp
  simp only [JSNum.Binary64.floorDiv, if_neg hb, e, JSNum.Binary64.floor_round64_intCast q hq]

/-- C3, as stated, fails: at 29.97 with drop-frame, for the frame count 8998192055487657
the frame number with the dropped numbers counted in is `2 ^ 53 + 1407`, which the double
sum rounds to `2 ^ 53 + 1408`; the fields computed by `_frameCountToTimeCode` are
11:28:00;00, a dropped frame number, and `_validate` throws `Invalid timecode`. -/
theorem C3_counterexample :
    (0 : Int) ≤ 8998192055487657
    ∧ (Binary64._frameCountToTimeCode
        { frameRate := 2997 / 100, dropFrame := true, frameCount := .int 8998192055487657,
          hours := .nan, minutes := .nan, seconds := .nan, frames := .nan })
      = { frameRate := 2997 / 100, dropFrame := true, frameCount := .int 8998192055487657,
          hours := .int 11, minutes := .int 28, seconds := .int 0, frames := .int 0 }
    ∧ _validate
        { frameRate := 2997 / 100, dropFrame := true, frameCount := .int 8998192055487657,
          hours := .int 11, minutes := .int 28, seconds := .int 0, frames := .int 0 }
      = .error .invalidTimecode := by
  refine ⟨by decide, ?_, ?_⟩
  · have h3 := is30DF_2997
      { frameRate := 2997 / 100, dropFrame := true, frameCount := .int 8998192055487657,
        hours := .nan, minutes := .nan, seconds := .nan, frames := .nan } rfl
    have hn := numOfFramesToDrop_of_is30DF _ h3
    have f1 : JSNum.Binary64.floorDiv (.int 8998192055487657) (.int 17982)
        = .int 500399958596 := by
      rw [JSNum.Binary64.floorDiv64_int_int _ _ (by decide) (by norm_num) (by decide)]
      rfl
    have m1 : JSNum.int 8998192055487657 % JSNum.int 17982 = JSNum.int 14385 := by
      rw [JSNum.int_mod_int _ _ (by decide) (by decide)]
      rfl
    have s1 : JSNum.Binary64.sub (.int 14385) (.int 2) = .int 14383 := by
      rw [JSNum.Binary64.sub64_int_int _ _ (by norm_num)]
      rfl
    have f2 : JSNum.Binary64.floorDiv (.int 14383) (.int 1798) = .int 7 := by
      rw [JSNum.Binary64.floorDiv64_int_int _ _ (by decide) (by norm_num) (by decide)]
      rfl
    have p1 : JSNum.Binary64.mul (.int 18) (.int 500399958596) = .int 9007199254728 := by
      rw [JSNum.Binary64.mul64_int_int _ _ (by norm_num)]
      rfl
    have p2 : JSNum.Binary64.mul (.int 2) (.int 7) = .int 14 := by
      rw [JSNum.Binary64.mul64_int_int _ _ (by norm_num)]
      rfl
    have a1 : JSNum.Binary64.add (.int 9007199254728) (.int 14) = .int 9007199254742 := by
      rw [JSNum.Binary64.add64_int_int _ _ (by norm_num)]
      rfl
    have p3 : JSNum.Binary64.mul (.int 30) (.int 60) = .int 1800 := by
      rw [JSNum.Binary64.mul64_int_int _ _ (by norm_num)]
      rfl
    have p4 : JSNum.Binary64.mul (.int 30) (.int 3600) = .int 108000 := by
      rw [JSNum.Binary64.mul64_int_int _ _ (by norm_num)]
      rfl
    have g1 : JSNum.Binary64.floorDiv (.int 9007199254742400) (.int 30)
        = .int 300239975158080 :=
      floorDiv64_exact _ _ _ (by decide) (by decide) (by norm_num)
    have g2 : JSNum.Binary64.floorDiv (.int 9007199254742400) (.int 1800)
        = .int 5003999585968 :=
      floorDiv64_exact _ _ _ (by decide) (by decide) (by norm_num)
    have k1 : (17982 * 2 / 2 : Int) = 17982 := by decide
    have k2 : (1798 * 2 / 2 : Int) = 1798 := by decide
    have k3 : (9 * 2 : Int) = 18 := by decide
    have l1 : decide ((14385 : Int) < 2) = false := by decide
    simp only [Binary64._frameCountToTimeCode, hn, round_2997, if_true, k1, k2, k3, m1,
      JSNum.lt_int_int, l1, Bool.false_eq_true, if_false, f1, s1, f2, p1, p2, a1,
      add64_example, p3, p4, g1, g2, floorDiv64_example]
    rfl
  · have h3 := is30DF_2997
      { frameRate := 2997 / 100, dropFrame := true, frameCount := .int 8998192055487657,
        hours := .int 11, minutes := .int 28, seconds := .int 0, frames := .int 0 } rfl
    have hn := numOfFramesToDrop_of_is30DF _ h3
    have m : JSNum.int 28 % JSNum.int 10 = JSNum.int 8 := rfl
    simp only [_validate, h3, hn, m]
    norm_num

/-- Up to 8998192055486249 the frame number with the dropped numbers counted in is below
`2 ^ 53`. -/
theorem inflated_lt_two_pow (df c : Int) (hdf : df = 2 ∨ df = 4) (h0 : 0 ≤ c)
    (hs : c ≤ 8998192055486249) : inflated df c < 2 ^ 53 := by
  rcases hdf with rfl | rfl
  · simp only [inflated]
    norm_num
    by_cases hb : c / 17982 ≤ 500399958595
    · split_ifs <;> omega
    · split_ifs <;> omega
  · simp only [inflated]
    norm_num
    by_cases hb : c / 35964 ≤ 250199979297
    · split_ifs <;> omega
    · split_ifs <;> omega

/-- C3, amended. Drop-frame exclusion: with `dropFrame = true` at a drop-eligible rate
(29.97 with `df = 2`, 59.94 with `df = 4`, and every rate the program treats as one of
them), for every integer frame count `fc` with `0 ≤ fc ≤ 8998192055486249`, for which the
frame number with the dropped numbers counted in stays below `2 ^ 53`, the fields computed
by `_frameCountToTimeCode` in double precision are integers with `0 ≤ H < 24`,
`0 ≤ M < 60`, `0 ≤ S < 60`, `0 ≤ F < round(rate)`, they are never a dropped frame number
(`S = 0`, `M mod 10 ≠ 0`, `F < df`), and the object passes `_validate`. -/
theorem C3_dropFrame_exclusion (this : Timecode) (fc : Int)
    (hel : this._is30DF = true ∨ this._is60DF = true) (hdrop : this.dropFrame = true)
    (hfc : this.frameCount = .int fc) (h0 : 0 ≤ fc) (hs : fc ≤ 8998192055486249) :
    ∃ H M S F : Int,
      (Binary64._frameCountToTimeCode this).hours = .int H
      ∧ (Binary64._frameCountToTimeCode this).minutes = .int M
      ∧ (Binary64._frameCountToTimeCode this).seconds = .int S
      ∧ (Binary64._frameCountToTimeCode this).frames = .int F
      ∧ (0 ≤ H ∧ H < 24) ∧ (0 ≤ M ∧ M < 60) ∧ (0 ≤ S ∧ S < 60)
      ∧ (0 ≤ F ∧ F < Math.round this.frameRate)
      ∧ ¬ (S = 0 ∧ M % 10 ≠ 0 ∧ F < this._numOfFramesToDrop)
      ∧ (Binary64._frameCountToTimeCode this)._validate = .ok () := by
  have hcases : (this._numOfFramesToDrop = 2 ∨ this._numOfFramesToDrop = 4)
      ∧ 0 ≤ Math.round this.frameRate := by
    rcases eligible_cases this hel with ⟨h1, h2⟩ | ⟨h1, h2⟩
    · exact ⟨Or.inl h1, by rw [h2]; decide⟩
    · exact ⟨Or.inr h1, by rw [h2]; decide⟩
  obtain ⟨hdf, hfps⟩ := hcases
  rw [frameCountToTimeCode_eq this fc hfc h0 (by omega) hfps
    (fun _ => ⟨hdf, inflated_lt_two_pow _ fc hdf h0 hs⟩)]
  exact frameCountToTimeCode_valid_drop this fc hel hdrop hfc h0

theorem C3_dropFrame_exclusion_witness :
    ∃ H M S F : Int,
      (Binary64._frameCountToTimeCode
        { frameRate := 2997 / 100, dropFrame := true, frameCount := .int 1800, hours := .nan,
          minutes := .nan, seconds := .nan, frames := .nan }).hours = .int H
      ∧ (Binary64._frameCountToTimeCode
        { frameRate := 2997 / 100, dropFrame := true, frameCount := .int 1800, hours := .nan,
          minutes := .nan, seconds := .nan, frames := .nan }).minutes = .int M
      ∧ (Binary64._frameCountToTimeCode
        { frameRate := 2997 / 100, dropFrame := true, frameCount := .int 1800, hours := .nan,
          minutes := .nan, seconds := .nan, frames := .nan }).seconds = .int S
      ∧ (Binary64._frameCountToTimeCode
        { frameRate := 2997 / 100, dropFrame := true, frameCount := .int 1800, hours := .nan,
          minutes := .nan, seconds := .nan, frames := .nan }).frames = .int F
      ∧ ¬ (S = 0 ∧ M % 10 ≠ 0 ∧ F < 2) := by
  obtain ⟨H, M, S, F, hH, hM, hS, hF, -, -, -, -, hv, -⟩ :=
    C3_dropFrame_exclusion
      { frameRate := 2997 / 100, dropFrame := true, frameCount := .int 1800, hours := .nan,
        minutes := .nan, seconds := .nan, frames := .nan }
      1800 (Or.inl (is30DF_2997 _ rfl)) rfl rfl (by decide) (by decide)
  rw [numOfFramesToDrop_of_is30DF _ (is30DF_2997 _ rfl)] at hv
  exact ⟨H, M, S, F, hH, hM, hS, hF, hv⟩

end Binary64
namespace Binary64

/-! ## `add` in double precision -/

/-- When the new count, as the double sum gives it, is not negative, `add` succeeds whatever
the rollover argument is, and stores the new count reduced with `%` by
`round(rate * 86400)`. -/
theorem addNumber64_of_sum (this : Timecode) (c r y : Int) (negative : Bool)
    (rollOverMaxHours : Option ℚ) (hc : this.frameCount = .int c)
    (hy : JSNum.Binary64.add (.int c) (.int (if negative then -r else r)) = .int y)
    (h : 0 ≤ y) :
    Binary64.addNumber this (.int r) negative rollOverMaxHours =
      .ok (Binary64._frameCountToTimeCode
        { this with
          frameCount := JSNum.int y % JSNum.int (Math.round (this.frameRate * 86400)) }) := by
  unfold Binary64.addNumber
  rw [hc, signed_int, hy]
  have hlt : ¬ (y < 0) := by omega
  simp [hlt]

/-- The same when the exact new count is not negative and below `2 ^ 53`. -/
theorem addNumber64_of_nonneg (this : Timecode) (c r : Int) (negative : Bool)
    (rollOverMaxHours : Option ℚ) (hc : this.frameCount = .int c)
    (h : 0 ≤ c + (if negative then -r else r)) (hs : c + (if negative then -r else r) < 2 ^ 53) :
    Binary64.addNumber this (.int r) negative rollOverMaxHours =
      .ok (Binary64._frameCountToTimeCode
        { this with
          frameCount := JSNum.int (c + (if negative then -r else r))
            % JSNum.int (Math.round (this.frameRate * 86400)) }) :=
  addNumber64_of_sum this c r _ negative rollOverMaxHours hc
    (JSNum.Binary64.add64_int_int _ _ (by rw [abs_of_nonneg h]; exact hs)) h

/-- The sum `2 + 9007199254740991`, which is `2 ^ 53 + 1`, is not a double: it rounds to
`2 ^ 53`. -/
theorem add64_two_pow :
    JSNum.Binary64.add (.int 2) (.int 9007199254740991) = .int 9007199254740992 := by
  have e : JSNum.Binary64.round ((2 : Int) + (9007199254740991 : Int) : ℚ)
      = 9007199254740992 := by
    rw [JSNum.Binary64.round_of_binade _ 53 (by norm_num [abs_of_pos])
      (by norm_num [abs_of_pos])]
    norm_num [JSNum.Binary64.roundHalfEven]
  simp only [JSNum.Binary64.add, e]
  norm_num

/-- C8, as stated, fails in three places.  (a) At the frame rate 1/200000, which the
constructor accepts, `round(rate * 86400) = 0`: the `Timecode` of frame count 0 exists,
`add(0)` succeeds and leaves `frameCount = NaN`, which is not in `[0, round(rate * 86400))`.
(b) At 25 fps, adding the amount 0.4 to frame count 0 has `0 ≤ c + n < round(rate * 86400)`
but the frame count stays 0: it grows by `round(n)`, not by `n`.  (c) At 25 fps, adding
9007199254740991 to frame count 2 gives the double sum `2 ^ 53`, not `2 ^ 53 + 1`, and the
new frame count is 2100992, while `(c + n) mod round(rate * 86400)` is 2100993. -/
theorem C8_counterexample :
    (Math.round ((1 / 200000 : ℚ) * 86400) = 0
      ∧ ∃ t, new (.number 0) (1 / 200000) (some false) = .ok t ∧ t.frameCount = .int 0
        ∧ ∃ u, Binary64.add t 0 false none = .ok u ∧ u.frameCount = .nan)
    ∧ ((0 : ℚ) ≤ 0 + 2 / 5 ∧ (0 + 2 / 5 : ℚ) < Math.round ((25 : ℚ) * 86400)
      ∧ ∃ t, new (.number 0) 25 (some false) = .ok t ∧ t.frameCount = .int 0
        ∧ ∃ u, Binary64.add t (2 / 5) false none = .ok u ∧ u.frameCount = .int 0)
    ∧ ((2 + 9007199254740991 : Int) % Math.round ((25 : ℚ) * 86400) = 2100993
      ∧ ∃ t, new (.number 2) 25 (some false) = .ok t ∧ t.frameCount = .int 2
        ∧ ∃ u, Binary64.add t 9007199254740991 false none = .ok u
          ∧ u.frameCount = .int 2100992) := by
  have hday : Math.round ((1 / 200000 : ℚ) * 86400) = 0 := by norm_num [Math.round]
  have hday25 : Math.round ((25 : ℚ) * 86400) = 2160000 := by norm_num [Math.round]
  have hr25 : Math.round (2 / 5 : ℚ) = 0 := by norm_num [Math.round]
  have hbig : Math.round (9007199254740991 : ℚ) = 9007199254740991 := by
    exact_mod_cast round_intCast 9007199254740991
  refine ⟨⟨hday, ?_⟩, ⟨by norm_num, by rw [hday25]; norm_num, ?_⟩, ⟨by rw [hday25]; decide, ?_⟩⟩
  · obtain ⟨X, hXr, hXc, -, -, -, hnew⟩ := new_number_ok 0 (1 / 200000) (some false)
      (by norm_num) (fun h => absurd h (by simp)) (by decide)
    refine ⟨X._frameCountToTimeCode, by exact_mod_cast hnew, hXc, ?_⟩
    have e := addNumber64_of_nonneg (_frameCountToTimeCode X) 0 0 false none hXc (by decide)
      (by norm_num)
    refine ⟨_, by simpa [Binary64.add, round_zero] using e, ?_⟩
    show JSNum.int (0 + (if false = true then -0 else 0))
      % JSNum.int (Math.round (X.frameRate * 86400)) = _
    rw [hXr, hday]
    rfl
  · obtain ⟨X, hXr, hXc, -, -, -, hnew⟩ := new_number_ok 0 25 (some false)
      (by norm_num) (fun h => absurd h (by simp)) (by decide)
    refine ⟨X._frameCountToTimeCode, by exact_mod_cast hnew, hXc, ?_⟩
    have e := addNumber64_of_nonneg (_frameCountToTimeCode X) 0 0 false none hXc (by decide)
      (by norm_num)
    refine ⟨_, by simpa [Binary64.add, hr25] using e, ?_⟩
    show JSNum.int (0 + (if false = true then -0 else 0))
      % JSNum.int (Math.round (X.frameRate * 86400)) = _
    rw [hXr, hday25]
    rfl
  · obtain ⟨X, hXr, hXc, -, -, -, hnew⟩ := new_number_ok 2 25 (some false)
      (by norm_num) (fun h => absurd h (by simp)) (by decide)
    refine ⟨X._frameCountToTimeCode, by exact_mod_cast hnew, hXc, ?_⟩
    have e := addNumber64_of_sum (_frameCountToTimeCode X) 2 9007199254740991
      9007199254740992 false none hXc add64_two_pow (by decide)
    refine ⟨_, by simpa [Binary64.add, hbig] using e, ?_⟩
    show JSNum.int 9007199254740992 % JSNum.int (Math.round (X.frameRate * 86400)) = _
    rw [hXr, hday25]
    rfl

/-- C8, amended. For a `Timecode` with frame count `c` at a frame rate with
`round(rate * 86400) ≥ 1`, and a numeric amount `n` with `0 ≤ c + round(n) < 2 ^ 53`
(`add`, `negative = false`) or `0 ≤ c - round(n) < 2 ^ 53` (`subtract`, which is `add`
with `negative = true`), the operation, in double precision, succeeds whatever the
rollover argument, the new `frameCount` is `(c ± round(n)) mod round(rate * 86400)` and
lies in `[0, round(rate * 86400))`, the new object is `_frameCountToTimeCode` of the
receiver with that frame count (so the fields are recomputed and `frameRate`, `dropFrame`
are unchanged), and when `c ± round(n) < round(rate * 86400)` the new frame count is
exactly `c ± round(n)`. -/
theorem C8_add_result (this : Timecode) (c : Int) (n : ℚ) (negative : Bool)
    (rollOverMaxHours : Option ℚ) (hc : this.frameCount = .int c)
    (hday : 0 < Math.round (this.frameRate * 86400))
    (hnn : 0 ≤ c + (if negative then -Math.round n else Math.round n))
    (hsafe : c + (if negative then -Math.round n else Math.round n) < 2 ^ 53) :
    Binary64.subtract this n rollOverMaxHours = Binary64.add this n true rollOverMaxHours
    ∧ ∃ t, Binary64.add this n negative rollOverMaxHours = .ok t
      ∧ t.frameCount = .int ((c + (if negative then -Math.round n else Math.round n))
          % Math.round (this.frameRate * 86400))
      ∧ 0 ≤ (c + (if negative then -Math.round n else Math.round n))
          % Math.round (this.frameRate * 86400)
      ∧ (c + (if negative then -Math.round n else Math.round n))
          % Math.round (this.frameRate * 86400) < Math.round (this.frameRate * 86400)
      ∧ t = Binary64._frameCountToTimeCode
          { this with
            frameCount := .int ((c + (if negative then -Math.round n else Math.round n))
              % Math.round (this.frameRate * 86400)) }
      ∧ t.frameRate = this.frameRate ∧ t.dropFrame = this.dropFrame
      ∧ (c + (if negative then -Math.round n else Math.round n)
            < Math.round (this.frameRate * 86400) →
          t.frameCount = .int (c + (if negative then -Math.round n else Math.round n))) := by
  refine ⟨rfl, ?_⟩
  have e : Binary64.add this n negative rollOverMaxHours
      = Binary64.addNumber this (.int (Math.round n)) negative rollOverMaxHours := rfl
  rw [e, addNumber64_of_nonneg this c _ negative rollOverMaxHours hc hnn hsafe,
    JSNum.int_mod_int _ _ hnn hday]
  refine ⟨_, rfl, rfl, Int.emod_nonneg _ hday.ne', Int.emod_lt_of_pos _ hday, rfl, rfl, rfl,
    fun h => ?_⟩
  show JSNum.int _ = JSNum.int _
  rw [Int.emod_eq_of_lt hnn h]

theorem C8_add_result_witness :
    ∃ t,
      Binary64.add
          { frameRate := 2997 / 100, dropFrame := true, frameCount := .int 150606,
            hours := .int 1, minutes := .int 23, seconds := .int 45, frames := .int 6 }
          60 false none = .ok t
      ∧ t.frameCount = .int 150666 := by
  have h60 : Math.round (60 : ℚ) = 60 := by exact_mod_cast round_intCast 60
  obtain ⟨-, t, h1, -, -, -, -, -, -, h2⟩ := C8_add_result
    { frameRate := 2997 / 100, dropFrame := true, frameCount := .int 150606,
      hours := .int 1, minutes := .int 23, seconds := .int 45, frames := .int 6 }
    150606 60 false none rfl (by rw [round_day_2997]; decide) (by rw [h60]; decide)
    (by rw [h60]; norm_num)
  refine ⟨t, h1, ?_⟩
  have h3 := h2 (by rw [h60]; show (150606 : Int) + 60 < _; rw [round_day_2997]; decide)
  rw [h60] at h3
  exact h3

end Binary64

/-! ## Wrap-around of `add` in double precision -/

/-- In exact integer arithmetic: at 29.97 without drop-frame (the setting the constructor
chooses for a string written with `:`), 23:59:59:00 is a valid timecode with frame count
2591970, below `frameCount(23:59:59:29) + 1 = 2592000`, but `add(0)` reduces the count
modulo `round(rate * 86400) = 2589408` and leaves frame count 2562, displayed
00:01:25:12. -/
theorem wrap_example_exact :
    (∃ m, new (.string "23:59:59:29") (2997 / 100) none = .ok m
      ∧ m.frameCount = .int (2592000 - 1))
    ∧ ∃ t, new (.string "23:59:59:00") (2997 / 100) none = .ok t
      ∧ t.dropFrame = false ∧ t.frameCount = .int 2591970
      ∧ t.hours = .int 23 ∧ t.minutes = .int 59 ∧ t.seconds = .int 59 ∧ t.frames = .int 0
      ∧ ∃ u, t.add (.value (.number 0)) false none = .ok u
        ∧ u.frameCount = .int 2562
        ∧ u.hours = .int 0 ∧ u.minutes = .int 1 ∧ u.seconds = .int 25
        ∧ u.frames = .int 12 := by
  have hv : ∀ F : Int, 0 ≤ F → F < 30 → ∀ c : JSNum,
      _validate { frameRate := 2997 / 100, dropFrame := false, frameCount := c,
                  hours := .int 23, minutes := .int 59, seconds := .int 59,
                  frames := .int F } = .ok () := by
    intro F h0 h1 c
    rw [validate_eq_ok_iff _ 23 59 59 F rfl rfl rfl rfl (by decide)]
    refine ⟨fun h => absurd h (by simp), by decide, by decide, by decide, ?_,
      fun h => absurd h (by simp)⟩
    exact lt_rate_of_lt_round _ _ (by rw [round_2997]; exact h1)
  constructor
  · have hm : matchTimecode "23:59:59:29"
        = some { p1 := 23, p2 := 59, p3 := 59, p4 := ':', p5 := 29 } := by decide
    rw [new_string_eq _ _ _ _ (by norm_num) hm]
    have e := timeCodeToFrameCount_nodrop
      { frameRate := 2997 / 100, dropFrame := false, frameCount := .nan, hours := .int 23,
        minutes := .int 59, seconds := .int 59, frames := .int 29 } 23 59 59 29 rfl rfl rfl
      rfl rfl
    rw [round_2997] at e
    norm_num at e
    have hd : (none : Option Bool).getD ((':' : Char) != ':') = false := by decide
    simp only [hd]
    rw [e, hv 29 (by decide) (by decide)]
    exact ⟨_, rfl, rfl⟩
  · have hm : matchTimecode "23:59:59:00"
        = some { p1 := 23, p2 := 59, p3 := 59, p4 := ':', p5 := 0 } := by decide
    rw [new_string_eq _ _ _ _ (by norm_num) hm]
    have e := timeCodeToFrameCount_nodrop
      { frameRate := 2997 / 100, dropFrame := false, frameCount := .nan, hours := .int 23,
        minutes := .int 59, seconds := .int 59, frames := .int 0 } 23 59 59 0 rfl rfl rfl
      rfl rfl
    rw [round_2997] at e
    norm_num at e
    have hd : (none : Option Bool).getD ((':' : Char) != ':') = false := by decide
    simp only [hd]
    rw [e, hv 0 (by decide) (by decide)]
    refine ⟨_, rfl, rfl, rfl, rfl, rfl, rfl, rfl, ?_⟩
    show ∃ u, addNumber _ (.int (Math.round 0)) false none = .ok u ∧ _
    rw [round_zero, addNumber_of_nonneg _ 2591970 0 false none rfl (by decide)]
    have hmod : (JSNum.int (2591970 + (if false = true then -0 else 0))
        % JSNum.int (Math.round ((2997 / 100 : ℚ) * 86400))) = JSNum.int 2562 := by
      rw [round_day_2997]; rfl
    simp only [hmod]
    have k := frameCountToTimeCode_nodrop
      { frameRate := 2997 / 100, dropFrame := false, frameCount := .int 2562,
        hours := .int 23, minutes := .int 59, seconds := .int 59, frames := .int 0 }
      2562 rfl rfl (by decide) (by rw [round_2997]; decide)
    rw [round_2997] at k
    norm_num at k
    rw [k]
    exact ⟨_, rfl, rfl, rfl, rfl, rfl, rfl⟩

namespace Binary64

/-- With a new count in `[0, 2 ^ 53)`, `add` in double precision is the exact `add`. -/
theorem add64_eq_add (this : Timecode) (c : Int) (n : ℚ) (negative : Bool)
    (rollOverMaxHours : Option ℚ) (hc : this.frameCount = .int c)
    (h0 : 0 ≤ c + (if negative then -Math.round n else Math.round n))
    (hs : c + (if negative then -Math.round n else Math.round n) < 2 ^ 53)
    (hday : 0 < Math.round (this.frameRate * 86400))
    (hfps : 0 ≤ Math.round this.frameRate)
    (hdrop : this.dropFrame = true →
      (this._numOfFramesToDrop = 2 ∨ this._numOfFramesToDrop = 4)
      ∧ inflated this._numOfFramesToDrop
          ((c + (if negative then -Math.round n else Math.round n))
            % Math.round (this.frameRate * 86400)) < 2 ^ 53) :
    Binary64.add this n negative rollOverMaxHours
      = this.add (.value (.number n)) negative rollOverMaxHours := by
  have e1 : Binary64.add this n negative rollOverMaxHours
      = Binary64.addNumber this (.int (Math.round n)) negative rollOverMaxHours := rfl
  have e2 : this.add (.value (.number n)) negative rollOverMaxHours
      = this.addNumber (.int (Math.round n)) negative rollOverMaxHours := rfl
  have hm0 := Int.emod_nonneg (c + (if negative then -Math.round n else Math.round n))
    hday.ne'
  have hm1 : (c + (if negative then -Math.round n else Math.round n))
      % Math.round (this.frameRate * 86400)
      ≤ c + (if negative then -Math.round n else Math.round n) := by
    generalize c + (if negative then -Math.round n else Math.round n) = x at h0
    generalize Math.round (this.frameRate * 86400) = d at hday
    have h1 := Int.emod_add_ediv x d
    have h2 : 0 ≤ d * (x / d) := Int.mul_nonneg hday.le (Int.ediv_nonneg h0 hday.le)
    omega
  rw [e1, e2, addNumber64_of_nonneg this c _ negative rollOverMaxHours hc h0 hs,
    addNumber_of_nonneg this c _ negative rollOverMaxHours hc h0,
    JSNum.int_mod_int _ _ h0 hday]
  exact congrArg Except.ok (frameCountToTimeCode_eq
    { this with
      frameCount := .int ((c + (if negative then -Math.round n else Math.round n))
        % Math.round (this.frameRate * 86400)) }
    _ rfl hm0 (lt_of_le_of_lt hm1 hs) hfps hdrop)

/-- C10, as stated, fails in two places.  (a) At 29.97 without drop-frame (the setting the
constructor chooses for a string written with `:`), 23:59:59:00 is a valid timecode with
frame count 2591970, below `L = frameCount(23:59:59:29) + 1 = 2592000`, but `add(0)`
reduces the count modulo `round(rate * 86400) = 2589408` and leaves frame count 2562,
displayed 00:01:25:12.  (b) At 25 fps, where `round(rate * 86400) = L = 2160000`, adding
9007199254740991 to 00:00:00:02 gives the double sum `2 ^ 53`, not `2 ^ 53 + 1`, and the
new frame count is 2100992, while `(c + n) mod L` is 2100993. -/
theorem C10_counterexample :
    ((∃ m, new (.string "23:59:59:29") (2997 / 100) none = .ok m
        ∧ m.frameCount = .int (2592000 - 1))
      ∧ ∃ t, new (.string "23:59:59:00") (2997 / 100) none = .ok t
        ∧ t.dropFrame = false ∧ t.frameCount = .int 2591970
        ∧ t.hours = .int 23 ∧ t.minutes = .int 59 ∧ t.seconds = .int 59 ∧ t.frames = .int 0
        ∧ ∃ u, Binary64.add t 0 false none = .ok u
          ∧ u.frameCount = .int 2562
          ∧ u.hours = .int 0 ∧ u.minutes = .int 1 ∧ u.seconds = .int 25
          ∧ u.frames = .int 12)
    ∧ ∃ t, new (.string "00:00:00:02") 25 none = .ok t
        ∧ t.frameCount = .int 2 ∧ t.timecodesPerDay = 2160000
        ∧ Math.round (t.frameRate * 86400) = 2160000
        ∧ (2 + 9007199254740991 : Int) % 2160000 = 2100993
        ∧ ∃ u, Binary64.add t 9007199254740991 false none = .ok u
          ∧ u.frameCount = .int 2100992 := by
  constructor
  · obtain ⟨hm, t, ht, hd, hc, hH, hM, hS, hF, u, hu, rest⟩ := wrap_example_exact
    refine ⟨hm, t, ht, hd, hc, hH, hM, hS, hF, u, ?_, rest⟩
    obtain ⟨-, hfr, -, -⟩ := new_fields_inv _ _ _ t (fun x h => by simp at h) ht
    rw [add64_eq_add t 2591970 0 false none hc (by rw [round_zero]; decide)
      (by rw [round_zero]; norm_num) (by rw [hfr, round_day_2997]; decide)
      (by rw [hfr, round_2997]; decide) (fun h => by rw [hd] at h; exact absurd h (by simp))]
    exact hu
  · have hm : matchTimecode "00:00:00:02"
        = some { p1 := 0, p2 := 0, p3 := 0, p4 := ':', p5 := 2 } := by decide
    have hd : (none : Option Bool).getD ((':' : Char) != ':') = false := by decide
    have e : new (.string "00:00:00:02") 25 none
        = new (.object 0 0 0 2) 25 (some false) := by
      rw [new_string_eq _ _ _ _ (by norm_num) hm, new_object_eq _ _ _ _ _ _ (by norm_num)]
      simp only [hd, Option.getD_some]
    have h25 : Math.round (25 : ℚ) = 25 := by exact_mod_cast round_intCast 25
    have hday : Math.round ((25 : ℚ) * 86400) = 2160000 := by norm_num [Math.round]
    have hbig : Math.round (9007199254740991 : ℚ) = 9007199254740991 := by
      exact_mod_cast round_intCast 9007199254740991
    rw [e, new_object_nodrop 0 0 0 2 _ (by norm_num) (by decide) (by decide) (by decide)
      (by decide) (by norm_num), h25]
    refine ⟨_, rfl, rfl, ?_, hday, by decide, ?_⟩
    · simp only [timecodesPerDay, h25]
      norm_num
    · have a := addNumber64_of_sum
        { frameRate := 25, dropFrame := false,
          frameCount := .int ((0 * 3600 + 0 * 60 + 0) * 25 + 2),
          hours := .int 0, minutes := .int 0, seconds := .int 0, frames := .int 2 }
        2 9007199254740991 9007199254740992 false none rfl add64_two_pow (by decide)
      refine ⟨_, by simpa [Binary64.add, hbig] using a, ?_⟩
      show JSNum.int 9007199254740992 % JSNum.int (Math.round ((25 : ℚ) * 86400)) = _
      rw [hday]
      rfl

/-- C10, amended. Let `t` be constructed from a string or an object at an accepted rate
and drop-frame setting, with non-negative integer fields `H`, `M`, `S`, `F < round(rate)`,
frame count `c`, and let `n ≥ 0` be an integer with `c + n < 2 ^ 53`.  Write
`L = timecodesPerDay`, which is `frameCount(23:59:59:(round(rate) - 1)) + 1`.  Whenever
`round(rate * 86400) = L` (as at 29.97 and 59.94 with drop-frame and at integer rates
without), `t.add(n)`, in double precision, succeeds and is `_frameCountToTimeCode` at frame
count `(c + n) mod L`; if `c + n < L` the frame count is `c + n`; `add(0)` leaves the
object unchanged; and adding one frame to 23:59:59:(round(rate) - 1) gives frame count 0
and 00:00:00:00. -/
theorem C10_add_wraps_at_day (timeCode : Input) (rate : ℚ) (dropFrame : Option Bool)
    (rollOverMaxHours : Option ℚ) (t : Timecode) (H M S F c n : Int)
    (hin : ∀ x, timeCode ≠ .number x) (hnew : new timeCode rate dropFrame = .ok t)
    (hH : t.hours = .int H) (hM : t.minutes = .int M) (hS : t.seconds = .int S)
    (hF : t.frames = .int F) (hH0 : 0 ≤ H) (hM0 : 0 ≤ M) (hS0 : 0 ≤ S) (hF0 : 0 ≤ F)
    (hF1 : F < Math.round rate) (hc : t.frameCount = .int c) (hn : 0 ≤ n)
    (hsafe : c + n < 2 ^ 53)
    (hday : Math.round (rate * 86400) = t.timecodesPerDay) :
    (_timeCodeToFrameCount
        { t with hours := .int 23, minutes := .int 59, seconds := .int 59,
                 frames := .int (Math.round t.frameRate - 1) }).frameCount
      = .int (t.timecodesPerDay - 1)
    ∧ ∃ u, Binary64.add t (n : ℚ) false rollOverMaxHours = .ok u
      ∧ u = Binary64._frameCountToTimeCode
          { t with frameCount := .int ((c + n) % t.timecodesPerDay) }
      ∧ u = Timecode._frameCountToTimeCode
          { t with frameCount := .int ((c + n) % t.timecodesPerDay) }
      ∧ (c + n < t.timecodesPerDay → u.frameCount = .int (c + n))
      ∧ (n = 0 → u = t)
      ∧ (H = 23 ∧ M = 59 ∧ S = 59 ∧ F = Math.round rate - 1 ∧ n = 1 →
          u.frameCount = .int 0 ∧ u.hours = .int 0 ∧ u.minutes = .int 0
          ∧ u.seconds = .int 0 ∧ u.frames = .int 0) := by
  obtain ⟨hlast, u, hu, hconv, h1, h2, h3⟩ := add_wraps_at_day_exact timeCode rate dropFrame
    rollOverMaxHours t H M S F c n hin hnew hH hM hS hF hH0 hM0 hS0 hF0 hF1 hc hn hday
  obtain ⟨hr, hfr, hval, hcons⟩ := new_fields_inv timeCode rate dropFrame t hin hnew
  obtain ⟨hel, hH23, hM59, hS59, -, hnd⟩ :=
    (validate_eq_ok_iff t H M S F hH hM hS hF hM0).1 hval
  rw [← hfr] at hF1 hday
  have hfps : 0 < Math.round t.frameRate := by omega
  obtain ⟨hc0, hcL⟩ := frameCount_lt_timecodesPerDay t H M S F c hH hM hS hF hH0 (by omega)
    hM0 (by omega) hS0 (by omega) hF0 hF1 hel hcons hc
  have hL : 0 < t.timecodesPerDay := by omega
  have hm0 : 0 ≤ (c + n) % t.timecodesPerDay := Int.emod_nonneg _ hL.ne'
  have hm1 : (c + n) % t.timecodesPerDay < t.timecodesPerDay := Int.emod_lt_of_pos _ hL
  have hmle : (c + n) % t.timecodesPerDay ≤ c + n := by
    have h4 := Int.emod_add_ediv (c + n) t.timecodesPerDay
    have h5 : 0 ≤ t.timecodesPerDay * ((c + n) / t.timecodesPerDay) :=
      Int.mul_nonneg hL.le (Int.ediv_nonneg (by omega) hL.le)
    omega
  have hdrop : t.dropFrame = true →
      (t._numOfFramesToDrop = 2 ∨ t._numOfFramesToDrop = 4)
      ∧ inflated t._numOfFramesToDrop ((c + n) % t.timecodesPerDay) < 2 ^ 53 := by
    intro hd
    have hL' : t.timecodesPerDay ≤ 86400 * 60 := by
      unfold timecodesPerDay
      rw [if_pos hd]
      rcases eligible_cases t (hel hd) with ⟨e1, e2⟩ | ⟨e1, e2⟩ <;> rw [e1, e2] <;> decide
    have hdf : t._numOfFramesToDrop = 2 ∨ t._numOfFramesToDrop = 4 := by
      rcases eligible_cases t (hel hd) with ⟨e1, -⟩ | ⟨e1, -⟩
      · exact Or.inl e1
      · exact Or.inr e1
    exact ⟨hdf, inflated_lt_two_pow _ _ hdf hm0 (by omega)⟩
  have hR : Math.round ((n : Int) : ℚ) = n := round_intCast n
  have hbridge : Binary64.add t (n : ℚ) false rollOverMaxHours
      = t.add (.value (.number (n : ℚ))) false rollOverMaxHours :=
    add64_eq_add t c (n : ℚ) false rollOverMaxHours hc
      (by simp only [Bool.false_eq_true, if_false, hR]; omega)
      (by simp only [Bool.false_eq_true, if_false, hR]; exact hsafe)
      (by rw [hday]; exact hL) hfps.le
      (by
        intro hd
        simp only [Bool.false_eq_true, if_false, hR, hday]
        exact hdrop hd)
  refine ⟨hlast, u, by rw [hbridge]; exact hu, ?_, hconv, h1, h2, h3⟩
  rw [hconv]
  exact (frameCountToTimeCode_eq
    { t with frameCount := .int ((c + n) % t.timecodesPerDay) } _ rfl hm0
    (by omega) hfps.le hdrop).symm

theorem C10_add_wraps_at_day_witness :
    ∃ u,
      Binary64.add
          { frameRate := 2997 / 100, dropFrame := true, frameCount := .int 2589407,
            hours := .int 23, minutes := .int 59, seconds := .int 59, frames := .int 29 }
          ((1 : Int) : ℚ) false none = .ok u
      ∧ u.frameCount = .int 0 ∧ u.hours = .int 0 ∧ u.minutes = .int 0
      ∧ u.seconds = .int 0 ∧ u.frames = .int 0 := by
  obtain ⟨-, u, h1, -, -, -, -, h2⟩ := C10_add_wraps_at_day (.string "23:59:59;29")
    (2997 / 100) none none
    { frameRate := 2997 / 100, dropFrame := true, frameCount := .int 2589407,
      hours := .int 23, minutes := .int 59, seconds := .int 59, frames := .int 29 }
    23 59 59 29 2589407 1 (fun x h => by simp at h) new_lastTimecode_2997 rfl rfl rfl rfl
    (by decide) (by decide) (by decide) (by decide) (by rw [round_2997]; decide) rfl
    (by decide) (by norm_num)
    (day_eq_timecodesPerDay_2997
      { frameRate := 2997 / 100, dropFrame := true, frameCount := .int 2589407,
        hours := .int 23, minutes := .int 59, seconds := .int 59, frames := .int 29 } rfl rfl)
  exact ⟨u, h1, h2 ⟨rfl, rfl, rfl, by rw [round_2997]; rfl, rfl⟩⟩

end Binary64
end Timecode
end SmpteTimecode
